import Mathlib

/-!
DVB table support (src/dvb/dvb_tables.c).

A shallow embedding of the table-subscription registry, the filter scheduler,
the dispatch step and the PAT/CAT decoders of `dvb_tables.c`.

Modelling conventions.

* A `th_dvb_table_t *` is the number `addr` of the heap object; `calloc` hands out
  the next unused number, so a new object never aliases a live one.
* `tdmi_tables` (a `LIST`) is a Lean list, head first; `tdmi_table_queue`
  (a `TAILQ` of tables) is the list of the addresses linked into it, head first.
* The results of `open`, `epoll_ctl(ADD)` and `ioctl(DMX_SET_FILTER)` are read from
  the script `dev`, one entry per `tdt_open_fd`.
* `assert` failures and calls on a pointer that is not a live table yield `none`.
* `trace` is a ghost log of the calls made, newest last; it is never read by the code.
* A byte buffer is a `List Nat` read through `byte`, which reduces modulo 256.
* Code of other files reached from here (`dvb_adapter_mux_scanner`, `dvb_mux_set_tsid`,
  `psi_parse_pmt`, the broadcast-model updates of the EIT, SDT, NIT and VCT decoders) is
  taken not to touch the subscription set or the pending queue of the stream.
* `int` counters (`tdt_count`, `tdt_id_tally`) are unbounded integers.
* A service pointer is an `Option`, `none` for `NULL`. A read through `NULL` is recorded
  in the trace as `null_deref`; what the program does after it is undefined in C, and the
  embedding goes on with a value taken from the environment. A trace without `null_deref`
  is a run without such a read.
-/

namespace DvbTables

/-! ## Constants -/

def TDT_CRC : Nat := 0x1
def TDT_QUICKREQ : Nat := 0x2
def TDT_INC_TABLE_HDR : Nat := 0x4

/-- Readiness bit of `sys/epoll.h`. -/
def EPOLLIN : Nat := 0x001

/-! ## Data model -/

/-- The part of `struct dmx_sct_filter_params` the file touches: the pid, byte 0 of
the filter and of the mask, and the flags. -/
structure dmx_sct_filter_params where
  pid : Nat
  filter0 : Nat
  mask0 : Nat
  flags : Nat
deriving DecidableEq, Repr

/-- The decoders a subscription can point to (`tdt_callback`). -/
inductive Callback where
  | dvb_eit_callback
  | dvb_sdt_callback
  | dvb_pat_callback
  | dvb_ca_callback
  | dvb_cat_callback
  | dvb_nit_callback
  | atsc_vct_callback
  | dvb_pmt_callback
deriving DecidableEq, Repr

/-- The values stored in the `void *` context of a subscription: `NULL`, a
`th_transport_t *` (program map) or a `ca_stream_t *` with its `cs_caid`. -/
inductive Opaque where
  | null
  | transport (t : Nat)
  | ca_stream (cs : Nat) (cs_caid : Nat)
deriving DecidableEq, Repr

/-- Embedding of `th_dvb_table_t`; `addr` is the address of the object. -/
structure th_dvb_table where
  addr : Nat
  tdt_flags : Nat
  tdt_fd : Int
  tdt_name : String
  tdt_opaque_p : Opaque
  tdt_callback : Callback
  tdt_count : Int
  tdt_pid : Int
  tdt_fparams : dmx_sct_filter_params
  tdt_id : Int
deriving DecidableEq, Repr

/-- Ghost record of a call made by the code. -/
inductive Event where
  | callback (tdt : Nat) (cb : Callback) (ptr : List Nat) (len : Int) (tableid : Nat)
      (opq : Opaque)
  | fastswitch
  | mux_scanner
  | tdt_add (pid : Int) (flags : Nat) (cb : Callback) (opq : Opaque)
  | tdt_open_fd (tdt : Nat)
  | tdt_close_fd (tdt : Nat)
  | epoll_del (fd : Int)
  | close (fd : Int)
  | add_transport (t : Option Nat) (pmt_pid : Int)
  | null_deref
  | mux_set_tsid (tsid : Nat)
deriving DecidableEq, Repr

/-- What the device answers to one bind attempt: the descriptor returned by `open`
(`none` for -1), the return value of `epoll_ctl(EPOLL_CTL_ADD)` and the return value
of `ioctl(DMX_SET_FILTER)`. -/
structure DevResult where
  open_ret : Option Nat
  epoll_ctl_ret : Int
  ioctl_ret : Int
deriving DecidableEq, Repr

/-- A bind attempt on which `open` fails. -/
def dev_fail : DevResult := { open_ret := none, epoll_ctl_ret := 0, ioctl_ret := 0 }

/-- A bind attempt on which all three calls succeed, with descriptor `fd`. -/
def dev_ok (fd : Nat) : DevResult := { open_ret := some fd, epoll_ctl_ret := 0, ioctl_ret := 0 }

/-- The tuned stream `tdmi`, the fields of its adapter the file uses, the global
`tdt_id_tally`, and the environment (heap, device script, ghost trace). -/
structure State where
  tdmi_tables : List th_dvb_table
  tdmi_table_queue : List Nat
  tdmi_table_initial : Int
  tdmi_table_start : Int
  tdmi_transport_stream_id : Nat
  -- true when tda->tda_mux_current is this stream, false when it is NULL
  tda_mux_current : Bool
  tda_initial_num_mux : Int
  tdt_id_tally : Int
  heap_next : Nat
  dev : List DevResult
  trace : List Event
deriving DecidableEq, Repr

/-- Code outside this file, taken as parameters: `psi_crc32` of psi.c, the service
lookup `dvb_transport_find` on the service id and the PMT pid (`none` for the `NULL` the
callers at lines 496, 663 and 1092 test for), the `tht_dvb_service_id` field of a
service, the value `null_read` a read through a `NULL` service pointer yields where it
does not fault, the descriptor tag `DVB_DESC_CA` of dvb_support.h, the flags of
linux/dvb/dmx.h, and the return value of the decoders that do not touch the registry
(EIT, SDT, NIT, VCT). -/
structure Env where
  psi_crc32 : List Nat → Int → Nat
  dvb_transport_find : Nat → Nat → Option Nat
  tht_dvb_service_id : Nat → Nat
  null_read : Nat
  DVB_DESC_CA : Nat
  DMX_CHECK_CRC : Nat
  DMX_IMMEDIATE_START : Nat
  decoder_ret : Callback → State → List Nat → Int → Nat → Int

/-! ## Helpers -/

/-- Byte `i` of a buffer (`ptr[i]` for a `uint8_t *`). -/
def byte (p : List Nat) (i : Nat) : Nat := (p.getD i 0) % 256

/-- Append a record to the ghost trace. -/
def log (s : State) (e : Event) : State := { s with trace := s.trace ++ [e] }

/-- The live table at address `a`, if any. -/
def find_tdt (s : State) (a : Nat) : Option th_dvb_table :=
  s.tdmi_tables.find? (fun t => t.addr == a)

/-- Assignment through a `th_dvb_table_t *`: apply `f` to the table at address `a`. -/
def upd_tdt (s : State) (a : Nat) (f : th_dvb_table → th_dvb_table) : State :=
  { s with tdmi_tables := s.tdmi_tables.map (fun t => if t.addr = a then f t else t) }

/-- `calloc`: the next unused address. -/
def calloc (s : State) : Nat × State := (s.heap_next, { s with heap_next := s.heap_next + 1 })

/-- `dvb_fparams_alloc`: a zeroed filter parameter struct. -/
def dvb_fparams_alloc : dmx_sct_filter_params := { pid := 0, filter0 := 0, mask0 := 0, flags := 0 }

/-- Value of `open(2)` as an `int`. -/
def open_fd_value (d : DevResult) : Int :=
  match d.open_ret with
  | none => -1
  | some n => (n : Int)

/-! ## Filter scheduler -/

/-- Embedding of `tdt_open_fd` (lines 138-169). -/
def tdt_open_fd (s : State) (tdt : Nat) : Option State :=
  match find_tdt s tdt with
  | none => none
  | some t =>
    if t.tdt_fd ≠ -1 then none                                    -- assert(tdt->tdt_fd == -1)
    else
      let s := log s (Event.tdt_open_fd tdt)
      let s := { s with tdmi_table_queue := s.tdmi_table_queue.erase tdt }   -- TAILQ_REMOVE
      let d := s.dev.headD dev_fail
      let s := { s with dev := s.dev.tail }
      let fd : Int := open_fd_value d                              -- tdt->tdt_fd = open(...)
      if fd ≠ -1 then
        let s := { s with tdt_id_tally := s.tdt_id_tally + 1 }     -- tdt->tdt_id = ++tdt_id_tally
        let id := s.tdt_id_tally
        if d.epoll_ctl_ret ≠ 0 then
          let s := log s (Event.close fd)
          let s := upd_tdt s tdt (fun u => { u with tdt_fd := -1, tdt_id := id })
          some { s with tdmi_table_queue := s.tdmi_table_queue ++ [tdt] }
        else if d.ioctl_ret ≠ 0 then
          let s := log s (Event.close fd)
          let s := upd_tdt s tdt (fun u => { u with tdt_fd := -1, tdt_id := id })
          some { s with tdmi_table_queue := s.tdmi_table_queue ++ [tdt] }
        else
          some (upd_tdt s tdt (fun u => { u with tdt_fd := fd, tdt_id := id }))
      else
        let s := upd_tdt s tdt (fun u => { u with tdt_fd := -1 })
        some { s with tdmi_table_queue := s.tdmi_table_queue ++ [tdt] }   -- TAILQ_INSERT_TAIL

/-- Embedding of `tdt_close_fd` (lines 175-187). -/
def tdt_close_fd (s : State) (tdt : Nat) : Option State :=
  match find_tdt s tdt with
  | none => none
  | some t =>
    if t.tdt_fd = -1 then none                                    -- assert(tdt->tdt_fd != -1)
    else
      let s := log s (Event.tdt_close_fd tdt)
      let s := log s (Event.epoll_del t.tdt_fd)
      let s := log s (Event.close t.tdt_fd)
      let s := upd_tdt s tdt (fun u => { u with tdt_fd := -1 })
      some { s with tdmi_table_queue := s.tdmi_table_queue ++ [tdt] }

/-- Embedding of `dvb_tdt_destroy` (lines 311-327). -/
def dvb_tdt_destroy (s : State) (tdt : Nat) : Option State :=
  match find_tdt s tdt with
  | none => none
  | some t =>
    let s := { s with tdmi_tables := s.tdmi_tables.filter (fun u => u.addr != tdt) }  -- LIST_REMOVE
    if t.tdt_fd = -1 then
      some { s with tdmi_table_queue := s.tdmi_table_queue.erase tdt }
    else
      let s := log s (Event.epoll_del t.tdt_fd)
      some (log s (Event.close t.tdt_fd))

/-! ## Registry -/

/-- Embedding of `tdt_add` (lines 335-373). `tdt` is the caller's block (`some`) or
`NULL` (`none`); the `free` calls of the duplicate branch have no effect on the model. -/
def tdt_add (env : Env) (s : State) (fparams : Option dmx_sct_filter_params)
    (callback : Callback) (opq : Opaque) (name : String) (flags : Nat) (pid : Int)
    (tdt : Option Nat) : Option State :=
  let s := log s (Event.tdt_add pid flags callback opq)
  if s.tdmi_tables.any (fun t => decide (pid = t.tdt_pid)) then some s
  else
    let fp := fparams.getD dvb_fparams_alloc
    let fp := if flags &&& TDT_CRC ≠ 0 then { fp with flags := fp.flags ||| env.DMX_CHECK_CRC } else fp
    let fp := { fp with flags := fp.flags ||| env.DMX_IMMEDIATE_START }
    let fp := { fp with pid := (pid % 65536).toNat }
    let (a, s) := match tdt with
      | some a => (a, s)
      | none => calloc s
    let t : th_dvb_table :=
      { addr := a, tdt_flags := flags, tdt_fd := -1, tdt_name := name, tdt_opaque_p := opq,
        tdt_callback := callback, tdt_count := 0, tdt_pid := pid, tdt_fparams := fp,
        tdt_id := 0 }
    let s := { s with tdmi_tables := t :: s.tdmi_tables }                 -- LIST_INSERT_HEAD
    let s := { s with tdmi_table_queue := s.tdmi_table_queue ++ [a] }     -- TAILQ_INSERT_TAIL
    tdt_open_fd s a

/-! ## Decoders that register subscriptions -/

/-- Modelled from the spec: `dvb_mux_set_tsid` is not in this file; the spec calls it the
transport-id setter of the broadcast model ("establishes the stream's transport
identifier"). -/
def dvb_mux_set_tsid (s : State) (tsid : Nat) : State :=
  log { s with tdmi_transport_stream_id := tsid } (Event.mux_set_tsid tsid)

/-- Embedding of `dvb_table_add_transport` (lines 1246-1260); `t` is `none` for a `NULL`
pointer. Line 1254 reads `t->tht_dvb_service_id` without a test: for `NULL` the trace
records the read as `null_deref`. C leaves what follows such a read undefined (on the
usual platforms the process faults); the embedding goes on as if the read had returned
`null_read`, with `NULL` as the decoder context handed to `tdt_add`. -/
def dvb_table_add_transport (env : Env) (s : State) (t : Option Nat) (pmt_pid : Int) :
    Option State :=
  let s := log s (Event.add_transport t pmt_pid)
  let fp := { dvb_fparams_alloc with filter0 := 0x02, mask0 := 0xff }
  match t with
  | some t =>
    let pmtname :=
      "PMT(" ++ toString pmt_pid ++ "), service:" ++ toString (env.tht_dvb_service_id t)
    tdt_add env s (some fp) Callback.dvb_pmt_callback (Opaque.transport t) pmtname
      (TDT_CRC ||| TDT_QUICKREQ) pmt_pid none
  | none =>
    let s := log s Event.null_deref                  -- t->tht_dvb_service_id with t == NULL
    let pmtname := "PMT(" ++ toString pmt_pid ++ "), service:" ++ toString env.null_read
    tdt_add env s (some fp) Callback.dvb_pmt_callback Opaque.null pmtname
      (TDT_CRC ||| TDT_QUICKREQ) pmt_pid none

/-- The `while(len >= 4)` loop of `dvb_pat_callback` (lines 719-729); `none` when the
fuel is used up. -/
def pat_loop (env : Env) : Nat → State → List Nat → Int → Option State
  | 0, _, _, _ => none
  | fuel + 1, s, ptr, len =>
    if len ≥ 4 then
      let service := ((byte ptr 0 <<< 8) ||| byte ptr 1) % 65536
      let pmt := (((byte ptr 2 &&& 0x1f) <<< 8) ||| byte ptr 3) % 65536
      let r :=
        if service ≠ 0 then
          dvb_table_add_transport env s (env.dvb_transport_find service pmt) (pmt : Int)
        else some s
      match r with
      | none => none
      | some s => pat_loop env fuel s (ptr.drop 4) (len - 4)
    else some s

/-- Embedding of `dvb_pat_callback` (lines 696-731): the new state and the return value. -/
def dvb_pat_callback (env : Env) (s : State) (ptr : List Nat) (len : Int) : Option (State × Int) :=
  if len < 5 then some (s, -1)
  else if byte ptr 2 &&& 1 = 0 then some (s, -1)
  else
    let tsid := ((byte ptr 0 <<< 8) ||| byte ptr 1) % 65536
    let s := if s.tdmi_transport_stream_id ≠ tsid then dvb_mux_set_tsid s tsid else s
    match pat_loop env (len.toNat + 1) s (ptr.drop 5) (len - 5) with
    | none => none
    | some s => some (s, 0)

/-- The `while(len > 2)` loop of `dvb_cat_callback` (lines 771-795); `none` when the
fuel is used up. -/
def cat_loop (env : Env) : Nat → State → List Nat → Int → Option State
  | 0, _, _, _ => none
  | fuel + 1, s, ptr, len =>
    if len > 2 then
      let tag := byte ptr 0
      let tlen := byte ptr 1
      let ptr := ptr.drop 2
      let len := len - 2
      let r :=
        if tag = env.DVB_DESC_CA then
          let caid := ((byte ptr 0 <<< 8) ||| byte ptr 1) % 65536
          let pid := ((byte ptr 2 &&& (0x1f <<< 8)) ||| byte ptr 3) % 65536
          if pid = 0 then some s
          else
            let (cs, s) := calloc s
            tdt_add env s none Callback.dvb_ca_callback (Opaque.ca_stream cs caid) "CA"
              TDT_INC_TABLE_HDR (pid : Int) (some cs)
        else some s
      match r with
      | none => none
      | some s => cat_loop env fuel s (ptr.drop tlen) (len - (tlen : Int))
    else some s

/-- Embedding of `dvb_cat_callback` (lines 754-797): the new state and the return value. -/
def dvb_cat_callback (env : Env) (s : State) (ptr : List Nat) (len : Int) : Option (State × Int) :=
  if byte ptr 2 &&& 1 = 0 then some (s, -1)
  else
    match cat_loop env (len.toNat + 1) s (ptr.drop 5) (len - 5) with
    | none => none
    | some s => some (s, 0)

/-- The call `tdt->tdt_callback(tdmi, buf, len, tableid, opaque)`. The program-map and
CA decoders return 0; the decoders of the other tables act on the broadcast model only
and contribute their return value. -/
def run_callback (env : Env) (s : State) (cb : Callback) (ptr : List Nat) (len : Int)
    (tableid : Nat) : Option (State × Int) :=
  match cb with
  | Callback.dvb_pat_callback => dvb_pat_callback env s ptr len
  | Callback.dvb_cat_callback => dvb_cat_callback env s ptr len
  | Callback.dvb_ca_callback => some (s, 0)
  | Callback.dvb_pmt_callback => some (s, 0)
  | cb => some (s, env.decoder_ret cb s ptr len tableid)

/-! ## Section validation and dispatch -/

/-- Embedding of `dvb_table_fastswitch` (lines 108-132). -/
def dvb_table_fastswitch (s : State) : State :=
  let s := log s Event.fastswitch
  if s.tdmi_table_initial = 0 then s
  else if s.tdmi_tables.any (fun t => decide (t.tdt_flags &&& TDT_QUICKREQ ≠ 0) && decide (t.tdt_count = 0))
  then s
  else
    let s := { s with tdmi_table_initial := 0 }
    let s := { s with tda_initial_num_mux := s.tda_initial_num_mux - 1 }
    log s Event.mux_scanner

/-- The 12-bit declared section length `((sec[1] & 0x0f) << 8) | sec[2]`. -/
def section_length (sec : List Nat) : Int :=
  ((((byte sec 1 &&& 0x0f) <<< 8) ||| byte sec 2 : Nat) : Int)

/-- Embedding of `dvb_proc_table` (lines 193-227). -/
def dvb_proc_table (env : Env) (s : State) (tdt : Nat) (sec : List Nat) (r : Int) : Option State :=
  match find_tdt s tdt with
  | none => none
  | some t =>
    let chkcrc := t.tdt_flags &&& TDT_CRC
    if chkcrc ≠ 0 ∧ env.psi_crc32 sec r ≠ 0 then some s
    else
      let r := r - 3
      let tableid := byte sec 0
      let len := section_length sec
      if len < r then some s
      else
        let len := if chkcrc ≠ 0 then len - 4 else len           -- Strip trailing CRC
        let ptr := if t.tdt_flags &&& TDT_INC_TABLE_HDR ≠ 0 then sec else sec.drop 3
        let len := if t.tdt_flags &&& TDT_INC_TABLE_HDR ≠ 0 then len + 3 else len
        let s := log s (Event.callback tdt t.tdt_callback ptr len tableid t.tdt_opaque_p)
        match run_callback env s t.tdt_callback ptr len tableid with
        | none => none
        | some (s, ret) =>
          let s := if ret = 0 then upd_tdt s tdt (fun u => { u with tdt_count := u.tdt_count + 1 }) else s
          some (if t.tdt_flags &&& TDT_QUICKREQ ≠ 0 then dvb_table_fastswitch s else s)

/-- The rotation block of `dvb_table_input` (lines 276-284), applied to the table whose
section was just processed. -/
def rotate_pending (s : State) (tdt : Nat) : Option State :=
  if s.tdmi_table_queue ≠ [] then                                  -- TAILQ_FIRST(...) != NULL
    match tdt_close_fd s tdt with
    | none => none
    | some s =>
      match s.tdmi_table_queue.head? with
      | none => none                                               -- assert(tdt != NULL)
      | some h => tdt_open_fd s h
  else some s

/-- The value an `int` takes from `u64 & 0xffffffff`. -/
def to_int32 (v : Nat) : Int :=
  if v % 4294967296 ≥ 2147483648 then ((v % 4294967296 : Nat) : Int) - 4294967296
  else ((v % 4294967296 : Nat) : Int)

/-- One iteration of the event loop of `dvb_table_input` (lines 246-289): the event
carries `events` and `data.u64`; `r` and `sec` are the result of `read`, `t` that of
`getclock_hires`. -/
def dvb_table_input (env : Env) (s : State) (events : Nat) (u64 : Nat) (r : Int)
    (sec : List Nat) (t : Int) : Option State :=
  let tid := to_int32 (u64 &&& 0xffffffff)
  if events &&& EPOLLIN = 0 then some s
  else if r < 3 then some s
  else if s.tda_mux_current = false then some s
  else if t - s.tdmi_table_start ≥ 250000 then
    match s.tdmi_tables.find? (fun x => decide (x.tdt_id = tid)) with
    | none => some s
    | some tdt =>
      match dvb_proc_table env s tdt.addr sec r with
      | none => none
      | some s => rotate_pending s tdt.addr
  else some s

/-! ## Runs of the registry -/

/-- The calls that act on the registry of a stream. -/
inductive Op where
  | tdt_add (fparams : Option dmx_sct_filter_params) (cb : Callback) (opq : Opaque)
      (name : String) (flags : Nat) (pid : Int)
  | tdt_add_block (fparams : Option dmx_sct_filter_params) (cb : Callback) (opq : Opaque)
      (name : String) (flags : Nat) (pid : Int)
  | tdt_open_fd (tdt : Nat)
  | tdt_close_fd (tdt : Nat)
  | rotate (tdt : Nat)
  | dvb_tdt_destroy (tdt : Nat)
  | input (events : Nat) (u64 : Nat) (r : Int) (sec : List Nat) (t : Int)

/-- Effect of one call. `tdt_add_block` is a `tdt_add` whose caller allocated the block
first, as `dvb_cat_callback` does. -/
def step (env : Env) (s : State) : Op → Option State
  | Op.tdt_add fp cb opq name flags pid => tdt_add env s fp cb opq name flags pid none
  | Op.tdt_add_block fp cb opq name flags pid =>
    let (a, s) := calloc s
    tdt_add env s fp cb opq name flags pid (some a)
  | Op.tdt_open_fd a => tdt_open_fd s a
  | Op.tdt_close_fd a => tdt_close_fd s a
  | Op.rotate a => rotate_pending s a
  | Op.dvb_tdt_destroy a => dvb_tdt_destroy s a
  | Op.input events u64 r sec t => dvb_table_input env s events u64 r sec t

/-- A sequence of calls, stopping at the first that does not complete. -/
def run (env : Env) (s : State) : List Op → Option State
  | [] => some s
  | op :: ops =>
    match step env s op with
    | none => none
    | some s => run env s ops

/-- A stream with no subscription: empty set and empty pending queue. -/
def empty_stream (s : State) : Prop := s.tdmi_tables = [] ∧ s.tdmi_table_queue = []

instance (s : State) : Decidable (empty_stream s) := by
  unfold empty_stream; infer_instance

/-- States reached from an empty stream by a sequence of calls. -/
def Reachable (env : Env) (s : State) : Prop :=
  ∃ s0 ops, empty_stream s0 ∧ run env s0 ops = some s

/-- The registry invariant on the subscription set `l`, the pending queue `q` and the
heap mark `h`: addresses are distinct and allocated, the queue has no repetition and
holds members of the set only, a member is queued exactly when its `tdt_fd` is -1, and
no two members have the same `tdt_pid`. -/
structure InvCore (l : List th_dvb_table) (q : List Nat) (h : Nat) : Prop where
  addr_nodup : (l.map (fun t => t.addr)).Nodup
  addr_lt : ∀ t ∈ l, t.addr < h
  queue_nodup : q.Nodup
  queue_sub : ∀ a ∈ q, ∃ t ∈ l, t.addr = a
  pending_iff : ∀ t ∈ l, (t.addr ∈ q ↔ t.tdt_fd = -1)
  pid_nodup : (l.map (fun t => t.tdt_pid)).Nodup

/-- The registry invariant of a state. -/
def Inv (s : State) : Prop := InvCore s.tdmi_tables s.tdmi_table_queue s.heap_next

/-- Number of bound subscriptions (those holding a filter descriptor). -/
def bound_count (s : State) : Nat := s.tdmi_tables.countP (fun t => decide (t.tdt_fd ≠ -1))

/-- A decoder was invoked between `s` and the later state `s1`. -/
def decoder_invoked (s s1 : State) : Prop :=
  ∃ a cb p l tid o, Event.callback a cb p l tid o ∈ s1.trace.drop s.trace.length

/-- The pointer handed to `tdt_add` is `NULL` or a block allocated and not yet linked. -/
def fresh_block (s : State) : Option Nat → Prop
  | none => True
  | some a => a < s.heap_next ∧ ∀ u ∈ s.tdmi_tables, u.addr < a

/-- The ghost trace of `s1` extends that of `s`. -/
def trace_ext (s s1 : State) : Prop := ∃ l, s1.trace = s.trace ++ l

/-- The device accepts a bind: `open` returns a descriptor and both `epoll_ctl` and the
filter `ioctl` return 0. -/
def bind_accepted (d : DevResult) : Prop :=
  d.open_ret.isSome = true ∧ d.epoll_ctl_ret = 0 ∧ d.ioctl_ret = 0

instance (d : DevResult) : Decidable (bind_accepted d) := by
  unfold bind_accepted; infer_instance

/-- The `(t, pmt_pid)` arguments of the `dvb_table_add_transport` calls recorded in a
trace, oldest first. -/
def transport_calls (tr : List Event) : List (Option Nat × Int) :=
  tr.filterMap (fun e => match e with
    | Event.add_transport t p => some (t, p)
    | _ => none)

/-- The `(pid, flags, callback, context)` arguments of the `tdt_add` calls recorded in a
trace, oldest first. -/
def tdt_add_calls (tr : List Event) : List (Int × Nat × Callback × Opaque) :=
  tr.filterMap (fun e => match e with
    | Event.tdt_add pid flags cb opq => some (pid, flags, cb, opq)
    | _ => none)

/-- The Program Association entry at offset `off` of a payload, as the claim words it:
the 16-bit big-endian service id and the PMT pid `((e[2] & 0x1f) << 8) | e[3]`. -/
def pat_entry (ptr : List Nat) (off : Nat) : Nat × Nat :=
  ((byte ptr off <<< 8) ||| byte ptr (off + 1),
   ((byte ptr (off + 2) &&& 0x1f) <<< 8) ||| byte ptr (off + 3))

/-- The entries of a payload that call for a registration: those at offsets `off`,
`off + 4`, ... while at least 4 of the `len` bytes remain, whose service id is not 0. -/
def pat_registrations (ptr : List Nat) (off : Nat) (len : Int) : List (Nat × Nat) :=
  ((List.range' off (len / 4).toNat 4).map (pat_entry ptr)).filter (fun e => decide (e.1 ≠ 0))

/-! ## A concrete environment and concrete streams -/

/-- One bit step of the CRC register, most significant bit first, polynomial 0x04c11db7. -/
def crc32_bit (crc : Nat) : Nat :=
  if crc &&& 0x80000000 ≠ 0 then ((crc <<< 1) ^^^ 0x04c11db7) % 4294967296
  else (crc <<< 1) % 4294967296

/-- One byte step of the CRC register. -/
def crc32_byte (crc b : Nat) : Nat := crc32_bit^[8] (crc ^^^ ((b % 256) <<< 24))

/-- Modelled from the spec: `psi_crc32` lives in psi.c; the spec calls it "the standard
CRC-32" recomputed "over the entire received section", which for broadcast sections is
the MPEG-2 CRC (initial value 0xffffffff, no final complement), zero on a section that
ends in its own CRC. -/
def psi_crc32 (data : List Nat) (len : Int) : Nat :=
  (data.take len.toNat).foldl crc32_byte 0xffffffff

/-- An empty current stream with device script `dev`, scan start at time 0. -/
def s_empty (dev : List DevResult) : State :=
  { tdmi_tables := [], tdmi_table_queue := [], tdmi_table_initial := 1, tdmi_table_start := 0,
    tdmi_transport_stream_id := 0xffff, tda_mux_current := true, tda_initial_num_mux := 1,
    tdt_id_tally := 0, heap_next := 100, dev := dev, trace := [] }

/-- Filter parameters of the default PAT and CAT subscriptions (lines 1212-1224). -/
def fp_tableid (tableid : Nat) : dmx_sct_filter_params :=
  { dvb_fparams_alloc with filter0 := tableid, mask0 := 0xff }

/-- The two `tdt_add` calls of `dvb_table_add_default` for PAT and CAT (lines 1215-1224). -/
def add_pat_cat : List Op :=
  [Op.tdt_add (some (fp_tableid 0)) Callback.dvb_pat_callback Opaque.null "pat"
     (TDT_QUICKREQ ||| TDT_CRC) 0,
   Op.tdt_add (some (fp_tableid 1)) Callback.dvb_cat_callback Opaque.null "cat" TDT_CRC 1]

/-- A Program Association section for transport id 7 listing (1, 0x30) and (2, 0x31),
with its CRC. -/
def pat_section : List Nat :=
  [0x00, 0xb0, 0x11, 0x00, 0x07, 0xc1, 0x00, 0x00, 0x00, 0x01, 0xe0, 0x30, 0x00, 0x02, 0xe0, 0x31,
   194, 33, 3, 78]

/-- The stream after the PAT and CAT registrations of `add_pat_cat` when the device
granted one filter: PAT is bound to descriptor 5, CAT waits in the pending queue;
`rest` is what the device will answer next. -/
def s_pat_cat (rest : List DevResult) : State :=
  { tdmi_tables :=
      [{ addr := 101, tdt_flags := 1, tdt_fd := -1, tdt_name := "cat",
         tdt_opaque_p := Opaque.null, tdt_callback := Callback.dvb_cat_callback,
         tdt_count := 0, tdt_pid := 1,
         tdt_fparams := { pid := 1, filter0 := 1, mask0 := 255, flags := 5 }, tdt_id := 0 },
       { addr := 100, tdt_flags := 3, tdt_fd := 5, tdt_name := "pat",
         tdt_opaque_p := Opaque.null, tdt_callback := Callback.dvb_pat_callback,
         tdt_count := 0, tdt_pid := 0,
         tdt_fparams := { pid := 0, filter0 := 0, mask0 := 255, flags := 5 }, tdt_id := 1 }],
    tdmi_table_queue := [101], tdmi_table_initial := 1, tdmi_table_start := 0,
    tdmi_transport_stream_id := 65535, tda_mux_current := true, tda_initial_num_mux := 1,
    tdt_id_tally := 1, heap_next := 102, dev := rest,
    trace :=
      [Event.tdt_add 0 3 Callback.dvb_pat_callback Opaque.null, Event.tdt_open_fd 100,
       Event.tdt_add 1 1 Callback.dvb_cat_callback Opaque.null, Event.tdt_open_fd 101] }

/-- A stream holding one bound CA subscription (pid 0x100, include-header flag only,
no CRC requirement), as registered by `dvb_cat_callback`. -/
def s_ca : State :=
  { tdmi_tables :=
      [{ addr := 100, tdt_flags := 4, tdt_fd := 5, tdt_name := "CA",
         tdt_opaque_p := Opaque.ca_stream 100 2816, tdt_callback := Callback.dvb_ca_callback,
         tdt_count := 0, tdt_pid := 256,
         tdt_fparams := { pid := 256, filter0 := 0, mask0 := 0, flags := 4 }, tdt_id := 1 }],
    tdmi_table_queue := [], tdmi_table_initial := 1, tdmi_table_start := 0,
    tdmi_transport_stream_id := 65535, tda_mux_current := true, tda_initial_num_mux := 1,
    tdt_id_tally := 1, heap_next := 101, dev := [],
    trace :=
      [Event.tdt_add 256 4 Callback.dvb_ca_callback (Opaque.ca_stream 100 2816),
       Event.tdt_open_fd 100] }

/-- The section `pat_section` with one payload byte altered, so that its CRC fails. -/
def bad_pat_section : List Nat :=
  [0x00, 0xb0, 0x11, 0x00, 0x07, 0xc1, 0x00, 0x00, 0x00, 0x03, 0xe0, 0x30, 0x00, 0x02, 0xe0, 0x31,
   194, 33, 3, 78]

/-- The readiness event of the filter bound in `s_pat_cat`: descriptor 5, id 1. -/
def ev_pat : Nat := (5 <<< 32) ||| 1

/-- A longer run: PAT and CAT registered, a CA block registered, one rotation, one
destroy and one release. -/
def ops_run : List Op :=
  add_pat_cat ++
    [Op.tdt_add_block none Callback.dvb_ca_callback (Opaque.ca_stream 102 0x0b00) "CA"
       TDT_INC_TABLE_HDR 0x100,
     Op.rotate 100, Op.dvb_tdt_destroy 101, Op.tdt_close_fd 102]

/-- The state `ops_run` leads to from `s_empty [dev_ok 5, dev_fail, dev_ok 6, dev_fail, dev_ok 7]`. -/
def s_run : State :=
  { tdmi_tables :=
      [{ addr := 102, tdt_flags := 4, tdt_fd := -1, tdt_name := "CA",
         tdt_opaque_p := Opaque.ca_stream 102 2816, tdt_callback := Callback.dvb_ca_callback,
         tdt_count := 0, tdt_pid := 256,
         tdt_fparams := { pid := 256, filter0 := 0, mask0 := 0, flags := 4 }, tdt_id := 2 },
       { addr := 100, tdt_flags := 3, tdt_fd := -1, tdt_name := "pat",
         tdt_opaque_p := Opaque.null, tdt_callback := Callback.dvb_pat_callback,
         tdt_count := 0, tdt_pid := 0,
         tdt_fparams := { pid := 0, filter0 := 0, mask0 := 255, flags := 5 }, tdt_id := 1 }],
    tdmi_table_queue := [100, 102], tdmi_table_initial := 1, tdmi_table_start := 0,
    tdmi_transport_stream_id := 65535, tda_mux_current := true, tda_initial_num_mux := 1,
    tdt_id_tally := 2, heap_next := 103, dev := [dev_ok 7],
    trace :=
      [Event.tdt_add 0 3 Callback.dvb_pat_callback Opaque.null, Event.tdt_open_fd 100,
       Event.tdt_add 1 1 Callback.dvb_cat_callback Opaque.null, Event.tdt_open_fd 101,
       Event.tdt_add 256 4 Callback.dvb_ca_callback (Opaque.ca_stream 102 2816),
       Event.tdt_open_fd 102, Event.tdt_close_fd 100, Event.epoll_del 5, Event.close 5,
       Event.tdt_open_fd 101, Event.tdt_close_fd 102, Event.epoll_del 6, Event.close 6] }

/-- A run in which the bound PAT subscription receives `pat_section` after the grace
window and a registration for the already subscribed pid 0x30 follows. -/
def ops_pat : List Op :=
  add_pat_cat ++
    [Op.input 1 ev_pat 20 pat_section 250001,
     Op.tdt_add none Callback.dvb_pmt_callback (Opaque.transport 9) "dup" 3 0x30]

/-- The state `ops_pat` leads to from `s_empty [dev_ok 5, dev_fail, dev_ok 6]`. -/
def s_pat_done : State :=
  { tdmi_tables :=
      [{ addr := 103, tdt_flags := 3, tdt_fd := -1, tdt_name := "PMT(49), service:2",
         tdt_opaque_p := Opaque.transport 2, tdt_callback := Callback.dvb_pmt_callback,
         tdt_count := 0, tdt_pid := 49,
         tdt_fparams := { pid := 49, filter0 := 2, mask0 := 255, flags := 5 }, tdt_id := 0 },
       { addr := 102, tdt_flags := 3, tdt_fd := 6, tdt_name := "PMT(48), service:1",
         tdt_opaque_p := Opaque.transport 1, tdt_callback := Callback.dvb_pmt_callback,
         tdt_count := 0, tdt_pid := 48,
         tdt_fparams := { pid := 48, filter0 := 2, mask0 := 255, flags := 5 }, tdt_id := 2 },
       { addr := 101, tdt_flags := 1, tdt_fd := -1, tdt_name := "cat",
         tdt_opaque_p := Opaque.null, tdt_callback := Callback.dvb_cat_callback,
         tdt_count := 0, tdt_pid := 1,
         tdt_fparams := { pid := 1, filter0 := 1, mask0 := 255, flags := 5 }, tdt_id := 0 },
       { addr := 100, tdt_flags := 3, tdt_fd := -1, tdt_name := "pat",
         tdt_opaque_p := Opaque.null, tdt_callback := Callback.dvb_pat_callback,
         tdt_count := 1, tdt_pid := 0,
         tdt_fparams := { pid := 0, filter0 := 0, mask0 := 255, flags := 5 }, tdt_id := 1 }],
    tdmi_table_queue := [103, 100, 101], tdmi_table_initial := 1, tdmi_table_start := 0,
    tdmi_transport_stream_id := 7, tda_mux_current := true, tda_initial_num_mux := 1,
    tdt_id_tally := 2, heap_next := 104, dev := [],
    trace :=
      [Event.tdt_add 0 3 Callback.dvb_pat_callback Opaque.null, Event.tdt_open_fd 100,
       Event.tdt_add 1 1 Callback.dvb_cat_callback Opaque.null, Event.tdt_open_fd 101,
       Event.callback 100 Callback.dvb_pat_callback
         [0, 7, 193, 0, 0, 0, 1, 224, 48, 0, 2, 224, 49, 194, 33, 3, 78] 13 0 Opaque.null,
       Event.mux_set_tsid 7,
       Event.add_transport (some 1) 48,
       Event.tdt_add 48 3 Callback.dvb_pmt_callback (Opaque.transport 1), Event.tdt_open_fd 102,
       Event.add_transport (some 2) 49,
       Event.tdt_add 49 3 Callback.dvb_pmt_callback (Opaque.transport 2), Event.tdt_open_fd 103,
       Event.fastswitch,
       Event.tdt_close_fd 100, Event.epoll_del 5, Event.close 5, Event.tdt_open_fd 101,
       Event.tdt_add 48 3 Callback.dvb_pmt_callback (Opaque.transport 9)] }

/-- A Conditional-Access payload as `dvb_cat_callback` receives it (5 header bytes
with the current/next bit set, then one CA descriptor of system id 0x0b00) whose CA pid
bytes are `hi` and `lo`. -/
def cat_payload (hi lo : Nat) : List Nat :=
  [0xff, 0xff, 0xc1, 0x00, 0x00, 0x09, 0x04, 0x0b, 0x00, hi, lo]

/-! ## Flush and default subscriptions -/

/-- The `while` loop of `dvb_table_flush_all` (lines 1272-1273); `none` when the fuel is
used up. -/
def flush_loop : Nat → State → Option State
  | 0, _ => none
  | fuel + 1, s =>
    match s.tdmi_tables with
    | [] => some s                                                 -- LIST_FIRST(...) == NULL
    | tdt :: _ =>
      match dvb_tdt_destroy s tdt.addr with
      | none => none
      | some s => flush_loop fuel s

/-- Embedding of `dvb_table_flush_all` (lines 1266-1275). -/
def dvb_table_flush_all (s : State) : Option State :=
  flush_loop (s.tdmi_tables.length + 1) s

/-- The adapter types of linux/dvb/frontend.h (`tda_type`). -/
inductive fe_type where
  | FE_QPSK
  | FE_QAM
  | FE_OFDM
  | FE_ATSC
deriving DecidableEq, Repr

/-- Embedding of `dvb_table_add_default_dvb` (lines 1145-1171). -/
def dvb_table_add_default_dvb (env : Env) (s : State) : Option State :=
  let fp := { dvb_fparams_alloc with filter0 := 0x40, mask0 := 0xff }
  match tdt_add env s (some fp) Callback.dvb_nit_callback Opaque.null "nit"
      (TDT_QUICKREQ ||| TDT_CRC) 0x10 none with
  | none => none
  | some s =>
    let fp := { dvb_fparams_alloc with filter0 := 0x42, mask0 := 0xff }
    match tdt_add env s (some fp) Callback.dvb_sdt_callback Opaque.null "sdt"
        (TDT_QUICKREQ ||| TDT_CRC) 0x11 none with
    | none => none
    | some s =>
      let fp := dvb_fparams_alloc
      tdt_add env s (some fp) Callback.dvb_eit_callback Opaque.null "eit" TDT_CRC 0x12 none

/-- Embedding of `dvb_table_add_default_atsc` (lines 1177-1195); `vsb_8` tells whether
the stream's modulation is `VSB_8`. -/
def dvb_table_add_default_atsc (env : Env) (s : State) (vsb_8 : Bool) : Option State :=
  let tableid := if vsb_8 then 0xc8 else 0xc9
  let fp := { dvb_fparams_alloc with filter0 := tableid, mask0 := 0xff }
  tdt_add env s (some fp) Callback.atsc_vct_callback Opaque.null "vct"
    (TDT_QUICKREQ ||| TDT_CRC) 0x1ffb none

/-- Embedding of `dvb_table_add_default` (lines 1203-1240); `now` is the value of
`getclock_hires`. -/
def dvb_table_add_default (env : Env) (s : State) (tda_type : fe_type) (vsb_8 : Bool)
    (now : Int) : Option State :=
  let s := { s with tdmi_table_start := now }
  let fp := { dvb_fparams_alloc with filter0 := 0x00, mask0 := 0xff }
  match tdt_add env s (some fp) Callback.dvb_pat_callback Opaque.null "pat"
      (TDT_QUICKREQ ||| TDT_CRC) 0 none with
  | none => none
  | some s =>
    let fp := { dvb_fparams_alloc with filter0 := 0x1, mask0 := 0xff }
    match tdt_add env s (some fp) Callback.dvb_cat_callback Opaque.null "cat" TDT_CRC 1 none with
    | none => none
    | some s =>
      match tda_type with
      | fe_type.FE_QPSK => dvb_table_add_default_dvb env s
      | fe_type.FE_OFDM => dvb_table_add_default_dvb env s
      | fe_type.FE_QAM => dvb_table_add_default_dvb env s
      | fe_type.FE_ATSC => dvb_table_add_default_atsc env s vsb_8

/-! ## Notions used by the statements on the registry -/

/-- The decoder invocations recorded in a trace, oldest first, with their arguments. -/
def callback_calls (tr : List Event) : List (Nat × Callback × List Nat × Int × Nat × Opaque) :=
  tr.filterMap (fun e => match e with
    | Event.callback a cb p l tid o => some (a, cb, p, l, tid, o)
    | _ => none)

/-- The table `v` is the table `u` up to its filter binding (`tdt_fd`, `tdt_id`). -/
def same_sub (u v : th_dvb_table) : Prop :=
  v.addr = u.addr ∧ v.tdt_pid = u.tdt_pid ∧ v.tdt_flags = u.tdt_flags ∧
  v.tdt_callback = u.tdt_callback ∧ v.tdt_opaque_p = u.tdt_opaque_p ∧ v.tdt_count = u.tdt_count

/-- What a call that only registers or rebinds subscriptions leaves alone: the live
tables up to their binding, the record of decoder invocations, the scan flag, the
adapter's scan counter, the scan start and the sign of the counters. -/
structure Frame (s s1 : State) : Prop where
  live : ∀ b t, find_tdt s b = some t → ∃ t1, find_tdt s1 b = some t1 ∧ same_sub t t1
  calls : callback_calls s1.trace = callback_calls s.trace
  initial : s1.tdmi_table_initial = s.tdmi_table_initial
  num_mux : s1.tda_initial_num_mux = s.tda_initial_num_mux
  start : s1.tdmi_table_start = s.tdmi_table_start
  nonneg : (∀ t ∈ s.tdmi_tables, 0 ≤ t.tdt_count) → ∀ t ∈ s1.tdmi_tables, 0 ≤ t.tdt_count

/-- What identifies a subscription in the statements: pid, flags and decoder. -/
def sub_sig (t : th_dvb_table) : Int × Nat × Callback := (t.tdt_pid, t.tdt_flags, t.tdt_callback)

/-- The unregister and close calls `dvb_tdt_destroy` makes for the bound tables of a
list, in list order. -/
def close_events : List th_dvb_table → List Event
  | [] => []
  | t :: l =>
    if t.tdt_fd = -1 then close_events l
    else Event.epoll_del t.tdt_fd :: Event.close t.tdt_fd :: close_events l

/-- Every fast-completion-eligible subscription of the stream has received a section. -/
def all_quick_received (s : State) : Prop :=
  ∀ t ∈ s.tdmi_tables, t.tdt_flags &&& TDT_QUICKREQ ≠ 0 → 1 ≤ t.tdt_count

/-- The payload the decoder is to receive, in the words of the claim: with the
include-header flag clear, the bytes from offset 3 with length `L - 4` if CRC is required
and `L` otherwise; with the flag set, the bytes from offset 0 with 3 more. -/
def payload_spec (crc hdr : Bool) (sec : List Nat) : List Nat × Int :=
  if hdr then (sec, (if crc then section_length sec - 4 else section_length sec) + 3)
  else (sec.drop 3, if crc then section_length sec - 4 else section_length sec)

/-- A stream whose only subscription is a bound, fast-completion-eligible NIT
subscription without CRC requirement; the scan flag is set and one stream is scanning. -/
def s_nit : State :=
  { tdmi_tables :=
      [{ addr := 100, tdt_flags := 2, tdt_fd := 5, tdt_name := "nit",
         tdt_opaque_p := Opaque.null, tdt_callback := Callback.dvb_nit_callback,
         tdt_count := 0, tdt_pid := 16,
         tdt_fparams := { pid := 16, filter0 := 0, mask0 := 0, flags := 4 }, tdt_id := 1 }],
    tdmi_table_queue := [], tdmi_table_initial := 1, tdmi_table_start := 0,
    tdmi_transport_stream_id := 65535, tda_mux_current := true, tda_initial_num_mux := 1,
    tdt_id_tally := 1, heap_next := 101, dev := [],
    trace := [Event.tdt_add 16 2 Callback.dvb_nit_callback Opaque.null, Event.tdt_open_fd 100] }

/-! ## Decoders acting on the broadcast model

The decoders below do not touch the registry. They are functions of the payload
`buf` (read through `byte` at absolute offsets), the length `len` handed by
`dvb_proc_table`, and the collaborators gathered in `DecEnv`; they return the return
value of the C function and the list of what they did, oldest first. -/

/-- Code rates of linux/dvb/frontend.h (`fe_code_rate_t`). -/
inductive fe_code_rate where
  | FEC_NONE | FEC_1_2 | FEC_2_3 | FEC_3_4 | FEC_4_5 | FEC_5_6 | FEC_6_7 | FEC_7_8 | FEC_8_9
  | FEC_AUTO | FEC_3_5 | FEC_9_10
deriving DecidableEq, Repr

/-- Modulations of linux/dvb/frontend.h (`fe_modulation_t`); `QPSK` has the value 0. -/
inductive fe_modulation where
  | QPSK | QAM_16 | QAM_32 | QAM_64 | QAM_128 | QAM_256 | QAM_AUTO | VSB_8 | VSB_16 | PSK_8
deriving DecidableEq, Repr

/-- Delivery systems of linux/dvb/frontend.h used here; `SYS_UNDEFINED` has the value 0. -/
inductive fe_delivery_system where
  | SYS_UNDEFINED | SYS_DVBS | SYS_DVBS2
deriving DecidableEq, Repr

/-- Roll-off factors of linux/dvb/frontend.h; `ROLLOFF_35` has the value 0. -/
inductive fe_rolloff where
  | ROLLOFF_35 | ROLLOFF_20 | ROLLOFF_25 | ROLLOFF_AUTO
deriving DecidableEq, Repr

/-- Spectral inversion of linux/dvb/frontend.h; `INVERSION_OFF` has the value 0. -/
inductive fe_spectral_inversion where
  | INVERSION_OFF | INVERSION_ON | INVERSION_AUTO
deriving DecidableEq, Repr

/-- The fields of `struct dvb_mux_conf` the delivery descriptors fill in: `frequency`,
`inversion` and the `u.qam` (equally `u.qpsk`) members of `dmc_fe_params`, and the
`dmc_` fields. -/
structure dvb_mux_conf where
  frequency : Nat
  inversion : fe_spectral_inversion
  symbol_rate : Nat
  fec_inner : fe_code_rate
  modulation : fe_modulation
  dmc_polarisation : Nat
  dmc_satconf : Nat
  dmc_fe_modulation : fe_modulation
  dmc_fe_delsys : fe_delivery_system
  dmc_fe_rolloff : fe_rolloff
deriving DecidableEq, Repr

/-- The result of `memset(&dmc, 0, sizeof(dmc))`. -/
def dmc_zero : dvb_mux_conf :=
  { frequency := 0, inversion := fe_spectral_inversion.INVERSION_OFF, symbol_rate := 0,
    fec_inner := fe_code_rate.FEC_NONE, modulation := fe_modulation.QPSK, dmc_polarisation := 0,
    dmc_satconf := 0, dmc_fe_modulation := fe_modulation.QPSK,
    dmc_fe_delsys := fe_delivery_system.SYS_UNDEFINED, dmc_fe_rolloff := fe_rolloff.ROLLOFF_35 }

/-- What a decoder does, as seen from outside: `read off n` is a read of the `n` payload
bytes from offset `off` by the code of this file, `parse off n` hands the `n` bytes from
offset `off` to a descriptor or string parser of another file; the others are calls into
the broadcast model and the programme guide. -/
inductive Effect where
  | read (off : Nat) (n : Nat)
  | parse (off : Nat) (n : Int)
  | epg_event_create (ch : Nat) (start stop : Int) (event_id : Nat)
  | epg_event_set_title (e : Nat) (title : List Nat)
  | epg_event_set_desc (e : Nat) (desc : List Nat)
  | epg_event_set_content_type (e : Nat) (ect : Option Nat)
  | mux_set_networkname (name : List Nat)
  | mux_create (dmc : dvb_mux_conf) (tsid : Nat)
  | config_save (service_id : Nat)
deriving DecidableEq, Repr

/-- Collaborators and build parameters of the decoders: the signedness of plain `char`,
whether `DVB_API_VERSION >= 5`, the adapter's autodiscovery flag, the stream's satconf,
the descriptor tags of dvb_support.h, the string decoders `dvb_get_string_with_len`
(bytes at the pointer and length to the bytes consumed and the decoded C string, `none`
for a negative return) and `dvb_get_string` (`none` for a non-zero return),
`dvb_convert_date` on the five date bytes, `dispatch_clock`, the search of `tda_muxes` by
transport stream id, `dvb_transport_find` on the stream found (`none` for `NULL`), the
channel `tht_ch` of a service, `epg_event_create` (which may depend on what was done
before; `none` for `NULL`) and `epg_content_type_find_by_dvbcode`. -/
structure DecEnv where
  char_signed : Bool
  api5 : Bool
  tda_autodiscovery : Bool
  dmc_satconf : Nat
  DVB_DESC_SERVICE : Nat
  DVB_DESC_SHORT_EVENT : Nat
  DVB_DESC_CONTENT : Nat
  DVB_DESC_NETWORK_NAME : Nat
  DVB_DESC_SAT : Nat
  DVB_DESC_CABLE : Nat
  dvb_get_string_with_len : List Nat → Int → Option (Nat × List Nat)
  dvb_get_string : List Nat → Nat → Option (List Nat)
  dvb_convert_date : List Nat → Int
  dispatch_clock : Int
  mux_by_tsid : Nat → Option Nat
  eit_transport_find : Nat → Nat → Option Nat
  tht_ch : Nat → Option Nat
  epg_event_create : List Effect → Nat → Int → Int → Nat → Option Nat
  epg_content_type_find_by_dvbcode : Nat → Option Nat

/-- The calls into other subsystems among the effects, reads and parser hand-overs left
out. -/
def outward (lg : List Effect) : List Effect :=
  lg.filter (fun e => match e with
    | Effect.read _ _ => false
    | Effect.parse _ _ => false
    | _ => true)

/-- An effect touches payload bytes at offsets below `len` only. -/
def in_bounds (len : Int) : Effect → Prop
  | Effect.read off n => n = 0 ∨ ((off + n : Nat) : Int) ≤ len
  | Effect.parse off n => n ≤ 0 ∨ (off : Int) + n ≤ len
  | _ => True

instance (len : Int) (e : Effect) : Decidable (in_bounds len e) := by
  cases e <;> unfold in_bounds <;> infer_instance

/-- Value of a C `int` expression: wrap-around to 32 bits. -/
def int32 (x : Int) : Int := (x + 2147483648) % 4294967296 - 2147483648

/-- Conversion of an `int` to `__u32`. -/
def uint32 (x : Int) : Nat := (x % 4294967296).toNat

/-- Addition of two `int`. -/
def add32 (a b : Int) : Int := int32 (a + b)

/-- Multiplication of two `int`. -/
def mul32 (a b : Int) : Int := int32 (a * b)

/-- Modelled from the spec: the macro `bcdtoint` of dvb_support.h is not in this file; the
spec describes "BCD-packed" fields with "4 bits per decimal digit", so a byte holds two
digits, the high nibble being the tens. -/
def bcdtoint (i : Nat) : Int := ((((i &&& 0xf0) >>> 4) * 10 + (i &&& 0x0f) : Nat) : Int)

/-- The 16-bit big-endian value at offset `off`. -/
def be16 (buf : List Nat) (off : Nat) : Nat :=
  ((byte buf off <<< 8) ||| byte buf (off + 1)) % 65536

/-- Value of a plain `char` that holds the byte `b`. -/
def char_val (char_signed : Bool) (b : Nat) : Int :=
  if char_signed = true ∧ b % 256 ≥ 128 then ((b % 256 : Nat) : Int) - 256
  else ((b % 256 : Nat) : Int)

/-! ### Service Description Table -/

/-- The fields of `th_transport_t` the SDT decoder compares and writes; strings are the
bytes of a C string without its terminator, `none` for a `NULL` pointer. -/
structure th_transport where
  tht_dvb_service_id : Nat
  tht_servicetype : Nat
  tht_scrambled : Nat
  tht_provider : Option (List Nat)
  tht_svcname : Option (List Nat)
deriving DecidableEq, Repr

/-- Embedding of `dvb_desc_service` (lines 404-427): the service type, the provider name
and the display name, or `none` for the return value -1. -/
def dvb_desc_service (D : DecEnv) (buf : List Nat) (off : Nat) (len : Int) :
    Option (Nat × List Nat × List Nat) :=
  if len < 2 then none
  else
    let stype := byte buf off
    match D.dvb_get_string_with_len (buf.drop (off + 1)) (len - 1) with
    | none => none
    | some (r, provider) =>
      match D.dvb_get_string_with_len (buf.drop (off + 1 + r)) (len - 1 - (r : Int)) with
      | none => none
      | some (_, name) => some (stype, provider, name)

/-- The loop `while(*chname <= 32 && *chname != 0) chname++` (lines 648-649) on the
bytes of the C string. -/
def sdt_skip_heading (char_signed : Bool) : List Nat → List Nat
  | [] => []
  | c :: cs =>
    if char_val char_signed c ≤ 32 ∧ c % 256 ≠ 0 then sdt_skip_heading char_signed cs
    else c :: cs

/-- The loop `while(l > 1 && chname[l - 1] <= 32) { chname[l - 1] = 0; l--; }` (lines
652-655): the final value of `l`. -/
def sdt_trim_trailing (char_signed : Bool) (chname : List Nat) : Nat → Nat
  | 0 => 0
  | l + 1 =>
    if l + 1 > 1 ∧ char_val char_signed (chname.getD l 0) ≤ 32 then
      sdt_trim_trailing char_signed chname l
    else l + 1

/-- The output of `printf`'s `%x`: lower-case hexadecimal digits without leading zeros. -/
def hex_digits (n : Nat) : List Nat := (Nat.toDigits 16 n).map Char.toNat

/-- The string written by `snprintf(chname0, sizeof(chname0), "noname-sid-0x%x", service_id)`
(line 659). -/
def sdt_noname (service_id : Nat) : List Nat :=
  "noname-sid-0x".toList.map Char.toNat ++ hex_digits service_id

/-- Lines 645-660 of `dvb_sdt_callback`: the name compared and stored for the service,
from the decoded display name `chname0`. -/
def sdt_service_name (char_signed : Bool) (chname0 : List Nat) (service_id : Nat) : List Nat :=
  let chname := sdt_skip_heading char_signed chname0
  let l := sdt_trim_trailing char_signed chname chname.length      -- l = strlen(chname)
  if l = 0 then sdt_noname service_id else chname.take l

/-- Modelled from the spec: `dvb_transport_find` is not in this file; the spec calls it a
"service lookup" by "(stream, service id, optional program-map PID)". Called with pid 0
as the SDT decoder does, it is the position of the first service of the stream with the
given id, `none` standing for `NULL`. -/
def sdt_transport_find (services : List th_transport) (service_id : Nat) : Option Nat :=
  services.findIdx? (fun t => t.tht_dvb_service_id == service_id)

/-- The body of `case DVB_DESC_SERVICE` (lines 641-683): the services and the effects
after it. -/
def sdt_service (D : DecEnv) (buf : List Nat) (off : Nat) (dlen : Nat) (service_id : Nat)
    (free_ca_mode : Nat) (services : List th_transport) (lg : List Effect) :
    List th_transport × List Effect :=
  let lg := lg ++ [Effect.parse off dlen]
  match dvb_desc_service D buf off dlen with
  | none => (services, lg)
  | some (stype, provider, chname0) =>
    let chname := sdt_service_name D.char_signed chname0 service_id
    match sdt_transport_find services service_id with
    | none => (services, lg)
    | some i =>
      match services.get? i with
      | none => (services, lg)
      | some t =>
        if t.tht_servicetype ≠ stype ∨ t.tht_scrambled ≠ free_ca_mode ∨
            t.tht_provider.getD [] ≠ provider ∨ t.tht_svcname.getD [] ≠ chname then
          let t := { t with tht_servicetype := stype, tht_scrambled := free_ca_mode,
                            tht_provider := some provider, tht_svcname := some chname }
          (services.set i t, lg ++ [Effect.config_save service_id])    -- t->tht_config_save(t)
        else (services, lg)

/-- The loop `while(dllen > 2)` of `dvb_sdt_callback` (lines 631-687): offset, remaining
length, services and effects when it ends; `none` when the fuel is used up. -/
def sdt_desc_loop (D : DecEnv) (buf : List Nat) (service_id free_ca_mode : Nat) :
    Nat → Nat → Int → Int → List th_transport → List Effect →
    Option (Nat × Int × List th_transport × List Effect)
  | 0, _, _, _, _, _ => none
  | fuel + 1, off, len, dllen, services, lg =>
    if dllen > 2 then
      let dtag := byte buf off
      let dlen := byte buf (off + 1)
      let lg := lg ++ [Effect.read off 2]
      let len := len - 2
      let off := off + 2
      let dllen := dllen - 2
      if (dlen : Int) > len then some (off, len, services, lg)        -- break
      else
        let r :=
          if dtag = D.DVB_DESC_SERVICE then
            sdt_service D buf off dlen service_id free_ca_mode services lg
          else (services, lg)
        sdt_desc_loop D buf service_id free_ca_mode fuel (off + dlen) (len - (dlen : Int))
          (dllen - (dlen : Int)) r.1 r.2
    else some (off, len, services, lg)

/-- The loop `while(len >= 5)` of `dvb_sdt_callback` (lines 614-688); `none` when the fuel
is used up. -/
def sdt_loop (D : DecEnv) (buf : List Nat) :
    Nat → Nat → Int → List th_transport → List Effect → Option (List th_transport × List Effect)
  | 0, _, _, _, _ => none
  | fuel + 1, off, len, services, lg =>
    if len ≥ 5 then
      let service_id := be16 buf off
      let free_ca_mode := (byte buf (off + 3) >>> 4) &&& 0x1
      let dllen : Int := ((((byte buf (off + 3) &&& 0x0f) <<< 8) ||| byte buf (off + 4) : Nat) : Int)
      let lg := lg ++ [Effect.read off 5]
      let len := len - 5
      let off := off + 5
      if dllen > len then some (services, lg)                         -- break
      else
        match sdt_desc_loop D buf service_id free_ca_mode (dllen.toNat + 1) off len dllen
            services lg with
        | none => none
        | some (off, len, services, lg) => sdt_loop D buf fuel off len services lg
    else some (services, lg)

/-- Embedding of `dvb_sdt_callback` (lines 573-690): return value, services and effects. -/
def dvb_sdt_callback (D : DecEnv) (services : List th_transport) (buf : List Nat) (len : Int) :
    Option (Int × List th_transport × List Effect) :=
  if len < 8 then some (-1, services, [])
  else
    let lg := [Effect.read 0 8]
    if byte buf 2 &&& 1 = 0 then some (-1, services, lg)
    else
      match sdt_loop D buf (len.toNat + 1) 8 (len - 8) services lg with
      | none => none
      | some (services, lg) => some (0, services, lg)

/-! ### Event Information Table -/

/-- Embedding of `dvb_desc_short_event` (lines 379-398): title and description, or `none`
for the return value -1. -/
def dvb_desc_short_event (D : DecEnv) (buf : List Nat) (off : Nat) (len : Int) :
    Option (List Nat × List Nat) :=
  if len < 4 then none
  else
    match D.dvb_get_string_with_len (buf.drop (off + 3)) (len - 3) with
    | none => none
    | some (r, title) =>
      match D.dvb_get_string_with_len (buf.drop (off + 3 + r)) (len - 3 - (r : Int)) with
      | none => none
      | some (_, desc) => some (title, desc)

/-- The loop `while(dllen > 0)` of `dvb_eit_callback` (lines 535-564) for the event `e`:
offset, remaining length and effects when it ends; `none` when the fuel is used up. -/
def eit_desc_loop (D : DecEnv) (buf : List Nat) (e : Nat) :
    Nat → Nat → Int → Int → List Effect → Option (Nat × Int × List Effect)
  | 0, _, _, _, _ => none
  | fuel + 1, off, len, dllen, lg =>
    if dllen > 0 then
      let dtag := byte buf off
      let dlen := byte buf (off + 1)
      let lg := lg ++ [Effect.read off 2]
      let len := len - 2
      let off := off + 2
      let dllen := dllen - 2
      if (dlen : Int) > len then some (off, len, lg)                  -- break
      else
        let lg :=
          if dtag = D.DVB_DESC_SHORT_EVENT then
            let lg := lg ++ [Effect.parse off dlen]
            match dvb_desc_short_event D buf off dlen with
            | some (title, desc) =>
              lg ++ [Effect.epg_event_set_title e title, Effect.epg_event_set_desc e desc]
            | none => lg
          else if dtag = D.DVB_DESC_CONTENT then
            if dlen ≥ 2 then
              lg ++ [Effect.read off 1,
                Effect.epg_event_set_content_type e
                  (D.epg_content_type_find_by_dvbcode (byte buf off))]
            else lg
          else lg
        eit_desc_loop D buf e fuel (off + dlen) (len - (dlen : Int)) (dllen - (dlen : Int)) lg
    else some (off, len, lg)

/-- The duration of the event entry at `off`: `bcdtoint` of bytes 7, 8 and 9 as hours,
minutes and seconds (lines 506-508). -/
def eit_duration (buf : List Nat) (off : Nat) : Int :=
  add32 (add32 (mul32 (bcdtoint (byte buf (off + 7) &&& 0xff)) 3600)
      (mul32 (bcdtoint (byte buf (off + 8) &&& 0xff)) 60))
    (bcdtoint (byte buf (off + 9) &&& 0xff))

/-- The start time of the event entry at `off`: `dvb_convert_date(&ptr[2])`. -/
def eit_start_time (D : DecEnv) (buf : List Nat) (off : Nat) : Int :=
  D.dvb_convert_date ((buf.drop (off + 2)).take 5)

/-- The descriptor loop length of the event entry at `off` (line 509). -/
def eit_dllen (buf : List Nat) (off : Nat) : Int :=
  ((((byte buf (off + 10) &&& 0x0f) <<< 8) ||| byte buf (off + 11) : Nat) : Int)

/-- The loop `while(len >= 12)` of `dvb_eit_callback` (lines 503-565) for the channel
`ch`: the effects when it ends; `none` when the fuel is used up. -/
def eit_loop (D : DecEnv) (buf : List Nat) (ch : Nat) :
    Nat → Nat → Int → List Effect → Option (List Effect)
  | 0, _, _, _ => none
  | fuel + 1, off, len, lg =>
    if len ≥ 12 then
      let event_id := be16 buf off
      let start_time := eit_start_time D buf off
      let duration := eit_duration buf off
      let dllen := eit_dllen buf off
      let lg := lg ++ [Effect.read off 12]
      let len := len - 12
      let off := off + 12
      if dllen > len then some lg                                     -- break
      else
        let stop_time := start_time + duration
        if stop_time < D.dispatch_clock then
          eit_loop D buf ch fuel (off + dllen.toNat) (len - dllen) lg  -- already come to pass
        else
          let lg := lg ++ [Effect.epg_event_create ch start_time (start_time + duration) event_id]
          match D.epg_event_create lg ch start_time (start_time + duration) event_id with
          | none => eit_loop D buf ch fuel (off + dllen.toNat) (len - dllen) lg
          | some e =>
            match eit_desc_loop D buf e (dllen.toNat + 1) off len dllen lg with
            | none => none
            | some (off, len, lg) => eit_loop D buf ch fuel off len lg
    else some lg

/-- Embedding of `dvb_eit_callback` (lines 433-567): return value and effects. -/
def dvb_eit_callback (D : DecEnv) (buf : List Nat) (len : Int) (tableid : Nat) :
    Option (Int × List Effect) :=
  if tableid < 0x4e ∨ tableid > 0x6f ∨ len < 11 then some (-1, [])
  else
    let serviceid := be16 buf 0
    let transport_stream_id := be16 buf 5
    let lg := [Effect.read 0 11]
    if byte buf 2 &&& 1 = 0 then some (-1, lg)
    else
      match D.mux_by_tsid transport_stream_id with
      | none => some (-1, lg)
      | some tdmi =>
        match D.eit_transport_find tdmi serviceid with
        | none => some (0, lg)
        | some t =>
          match D.tht_ch t with
          | none => some (0, lg)
          | some ch =>
            match eit_loop D buf ch ((len - 11).toNat + 1) 11 (len - 11) lg with
            | none => none
            | some lg => some (0, lg)

/-! ### Delivery descriptors and the Network Information Table -/

/-- The table `fec_tab` (lines 803-819); `api5` is `DVB_API_VERSION >= 5`. -/
def fec_tab (api5 : Bool) : Nat → fe_code_rate
  | 0 => fe_code_rate.FEC_AUTO
  | 1 => fe_code_rate.FEC_1_2
  | 2 => fe_code_rate.FEC_2_3
  | 3 => fe_code_rate.FEC_3_4
  | 4 => fe_code_rate.FEC_5_6
  | 5 => fe_code_rate.FEC_7_8
  | 6 => fe_code_rate.FEC_8_9
  | 7 => if api5 then fe_code_rate.FEC_3_5 else fe_code_rate.FEC_NONE
  | 8 => fe_code_rate.FEC_4_5
  | 9 => if api5 then fe_code_rate.FEC_9_10 else fe_code_rate.FEC_NONE
  | _ => fe_code_rate.FEC_NONE

/-- The table `qam_tab` (lines 822-824), read at indices 0..5 only. -/
def qam_tab : Nat → fe_modulation
  | 0 => fe_modulation.QAM_AUTO
  | 1 => fe_modulation.QAM_16
  | 2 => fe_modulation.QAM_32
  | 3 => fe_modulation.QAM_64
  | 4 => fe_modulation.QAM_128
  | _ => fe_modulation.QAM_256

/-- The `int freq` of both delivery descriptors (lines 846-848 and 890-892). -/
def delivery_freq (buf : List Nat) (off : Nat) : Int :=
  add32 (add32 (add32 (mul32 (bcdtoint (byte buf off)) 1000000)
      (mul32 (bcdtoint (byte buf (off + 1))) 10000))
      (mul32 (bcdtoint (byte buf (off + 2))) 100))
    (bcdtoint (byte buf (off + 3)))

/-- The `int symrate` of both delivery descriptors (lines 852-854 and 895-897). -/
def delivery_symrate (buf : List Nat) (off : Nat) : Int :=
  add32 (add32 (add32 (mul32 (bcdtoint (byte buf (off + 7))) 100000)
      (mul32 (bcdtoint (byte buf (off + 8))) 1000))
      (mul32 (bcdtoint (byte buf (off + 9))) 10))
    ((byte buf (off + 10) >>> 4 : Nat) : Int)

/-- Embedding of `dvb_table_cable_delivery` (lines 829-869) on the descriptor body at
`off`: return value and effects. -/
def dvb_table_cable_delivery (D : DecEnv) (buf : List Nat) (off : Nat) (len : Int)
    (tsid : Nat) : Int × List Effect :=
  if D.tda_autodiscovery = false then (-1, [])
  else if len < 11 then (-1, [])
  else
    let dmc := { dmc_zero with
      inversion := fe_spectral_inversion.INVERSION_AUTO
      frequency := uint32 (mul32 (delivery_freq buf off) 100)
      symbol_rate := uint32 (mul32 (delivery_symrate buf off) 100)
      modulation :=
        if (byte buf (off + 6) &&& 0x0f) > 5 then fe_modulation.QAM_AUTO
        else qam_tab (byte buf (off + 6) &&& 0x0f)
      fec_inner := fec_tab D.api5 (byte buf (off + 10) &&& 0x07) }
    (0, [Effect.read off 11, Effect.mux_create dmc tsid])

/-- The fields `dvb_table_sat_delivery` sets under `DVB_API_VERSION >= 5` (lines
906-941). -/
def sat_api5_fields (b6 : Nat) (dmc : dvb_mux_conf) : dvb_mux_conf :=
  let modulation := b6 &&& 0x03
  let dmc := { dmc with
    dmc_fe_modulation :=
      if modulation = 0x01 then fe_modulation.QPSK
      else if modulation = 0x02 then fe_modulation.PSK_8
      else if modulation = 0x03 then fe_modulation.QAM_16
      else fe_modulation.QPSK }
  if b6 &&& 0x04 ≠ 0 then
    { dmc with
      dmc_fe_delsys := fe_delivery_system.SYS_DVBS2
      dmc_fe_rolloff :=
        match (b6 >>> 3) &&& 0x03 with
        | 0 => fe_rolloff.ROLLOFF_35
        | 1 => fe_rolloff.ROLLOFF_25
        | 2 => fe_rolloff.ROLLOFF_20
        | _ => fe_rolloff.ROLLOFF_AUTO }
  else
    { dmc with
      dmc_fe_delsys := fe_delivery_system.SYS_DVBS
      dmc_fe_rolloff := fe_rolloff.ROLLOFF_35 }

/-- The configuration `dvb_table_sat_delivery` builds from the descriptor body at `off`
(lines 887-941). -/
def sat_delivery_conf (D : DecEnv) (buf : List Nat) (off : Nat) : dvb_mux_conf :=
  let dmc := { dmc_zero with
    inversion := fe_spectral_inversion.INVERSION_AUTO
    frequency := uint32 (mul32 (delivery_freq buf off) 10)
    symbol_rate := uint32 (mul32 (delivery_symrate buf off) 100)
    fec_inner := fec_tab D.api5 (byte buf (off + 10) &&& 0x0f)
    dmc_polarisation := (byte buf (off + 6) >>> 5) &&& 0x03
    dmc_satconf := D.dmc_satconf }
  if D.api5 then sat_api5_fields (byte buf (off + 6)) dmc else dmc

/-- Embedding of `dvb_table_sat_delivery` (lines 874-946) on the descriptor body at
`off`: return value and effects. -/
def dvb_table_sat_delivery (D : DecEnv) (buf : List Nat) (off : Nat) (len : Int)
    (tsid : Nat) : Int × List Effect :=
  if D.tda_autodiscovery = false then (-1, [])
  else if len < 11 then (-1, [])
  else (0, [Effect.read off 11, Effect.mux_create (sat_delivery_conf D buf off) tsid])

/-- What the Network Information Table decoder carries along: offset, remaining length,
the stream's network name and the effects. -/
structure NitState where
  off : Nat
  len : Int
  network : Option (List Nat)
  lg : List Effect
deriving DecidableEq, Repr

/-- Modelled from the spec: `dvb_mux_set_networkname` is the "network-name setter" of the
broadcast model; it is taken to store the name in the stream. -/
def dvb_mux_set_networkname (n : NitState) (networkname : List Nat) : NitState :=
  { n with network := some networkname, lg := n.lg ++ [Effect.mux_set_networkname networkname] }

/-- The loop over the network descriptors of `dvb_nit_callback` (lines 979-998): `inl` is the state
at `return -1`, `inr` the state when the loop ends; `none` when the fuel is used up. -/
def nit_network_loop (D : DecEnv) (buf : List Nat) :
    Nat → Int → NitState → Option (NitState ⊕ NitState)
  | 0, _, _ => none
  | fuel + 1, ntl, n =>
    if ntl > 2 then
      let tag := byte buf n.off
      let tlen := byte buf (n.off + 1)
      let n := { n with off := n.off + 2, len := n.len - 2, lg := n.lg ++ [Effect.read n.off 2] }
      let ntl := ntl - 2
      let step (n : NitState) : Option (NitState ⊕ NitState) :=
        nit_network_loop D buf fuel (ntl - (tlen : Int))
          { n with off := n.off + tlen, len := n.len - (tlen : Int) }
      if tag = D.DVB_DESC_NETWORK_NAME then
        let n := { n with lg := n.lg ++ [Effect.parse n.off tlen] }
        match D.dvb_get_string (buf.drop n.off) tlen with
        | none => some (Sum.inl n)                                     -- return -1
        | some networkname =>
          if n.network.getD [] ≠ networkname then step (dvb_mux_set_networkname n networkname)
          else step n
      else step n
    else some (Sum.inr n)

/-- The loop over the descriptors of one transport stream of `dvb_nit_callback` (lines
1019-1037); `none` when the fuel is used up. -/
def nit_ts_desc_loop (D : DecEnv) (buf : List Nat) (tsid : Nat) :
    Nat → Int → NitState → Option NitState
  | 0, _, _ => none
  | fuel + 1, ntl, n =>
    if ntl > 2 then
      let tag := byte buf n.off
      let tlen := byte buf (n.off + 1)
      let n := { n with off := n.off + 2, len := n.len - 2, lg := n.lg ++ [Effect.read n.off 2] }
      let ntl := ntl - 2
      let n :=
        if tag = D.DVB_DESC_SAT then
          { n with lg := n.lg ++ (dvb_table_sat_delivery D buf n.off tlen tsid).2 }
        else if tag = D.DVB_DESC_CABLE then
          { n with lg := n.lg ++ (dvb_table_cable_delivery D buf n.off tlen tsid).2 }
        else n
      nit_ts_desc_loop D buf tsid fuel (ntl - (tlen : Int))
        { n with off := n.off + tlen, len := n.len - (tlen : Int) }
    else some n

/-- The loop `while(len >= 6)` over the transport streams of `dvb_nit_callback` (lines
1010-1038); `none` when the fuel is used up. -/
def nit_ts_loop (D : DecEnv) (buf : List Nat) : Nat → NitState → Option NitState
  | 0, _ => none
  | fuel + 1, n =>
    if n.len ≥ 6 then
      let tsid := be16 buf n.off
      let ntl : Int := ((((byte buf (n.off + 4) &&& 0xf) <<< 8) ||| byte buf (n.off + 5) : Nat) : Int)
      let n := { n with off := n.off + 6, len := n.len - 6, lg := n.lg ++ [Effect.read n.off 6] }
      if ntl > n.len then some n                                       -- break
      else
        match nit_ts_desc_loop D buf tsid (ntl.toNat + 1) ntl n with
        | none => none
        | some n => nit_ts_loop D buf fuel n
    else some n

/-- Embedding of `dvb_nit_callback` (lines 953-1040): return value, the stream's network
name afterwards and the effects. -/
def dvb_nit_callback (D : DecEnv) (network : Option (List Nat)) (buf : List Nat) (len : Int)
    (tableid : Nat) : Option (Int × Option (List Nat) × List Effect) :=
  if tableid ≠ 0x40 then some (-1, network, [])
  else
    let lg := [Effect.read 2 1]
    if byte buf 2 &&& 1 = 0 then some (-1, network, lg)
    else
      let ntl : Int := ((((byte buf 5 &&& 0xf) <<< 8) ||| byte buf 6 : Nat) : Int)
      let n : NitState := { off := 7, len := len - 7, network := network, lg := lg ++ [Effect.read 5 2] }
      if ntl > n.len then some (-1, n.network, n.lg)
      else
        match nit_network_loop D buf (ntl.toNat + 1) ntl n with
        | none => none
        | some (Sum.inl n) => some (-1, n.network, n.lg)
        | some (Sum.inr n) =>
          if n.len < 2 then some (-1, n.network, n.lg)
          else
            let ntl : Int :=
              ((((byte buf n.off &&& 0xf) <<< 8) ||| byte buf (n.off + 1) : Nat) : Int)
            let n := { n with off := n.off + 2, len := n.len - 2, lg := n.lg ++ [Effect.read n.off 2] }
            if n.len < ntl then some (-1, n.network, n.lg)
            else
              match nit_ts_loop D buf (n.len.toNat + 1) n with
              | none => none
              | some n => some (0, n.network, n.lg)

/-- A decoder environment for the worked examples: plain `char` signed and
`DVB_API_VERSION >= 5` as on a Linux x86 build, autodiscovery on, the descriptor tags of
EN 300 468, length-prefixed strings decoded byte for byte, a clock at 5000 and a date
conversion that takes the first date byte as thousands of seconds, every stream, service
and channel found. -/
def denv0 : DecEnv :=
  { char_signed := true, api5 := true, tda_autodiscovery := true, dmc_satconf := 3,
    DVB_DESC_SERVICE := 0x48, DVB_DESC_SHORT_EVENT := 0x4d, DVB_DESC_CONTENT := 0x54,
    DVB_DESC_NETWORK_NAME := 0x40, DVB_DESC_SAT := 0x43, DVB_DESC_CABLE := 0x44,
    dvb_get_string_with_len := fun p len =>
      if len < 1 then none
      else if (byte p 0 : Int) + 1 > len then none
      else some (byte p 0 + 1, (p.drop 1).take (byte p 0)),
    dvb_get_string := fun p len => some (p.take len),
    dvb_convert_date := fun d => (byte d 0 : Int) * 1000,
    dispatch_clock := 5000,
    mux_by_tsid := fun tsid => some tsid,
    eit_transport_find := fun _ sid => some sid,
    tht_ch := fun t => some t,
    epg_event_create := fun _ _ _ _ id => some id,
    epg_content_type_find_by_dvbcode := fun c => some c }

/-- The eleven header bytes of an Event Information payload: service 1, current/next bit
set, transport stream 7. -/
def eit_hdr : List Nat := [0, 1, 0xc1, 0, 0, 0, 7, 0, 1, 0, 0x4e]

/-- An event entry with event id 9, first date byte `d0`, duration 00:30:00 and
descriptor loop length `dl`. -/
def eit_entry (d0 dl : Nat) : List Nat := [0, 9, d0, 0, 0, 0, 0, 0x00, 0x30, 0x00, 0x00, dl]

/-- A satellite delivery descriptor body: 11.74350 GHz, symbol rate 27.5000 Msym/s. -/
def sat_body : List Nat := [0x01, 0x17, 0x43, 0x50, 0x01, 0x92, 0x25, 0x02, 0x75, 0x00, 0x03]

/-- A Service Description payload for transport stream 7 with one service, id 0x1f, whose
service descriptor has type 1, an empty provider name and the display name `name`. -/
def sdt_pl (name : List Nat) : List Nat :=
  [0, 7, 0xc1, 0, 0, 0, 1, 0xff] ++ [0, 0x1f, 0xfc, 0x80, 5 + name.length] ++
    [0x48, 3 + name.length, 0x01, 0, name.length] ++ name

/-- The service 0x1f with nothing known yet. -/
def sdt_service0 : th_transport :=
  { tht_dvb_service_id := 0x1f, tht_servicetype := 0, tht_scrambled := 0,
    tht_provider := none, tht_svcname := none }

/-- The services of the stream before the payload: service 0x1f alone. -/
def sdt_services0 : List th_transport := [sdt_service0]

/-- The services of the stream once service 0x1f has type 1, an empty provider name and
the name `name`. -/
def sdt_services1 (name : List Nat) : List th_transport :=
  [{ tht_dvb_service_id := 0x1f, tht_servicetype := 1, tht_scrambled := 0,
     tht_provider := some [], tht_svcname := some name }]

/-- An Event Information payload with two events: the first ends at 3800, before the
clock of `denv0`, and has a descriptor loop of one byte; the second ends at 7800. -/
def eit_pl2 : List Nat := eit_hdr ++ eit_entry 2 1 ++ [0x4d] ++ eit_entry 6 0

/-- An Event Information payload of 24 bytes with one event to come whose descriptor loop
has length 1. -/
def eit_pl1 : List Nat := eit_hdr ++ eit_entry 6 1 ++ [0x4d]

/-- The tests each decoder with a current/next test makes before it (lines 706, 595, 467
and 962; `dvb_cat_callback` makes none). The other decoders have no current/next test. -/
def earlier_checks (cb : Callback) (len : Int) (tableid : Nat) : Prop :=
  match cb with
  | Callback.dvb_pat_callback => 5 ≤ len
  | Callback.dvb_cat_callback => True
  | Callback.dvb_sdt_callback => 8 ≤ len
  | Callback.dvb_eit_callback => 0x4e ≤ tableid ∧ tableid ≤ 0x6f ∧ 11 ≤ len
  | Callback.dvb_nit_callback => tableid = 0x40
  | _ => False

instance (cb : Callback) (len : Int) (tableid : Nat) : Decidable (earlier_checks cb len tableid) := by
  cases cb <;> unfold earlier_checks <;> infer_instance

/-- The return value of the decoders that act on the services, the programme guide and
the network of the stream, from their embeddings; `none` for the other decoders. -/
def decoder_ret_model (D : DecEnv) (services : List th_transport) (network : Option (List Nat))
    (cb : Callback) (ptr : List Nat) (len : Int) (tableid : Nat) : Option Int :=
  match cb with
  | Callback.dvb_sdt_callback => (dvb_sdt_callback D services ptr len).map (fun r => r.1)
  | Callback.dvb_eit_callback => (dvb_eit_callback D ptr len tableid).map (fun r => r.1)
  | Callback.dvb_nit_callback => (dvb_nit_callback D network ptr len tableid).map (fun r => r.1)
  | _ => none

/-- The loop of `atsc_vct_callback` (lines 1073-1118) as far as the return value goes:
the channel records are walked with their descriptor lengths; `none` when the fuel is
used up. -/
def vct_loop (buf : List Nat) : Nat → Nat → Int → Int → Option Int
  | 0, _, _, _ => none
  | fuel + 1, off, len, numch =>
    if numch > 0 ∧ len ≥ 32 then
      let dlen : Int :=
        ((((byte buf (off + 30) &&& 3) <<< 8) ||| byte buf (off + 31) : Nat) : Int)
      if dlen + 32 > len then some (-1)                              -- Corrupt table
      else vct_loop buf fuel (off + 32 + dlen.toNat) (len - (32 + dlen)) (numch - 1)
    else some 0

/-- The return value of `atsc_vct_callback` (lines 1046-1120). What the decoder writes to
the services is outside the registry and not embedded. -/
def atsc_vct_callback_ret (buf : List Nat) (len : Int) (tableid : Nat) : Option Int :=
  if tableid ≠ 0xc8 ∧ tableid ≠ 0xc9 then some (-1)
  else if len - 5 < 2 then some (-1)
  else vct_loop buf (byte buf 6 + 1) 7 (len - 7) (byte buf 6)

/-- A concrete environment: the CRC above; a stream that knows no service, so that the
lookup `dvb_transport_find` returns `NULL` without a PMT pid and creates the service
(handle: its id) with one; descriptor tag 9 for `DVB_DESC_CA`; and the return values of
the SDT, EIT and NIT decoders of `denv0` (services `sdt_services0`, no network name) and
of the VCT decoder. -/
def env0 : Env :=
  { psi_crc32 := psi_crc32,
    dvb_transport_find := fun sid pid => if pid = 0 then none else some sid,
    tht_dvb_service_id := fun t => t, null_read := 0, DVB_DESC_CA := 9, DMX_CHECK_CRC := 1,
    DMX_IMMEDIATE_START := 4,
    decoder_ret := fun cb _ ptr len tableid =>
      match cb with
      | Callback.atsc_vct_callback => (atsc_vct_callback_ret ptr len tableid).getD 0
      | cb => (decoder_ret_model denv0 sdt_services0 none cb ptr len tableid).getD 0 }

/-- The environment `env0` with the return values of the decoders of `denv0` on the
services `sdt_services0` and a stream without network name. -/
def env1 : Env :=
  { env0 with decoder_ret := fun cb _ ptr len tableid =>
      (decoder_ret_model denv0 sdt_services0 none cb ptr len tableid).getD 0 }

/-- A Network Information section of 9 payload bytes whose current/next bit is clear. -/
def nit_next_section : List Nat := [0x40, 0x00, 0x09, 0, 1, 0xc0, 0, 0, 0xf0, 0x00, 0xf0, 0x00]

/-- A Network Information section of 9 payload bytes with the current/next bit set, an
empty network descriptor loop and an empty transport stream loop. -/
def nit_section : List Nat := [0x40, 0xf0, 0x09, 0, 1, 0xc1, 0, 0, 0xf0, 0x00, 0xf0, 0x00]

/-- A Program Association payload of 9 bytes for transport id 7 with the current/next bit
set and one entry: service id 1 with PMT pid 0. -/
def pat_pl_pid0 : List Nat := [0x00, 0x07, 0xc1, 0x00, 0x00, 0x00, 0x01, 0xe0, 0x00]

/-- The subscription of `s_nit`. -/
def nit_table : th_dvb_table :=
  { addr := 100, tdt_flags := 2, tdt_fd := 5, tdt_name := "nit",
    tdt_opaque_p := Opaque.null, tdt_callback := Callback.dvb_nit_callback,
    tdt_count := 0, tdt_pid := 16,
    tdt_fparams := { pid := 16, filter0 := 0, mask0 := 0, flags := 4 }, tdt_id := 1 }

/-- The two 4-bit digits of a byte, high nibble first (the reading of a BCD field in the
claims). -/
def bcd_digits (b : Nat) : List Nat := [b / 16, b % 16]

/-- The number written by a sequence of decimal digits, most significant first (the
decimal value of a BCD field in the claims). -/
def decimal_value (digits : List Nat) : Nat := digits.foldl (fun acc d => acc * 10 + d) 0

/-- The eight frequency digits of the delivery descriptor body at `off`: bytes 0..3. -/
def freq_digits (buf : List Nat) (off : Nat) : List Nat :=
  bcd_digits (byte buf off) ++ bcd_digits (byte buf (off + 1)) ++
    bcd_digits (byte buf (off + 2)) ++ bcd_digits (byte buf (off + 3))

/-- The seven symbol-rate digits of the delivery descriptor body at `off`: bytes 7..9 and
the high nibble of byte 10. -/
def symrate_digits (buf : List Nat) (off : Nat) : List Nat :=
  bcd_digits (byte buf (off + 7)) ++ bcd_digits (byte buf (off + 8)) ++
    bcd_digits (byte buf (off + 9)) ++ [byte buf (off + 10) / 16]

/-- A cable delivery descriptor body with the frequency digits 99999999 (9999.9999 MHz),
QAM 64 and the symbol-rate digits 0069000. -/
def cable_body_9999 : List Nat := [0x99, 0x99, 0x99, 0x99, 0, 0, 0x03, 0x00, 0x69, 0x00, 0x00]

/-- A cable delivery descriptor body with the frequency digits 21474837 (2147.4837 MHz). -/
def cable_body_2147 : List Nat := [0x21, 0x47, 0x48, 0x37, 0, 0, 0x03, 0x00, 0x69, 0x00, 0x00]

/-- A cable delivery descriptor body with the frequency digits 03460000 (346 MHz), QAM 64,
symbol-rate digits 0069000 and FEC code 5. -/
def cable_body : List Nat := [0x03, 0x46, 0x00, 0x00, 0, 0, 0x03, 0x00, 0x69, 0x00, 0x05]

/-- A Network Information payload of 10 bytes whose network descriptor loop (3 bytes) holds
a network name descriptor of declared length 200 with one byte left in the loop; in the
buffer the payload is followed by four more bytes. -/
def nit_pl_name : List Nat :=
  [0, 1, 0xc1, 0, 0, 0xf0, 0x03, 0x40, 200, 0x41] ++ [0x42, 0x43, 0x44, 0x45]

/-- A Network Information payload of 20 bytes with an empty network descriptor loop and
one transport stream (id 7) whose descriptor loop (5 bytes) holds a satellite delivery
descriptor of declared length 11 with three bytes left in the loop; in the buffer the
payload is followed by the other eight bytes of `sat_body`. -/
def nit_pl_sat : List Nat :=
  [0, 1, 0xc1, 0, 0, 0xf0, 0x00, 0xf0, 0x0b, 0, 7, 0, 1, 0xf0, 0x05, 0x43, 11] ++ sat_body

/-- A bound subscription of `s` is live in `s1` with the same filter descriptor. -/
def keeps_bound (s s1 : State) : Prop :=
  ∀ b t, find_tdt s b = some t → t.tdt_fd ≠ -1 →
    ∃ t1, find_tdt s1 b = some t1 ∧ t1.tdt_fd = t.tdt_fd

/-- The bound PAT subscription of `s_pat_cat`. -/
def pat_table : th_dvb_table :=
  { addr := 100, tdt_flags := 3, tdt_fd := 5, tdt_name := "pat",
    tdt_opaque_p := Opaque.null, tdt_callback := Callback.dvb_pat_callback,
    tdt_count := 0, tdt_pid := 0,
    tdt_fparams := { pid := 0, filter0 := 0, mask0 := 255, flags := 5 }, tdt_id := 1 }

/-- The invariant of the identifiers handed out by `tdt_open_fd` (line 149), on the
subscription set `l` and the counter `n`: the counter is not negative, every `tdt_id` lies
between 0 and the counter, a bound subscription has a positive `tdt_id`, and a positive
`tdt_id` belongs to one address only. -/
structure IdCore (l : List th_dvb_table) (n : Int) : Prop where
  tally_nonneg : 0 ≤ n
  id_range : ∀ t ∈ l, 0 ≤ t.tdt_id ∧ t.tdt_id ≤ n
  bound_pos : ∀ t ∈ l, t.tdt_fd ≠ -1 → 0 < t.tdt_id
  pos_unique : ∀ t ∈ l, ∀ u ∈ l, 0 < t.tdt_id → t.tdt_id = u.tdt_id → t.addr = u.addr

/-- The identifier invariant of a state. -/
def IdInv (s : State) : Prop := IdCore s.tdmi_tables s.tdt_id_tally

/-! ## Basic facts -/

theorem find_tdt_some {s : State} {a : Nat} {t : th_dvb_table} (h : find_tdt s a = some t) :
    t ∈ s.tdmi_tables ∧ t.addr = a := by
  unfold find_tdt at h
  refine ⟨List.mem_of_find?_eq_some h, ?_⟩
  have := List.find?_some h
  simpa using this

theorem find_tdt_of_mem {s : State} {t : th_dvb_table} (h : t ∈ s.tdmi_tables) :
    ∃ u, find_tdt s t.addr = some u := by
  unfold find_tdt
  cases hf : s.tdmi_tables.find? (fun u => u.addr == t.addr) with
  | some u => exact ⟨u, rfl⟩
  | none =>
    rw [List.find?_eq_none] at hf
    have := hf t h
    simp at this

theorem map_upd_addr (l : List th_dvb_table) (a : Nat) (g : th_dvb_table → th_dvb_table)
    (hg : ∀ u, (g u).addr = u.addr) :
    (l.map (fun u => if u.addr = a then g u else u)).map (fun t => t.addr)
      = l.map (fun t => t.addr) := by
  rw [List.map_map]
  apply List.map_congr_left
  intro u _
  simp only [Function.comp]
  split <;> simp [hg]

theorem map_upd_pid (l : List th_dvb_table) (a : Nat) (g : th_dvb_table → th_dvb_table)
    (hg : ∀ u, (g u).tdt_pid = u.tdt_pid) :
    (l.map (fun u => if u.addr = a then g u else u)).map (fun t => t.tdt_pid)
      = l.map (fun t => t.tdt_pid) := by
  rw [List.map_map]
  apply List.map_congr_left
  intro u _
  simp only [Function.comp]
  split <;> simp [hg]

/-- Rebinding outcome "pending": the table at `a` gets `tdt_fd = -1` and goes to the tail. -/
theorem InvCore.upd_pending {l : List th_dvb_table} {q : List Nat} {h : Nat} (hI : InvCore l q h)
    (a : Nat) (g : th_dvb_table → th_dvb_table) (ha : ∃ t ∈ l, t.addr = a)
    (hga : ∀ u, (g u).addr = u.addr) (hgp : ∀ u, (g u).tdt_pid = u.tdt_pid)
    (hgf : ∀ u, (g u).tdt_fd = -1) :
    InvCore (l.map (fun u => if u.addr = a then g u else u)) (q.erase a ++ [a]) h := by
  have hmem : ∀ t ∈ l.map (fun u => if u.addr = a then g u else u),
      ∃ u ∈ l, t = (if u.addr = a then g u else u) := by
    intro t ht
    obtain ⟨u, hu, rfl⟩ := List.mem_map.1 ht
    exact ⟨u, hu, rfl⟩
  refine ⟨?_, ?_, ?_, ?_, ?_, ?_⟩
  · rw [map_upd_addr l a g hga]; exact hI.addr_nodup
  · intro t ht
    obtain ⟨u, hu, rfl⟩ := hmem t ht
    have := hI.addr_lt u hu
    split <;> simp [hga, this]
  · refine List.nodup_append.2 ⟨hI.queue_nodup.erase a, List.nodup_singleton a, ?_⟩
    intro b hb hb2
    simp only [List.mem_singleton] at hb2
    subst hb2
    exact hI.queue_nodup.not_mem_erase hb
  · intro b hb
    have hb2 : ∃ u ∈ l, u.addr = b := by
      rcases List.mem_append.1 hb with hb | hb
      · exact hI.queue_sub b (List.mem_of_mem_erase hb)
      · simp only [List.mem_singleton] at hb; subst hb; exact ha
    obtain ⟨u, hu, hub⟩ := hb2
    refine ⟨_, List.mem_map.2 ⟨u, hu, rfl⟩, ?_⟩
    split <;> simp [hga, hub]
  · intro t ht
    obtain ⟨u, hu, rfl⟩ := hmem t ht
    by_cases hua : u.addr = a
    · simp [hua, hga, hgf]
    · simp only [hua, if_false]
      rw [List.mem_append, List.mem_erase_of_ne hua]
      simp only [List.mem_singleton, hua, or_false]
      exact hI.pending_iff u hu
  · rw [map_upd_pid l a g hgp]; exact hI.pid_nodup

/-- Rebinding outcome "bound": the table at `a` gets a descriptor and leaves the queue. -/
theorem InvCore.upd_bound {l : List th_dvb_table} {q : List Nat} {h : Nat} (hI : InvCore l q h)
    (a : Nat) (g : th_dvb_table → th_dvb_table)
    (hga : ∀ u, (g u).addr = u.addr) (hgp : ∀ u, (g u).tdt_pid = u.tdt_pid)
    (hgf : ∀ u, (g u).tdt_fd ≠ -1) :
    InvCore (l.map (fun u => if u.addr = a then g u else u)) (q.erase a) h := by
  have hmem : ∀ t ∈ l.map (fun u => if u.addr = a then g u else u),
      ∃ u ∈ l, t = (if u.addr = a then g u else u) := by
    intro t ht
    obtain ⟨u, hu, rfl⟩ := List.mem_map.1 ht
    exact ⟨u, hu, rfl⟩
  refine ⟨?_, ?_, ?_, ?_, ?_, ?_⟩
  · rw [map_upd_addr l a g hga]; exact hI.addr_nodup
  · intro t ht
    obtain ⟨u, hu, rfl⟩ := hmem t ht
    have := hI.addr_lt u hu
    split <;> simp [hga, this]
  · exact hI.queue_nodup.erase a
  · intro b hb
    obtain ⟨u, hu, hub⟩ := hI.queue_sub b (List.mem_of_mem_erase hb)
    refine ⟨_, List.mem_map.2 ⟨u, hu, rfl⟩, ?_⟩
    split <;> simp [hga, hub]
  · intro t ht
    obtain ⟨u, hu, rfl⟩ := hmem t ht
    by_cases hua : u.addr = a
    · simp only [hua, if_true, hga]
      constructor
      · intro hq; exact absurd hq (hI.queue_nodup.not_mem_erase)
      · intro hf; exact absurd hf (hgf u)
    · simp only [hua, if_false]
      rw [List.mem_erase_of_ne hua]
      exact hI.pending_iff u hu
  · rw [map_upd_pid l a g hgp]; exact hI.pid_nodup

/-- An update that keeps address, pid and descriptor keeps the invariant. -/
theorem InvCore.upd_same {l : List th_dvb_table} {q : List Nat} {h : Nat} (hI : InvCore l q h)
    (a : Nat) (g : th_dvb_table → th_dvb_table)
    (hga : ∀ u, (g u).addr = u.addr) (hgp : ∀ u, (g u).tdt_pid = u.tdt_pid)
    (hgf : ∀ u, (g u).tdt_fd = u.tdt_fd) :
    InvCore (l.map (fun u => if u.addr = a then g u else u)) q h := by
  have hmem : ∀ t ∈ l.map (fun u => if u.addr = a then g u else u),
      ∃ u ∈ l, t = (if u.addr = a then g u else u) := by
    intro t ht
    obtain ⟨u, hu, rfl⟩ := List.mem_map.1 ht
    exact ⟨u, hu, rfl⟩
  refine ⟨?_, ?_, hI.queue_nodup, ?_, ?_, ?_⟩
  · rw [map_upd_addr l a g hga]; exact hI.addr_nodup
  · intro t ht
    obtain ⟨u, hu, rfl⟩ := hmem t ht
    have := hI.addr_lt u hu
    split <;> simp [hga, this]
  · intro b hb
    obtain ⟨u, hu, hub⟩ := hI.queue_sub b hb
    refine ⟨_, List.mem_map.2 ⟨u, hu, rfl⟩, ?_⟩
    split <;> simp [hga, hub]
  · intro t ht
    obtain ⟨u, hu, rfl⟩ := hmem t ht
    have := hI.pending_iff u hu
    split <;> simp [hga, hgf, this]
  · rw [map_upd_pid l a g hgp]; exact hI.pid_nodup

/-! ## Preservation of the registry invariant -/

theorem tdt_open_fd_inv {s s1 : State} {a : Nat} (hI : Inv s) (h : tdt_open_fd s a = some s1) :
    Inv s1 := by
  unfold tdt_open_fd at h
  cases hf : find_tdt s a with
  | none => simp [hf] at h
  | some t =>
    obtain ⟨htm, hta⟩ := find_tdt_some hf
    have ha : ∃ t ∈ s.tdmi_tables, t.addr = a := ⟨t, htm, hta⟩
    simp only [hf] at h
    split at h
    · simp at h
    · split at h
      · split at h
        · simp only [Option.some.injEq] at h
          subst h
          exact InvCore.upd_pending hI a _ ha (fun _ => rfl) (fun _ => rfl) (fun _ => rfl)
        · split at h
          · simp only [Option.some.injEq] at h
            subst h
            exact InvCore.upd_pending hI a _ ha (fun _ => rfl) (fun _ => rfl) (fun _ => rfl)
          · simp only [Option.some.injEq] at h
            subst h
            rename_i hfd _ _
            exact InvCore.upd_bound hI a _ (fun _ => rfl) (fun _ => rfl) (fun _ => hfd)
      · simp only [Option.some.injEq] at h
        subst h
        exact InvCore.upd_pending hI a _ ha (fun _ => rfl) (fun _ => rfl) (fun _ => rfl)

theorem tdt_close_fd_inv {s s1 : State} {a : Nat} (hI : Inv s) (h : tdt_close_fd s a = some s1) :
    Inv s1 := by
  unfold tdt_close_fd at h
  cases hf : find_tdt s a with
  | none => simp [hf] at h
  | some t =>
    obtain ⟨htm, hta⟩ := find_tdt_some hf
    have ha : ∃ t ∈ s.tdmi_tables, t.addr = a := ⟨t, htm, hta⟩
    simp only [hf] at h
    split at h
    · simp at h
    · rename_i hfd
      simp only [Option.some.injEq] at h
      subst h
      have hnq : a ∉ s.tdmi_table_queue := by
        intro hq
        exact hfd ((hI.pending_iff t htm).1 (hta ▸ hq))
      have := InvCore.upd_pending hI a (fun u => { u with tdt_fd := -1 }) ha
        (fun _ => rfl) (fun _ => rfl) (fun _ => rfl)
      rw [List.erase_of_not_mem hnq] at this
      exact this

/-- Unlinking the table at `a` from the set and from the queue keeps the invariant. -/
theorem InvCore.remove {l : List th_dvb_table} {q : List Nat} {h : Nat} (hI : InvCore l q h)
    (a : Nat) : InvCore (l.filter (fun u => u.addr != a)) (q.erase a) h := by
  refine ⟨?_, ?_, hI.queue_nodup.erase a, ?_, ?_, ?_⟩
  · exact (List.filter_sublist l).map _ |>.nodup hI.addr_nodup
  · intro t ht
    exact hI.addr_lt t (List.mem_of_mem_filter ht)
  · intro b hb
    obtain ⟨u, hu, hub⟩ := hI.queue_sub b (List.mem_of_mem_erase hb)
    refine ⟨u, List.mem_filter.2 ⟨hu, ?_⟩, hub⟩
    have : b ≠ a := by
      intro hba
      subst hba
      exact hI.queue_nodup.not_mem_erase hb
    simp [hub, this]
  · intro t ht
    obtain ⟨htl, hta⟩ := List.mem_filter.1 ht
    have hne : t.addr ≠ a := by simpa using hta
    rw [List.mem_erase_of_ne hne]
    exact hI.pending_iff t htl
  · exact (List.filter_sublist l).map _ |>.nodup hI.pid_nodup

theorem dvb_tdt_destroy_inv {s s1 : State} {a : Nat} (hI : Inv s)
    (h : dvb_tdt_destroy s a = some s1) : Inv s1 := by
  unfold dvb_tdt_destroy at h
  cases hf : find_tdt s a with
  | none => simp [hf] at h
  | some t =>
    obtain ⟨htm, hta⟩ := find_tdt_some hf
    simp only [hf] at h
    split at h
    · simp only [Option.some.injEq] at h
      subst h
      exact InvCore.remove hI a
    · rename_i hfd
      simp only [Option.some.injEq] at h
      subst h
      have hnq : a ∉ s.tdmi_table_queue := by
        intro hq
        exact hfd ((hI.pending_iff t htm).1 (hta ▸ hq))
      have := InvCore.remove hI a
      rw [List.erase_of_not_mem hnq] at this
      exact this

/-- Linking a new pending table with an unused address and an unused pid keeps the
invariant. -/
theorem InvCore.add {l : List th_dvb_table} {q : List Nat} {h h1 : Nat} (hI : InvCore l q h)
    (t : th_dvb_table) (hh : h ≤ h1) (hlt : t.addr < h1) (hfresh : ∀ u ∈ l, u.addr ≠ t.addr)
    (hpid : ∀ u ∈ l, t.tdt_pid ≠ u.tdt_pid) (hfd : t.tdt_fd = -1) :
    InvCore (t :: l) (q ++ [t.addr]) h1 := by
  have hnq : t.addr ∉ q := by
    intro hq
    obtain ⟨u, hu, hua⟩ := hI.queue_sub _ hq
    exact hfresh u hu hua
  refine ⟨?_, ?_, ?_, ?_, ?_, ?_⟩
  · simp only [List.map_cons, List.nodup_cons, List.mem_map, not_exists, not_and]
    exact ⟨fun u hu hua => hfresh u hu hua, hI.addr_nodup⟩
  · intro u hu
    rcases List.mem_cons.1 hu with rfl | hu
    · exact hlt
    · exact lt_of_lt_of_le (hI.addr_lt u hu) hh
  · refine List.nodup_append.2 ⟨hI.queue_nodup, List.nodup_singleton _, ?_⟩
    intro b hb hb2
    simp only [List.mem_singleton] at hb2
    subst hb2
    exact hnq hb
  · intro b hb
    rcases List.mem_append.1 hb with hb | hb
    · obtain ⟨u, hu, hub⟩ := hI.queue_sub b hb
      exact ⟨u, List.mem_cons_of_mem _ hu, hub⟩
    · simp only [List.mem_singleton] at hb
      exact ⟨t, List.mem_cons_self _ _, hb.symm⟩
  · intro u hu
    rcases List.mem_cons.1 hu with rfl | hu
    · simp [hfd]
    · rw [List.mem_append]
      simp only [List.mem_singleton, hfresh u hu, or_false]
      exact hI.pending_iff u hu
  · simp only [List.map_cons, List.nodup_cons, List.mem_map, not_exists, not_and]
    exact ⟨fun u hu hup => hpid u hu hup.symm, hI.pid_nodup⟩

theorem tdt_add_inv {env : Env} {s s1 : State} {fp : Option dmx_sct_filter_params}
    {cb : Callback} {opq : Opaque} {name : String} {flags : Nat} {pid : Int} {tdt : Option Nat}
    (hI : Inv s) (hb : fresh_block s tdt)
    (h : tdt_add env s fp cb opq name flags pid tdt = some s1) : Inv s1 := by
  unfold tdt_add at h
  simp only at h
  split at h
  · simp only [Option.some.injEq] at h
    subst h
    exact hI
  · rename_i hany
    have hpid : ∀ u ∈ s.tdmi_tables, pid ≠ u.tdt_pid := by
      intro u hu hp
      apply hany
      simp only [log, List.any_eq_true, decide_eq_true_eq]
      exact ⟨u, hu, hp⟩
    cases tdt with
    | none =>
      simp only [calloc, log] at h
      refine tdt_open_fd_inv ?_ h
      exact InvCore.add hI _ (Nat.le_succ _) (Nat.lt_succ_self _)
        (fun u hu => ne_of_lt (hI.addr_lt u hu)) hpid rfl
    | some a =>
      simp only [log] at h
      refine tdt_open_fd_inv ?_ h
      exact InvCore.add hI _ (le_refl _) hb.1 (fun u hu => ne_of_lt (hb.2 u hu)) hpid rfl

theorem pat_loop_inv (env : Env) : ∀ (fuel : Nat) (s s1 : State) (ptr : List Nat) (len : Int),
    Inv s → pat_loop env fuel s ptr len = some s1 → Inv s1 := by
  intro fuel
  induction fuel with
  | zero => intro s s1 ptr len _ h; simp [pat_loop] at h
  | succ n ih =>
    intro s s1 ptr len hI h
    simp only [pat_loop] at h
    split at h
    · split at h
      · simp at h
      · rename_i s2 hr
        refine ih s2 s1 _ _ ?_ h
        split at hr
        · unfold dvb_table_add_transport at hr
          dsimp only at hr
          split at hr
          · exact tdt_add_inv (s := log s _) hI (show fresh_block _ none from trivial) hr
          · exact tdt_add_inv (s := log (log s _) _) hI (show fresh_block _ none from trivial) hr
        · simp only [Option.some.injEq] at hr
          subst hr
          exact hI
    · simp only [Option.some.injEq] at h
      subst h
      exact hI

theorem cat_loop_inv (env : Env) : ∀ (fuel : Nat) (s s1 : State) (ptr : List Nat) (len : Int),
    Inv s → cat_loop env fuel s ptr len = some s1 → Inv s1 := by
  intro fuel
  induction fuel with
  | zero => intro s s1 ptr len _ h; simp [cat_loop] at h
  | succ n ih =>
    intro s s1 ptr len hI h
    simp only [cat_loop] at h
    split at h
    · split at h
      · simp at h
      · rename_i s2 hr
        refine ih s2 s1 _ _ ?_ h
        split at hr
        · split at hr
          · simp only [Option.some.injEq] at hr
            subst hr
            exact hI
          · simp only [calloc] at hr
            refine tdt_add_inv (s := { s with heap_next := s.heap_next + 1 }) ?_ ?_ hr
            · exact ⟨hI.addr_nodup, fun t ht => Nat.lt_succ_of_lt (hI.addr_lt t ht),
                hI.queue_nodup, hI.queue_sub, hI.pending_iff, hI.pid_nodup⟩
            · exact ⟨Nat.lt_succ_self _, fun u hu => hI.addr_lt u hu⟩
        · simp only [Option.some.injEq] at hr
          subst hr
          exact hI
    · simp only [Option.some.injEq] at h
      subst h
      exact hI

theorem run_callback_inv {env : Env} {s s1 : State} {cb : Callback} {ptr : List Nat} {len : Int}
    {tableid : Nat} {ret : Int} (hI : Inv s)
    (h : run_callback env s cb ptr len tableid = some (s1, ret)) : Inv s1 := by
  cases cb <;> simp only [run_callback, Option.some.injEq, Prod.mk.injEq] at h
  case dvb_pat_callback =>
    unfold dvb_pat_callback at h
    split at h
    · simp only [Option.some.injEq, Prod.mk.injEq] at h; rw [← h.1]; exact hI
    · split at h
      · simp only [Option.some.injEq, Prod.mk.injEq] at h; rw [← h.1]; exact hI
      · simp only at h
        split at h
        · simp at h
        · rename_i s2 hl
          simp only [Option.some.injEq, Prod.mk.injEq] at h
          rw [← h.1]
          refine pat_loop_inv env _ _ _ _ _ ?_ hl
          split
          · exact hI
          · exact hI
  case dvb_cat_callback =>
    unfold dvb_cat_callback at h
    split at h
    · simp only [Option.some.injEq, Prod.mk.injEq] at h; rw [← h.1]; exact hI
    · split at h
      · simp at h
      · rename_i s2 hl
        simp only [Option.some.injEq, Prod.mk.injEq] at h
        rw [← h.1]
        exact cat_loop_inv env _ _ _ _ _ hI hl
  all_goals (rw [← h.1]; exact hI)

theorem dvb_table_fastswitch_inv {s : State} (hI : Inv s) : Inv (dvb_table_fastswitch s) := by
  unfold dvb_table_fastswitch
  simp only
  split
  · exact hI
  · split
    · exact hI
    · exact hI

theorem dvb_proc_table_inv {env : Env} {s s1 : State} {a : Nat} {sec : List Nat} {r : Int}
    (hI : Inv s) (h : dvb_proc_table env s a sec r = some s1) : Inv s1 := by
  unfold dvb_proc_table at h
  cases hf : find_tdt s a with
  | none => simp [hf] at h
  | some t =>
    simp only [hf] at h
    split at h
    · simp only [Option.some.injEq] at h; subst h; exact hI
    · split at h
      · simp only [Option.some.injEq] at h; subst h; exact hI
      · split at h
        · simp at h
        · rename_i s2 ret hr
          have hI2 : Inv s2 := run_callback_inv (s := log s _) hI hr
          have hI3 : Inv (if ret = 0 then
              upd_tdt s2 a (fun u => { u with tdt_count := u.tdt_count + 1 }) else s2) := by
            split
            · exact InvCore.upd_same hI2 a _ (fun _ => rfl) (fun _ => rfl) (fun _ => rfl)
            · exact hI2
          simp only [Option.some.injEq] at h
          subst h
          split
          · exact dvb_table_fastswitch_inv hI3
          · exact hI3

theorem rotate_pending_inv {s s1 : State} {a : Nat} (hI : Inv s)
    (h : rotate_pending s a = some s1) : Inv s1 := by
  unfold rotate_pending at h
  split at h
  · split at h
    · simp at h
    · rename_i s2 hc
      have hI2 := tdt_close_fd_inv hI hc
      split at h
      · simp at h
      · exact tdt_open_fd_inv hI2 h
  · simp only [Option.some.injEq] at h; subst h; exact hI

theorem dvb_table_input_inv {env : Env} {s s1 : State} {events u64 : Nat} {r : Int}
    {sec : List Nat} {t : Int} (hI : Inv s)
    (h : dvb_table_input env s events u64 r sec t = some s1) : Inv s1 := by
  unfold dvb_table_input at h
  simp only at h
  split at h
  · simp only [Option.some.injEq] at h; subst h; exact hI
  · split at h
    · simp only [Option.some.injEq] at h; subst h; exact hI
    · split at h
      · simp only [Option.some.injEq] at h; subst h; exact hI
      · split at h
        · split at h
          · simp only [Option.some.injEq] at h; subst h; exact hI
          · split at h
            · simp at h
            · rename_i s2 hp
              exact rotate_pending_inv (dvb_proc_table_inv hI hp) h
        · simp only [Option.some.injEq] at h; subst h; exact hI

theorem step_inv {env : Env} {s s1 : State} {op : Op} (hI : Inv s)
    (h : step env s op = some s1) : Inv s1 := by
  cases op <;> simp only [step] at h
  case tdt_add => exact tdt_add_inv hI (show fresh_block _ none from trivial) h
  case tdt_add_block =>
    simp only [calloc] at h
    refine tdt_add_inv (s := { s with heap_next := s.heap_next + 1 }) ?_ ?_ h
    · exact ⟨hI.addr_nodup, fun t ht => Nat.lt_succ_of_lt (hI.addr_lt t ht),
        hI.queue_nodup, hI.queue_sub, hI.pending_iff, hI.pid_nodup⟩
    · exact ⟨Nat.lt_succ_self _, fun u hu => hI.addr_lt u hu⟩
  case tdt_open_fd => exact tdt_open_fd_inv hI h
  case tdt_close_fd => exact tdt_close_fd_inv hI h
  case rotate => exact rotate_pending_inv hI h
  case dvb_tdt_destroy => exact dvb_tdt_destroy_inv hI h
  case input => exact dvb_table_input_inv hI h

theorem run_inv (env : Env) : ∀ (ops : List Op) (s s1 : State),
    Inv s → run env s ops = some s1 → Inv s1 := by
  intro ops
  induction ops with
  | nil => intro s s1 hI h; simp only [run, Option.some.injEq] at h; subst h; exact hI
  | cons op ops ih =>
    intro s s1 hI h
    simp only [run] at h
    split at h
    · simp at h
    · rename_i s2 hs
      exact ih s2 s1 (step_inv hI hs) h

theorem empty_stream_inv {s : State} (h : empty_stream s) : Inv s := by
  obtain ⟨h1, h2⟩ := h
  unfold Inv
  rw [h1, h2]
  exact ⟨List.nodup_nil, by simp, List.nodup_nil, by simp, by simp, List.nodup_nil⟩

theorem reachable_inv {env : Env} {s : State} (h : Reachable env s) : Inv s := by
  obtain ⟨s0, ops, h0, hr⟩ := h
  exact run_inv env ops s0 s (empty_stream_inv h0) hr

/-! ## Completion and trace of the calls -/

theorem trace_ext_refl (s : State) : trace_ext s s := ⟨[], by simp⟩

theorem trace_ext_trans {s s1 s2 : State} (h1 : trace_ext s s1) (h2 : trace_ext s1 s2) :
    trace_ext s s2 := by
  obtain ⟨l1, h1⟩ := h1
  obtain ⟨l2, h2⟩ := h2
  exact ⟨l1 ++ l2, by rw [h2, h1, List.append_assoc]⟩

theorem trace_ext_log (s : State) (e : Event) : trace_ext s (log s e) := ⟨[e], rfl⟩

theorem tdt_open_fd_total {s : State} {a : Nat} {t : th_dvb_table} (hf : find_tdt s a = some t)
    (hfd : t.tdt_fd = -1) : ∃ s1, tdt_open_fd s a = some s1 := by
  unfold tdt_open_fd
  simp only [hf, hfd, ne_eq, not_true_eq_false, if_false]
  split
  · split
    · exact ⟨_, rfl⟩
    · split
      · exact ⟨_, rfl⟩
      · exact ⟨_, rfl⟩
  · exact ⟨_, rfl⟩

theorem tdt_open_fd_total_ex (s : State) (a : Nat)
    (h : ∃ t, find_tdt s a = some t ∧ t.tdt_fd = -1) : ∃ s1, tdt_open_fd s a = some s1 := by
  obtain ⟨t, hf, hfd⟩ := h
  exact tdt_open_fd_total hf hfd

theorem tdt_open_fd_trace {s s1 : State} {a : Nat} (h : tdt_open_fd s a = some s1) :
    trace_ext s s1 := by
  unfold tdt_open_fd at h
  cases hf : find_tdt s a with
  | none => simp [hf] at h
  | some t =>
    simp only [hf] at h
    split at h
    · simp at h
    · split at h
      · split at h
        · simp only [Option.some.injEq] at h
          subst h
          exact ⟨[Event.tdt_open_fd a, Event.close (open_fd_value (s.dev.headD dev_fail))],
            by simp [log, upd_tdt]⟩
        · split at h
          · simp only [Option.some.injEq] at h
            subst h
            exact ⟨[Event.tdt_open_fd a, Event.close (open_fd_value (s.dev.headD dev_fail))],
            by simp [log, upd_tdt]⟩
          · simp only [Option.some.injEq] at h
            subst h
            exact ⟨[Event.tdt_open_fd a], by simp [log, upd_tdt]⟩
      · simp only [Option.some.injEq] at h
        subst h
        exact ⟨[Event.tdt_open_fd a], by simp [log, upd_tdt]⟩

theorem tdt_add_total (env : Env) (s : State) (fp : Option dmx_sct_filter_params)
    (cb : Callback) (opq : Opaque) (name : String) (flags : Nat) (pid : Int) (tdt : Option Nat) :
    ∃ s1, tdt_add env s fp cb opq name flags pid tdt = some s1 := by
  unfold tdt_add
  simp only
  split
  · exact ⟨_, rfl⟩
  · cases tdt with
    | none =>
      apply tdt_open_fd_total_ex
      simp [find_tdt, calloc, log]
    | some a =>
      apply tdt_open_fd_total_ex
      simp [find_tdt, log]

theorem tdt_add_trace {env : Env} {s s1 : State} {fp : Option dmx_sct_filter_params}
    {cb : Callback} {opq : Opaque} {name : String} {flags : Nat} {pid : Int} {tdt : Option Nat}
    (h : tdt_add env s fp cb opq name flags pid tdt = some s1) : trace_ext s s1 := by
  unfold tdt_add at h
  simp only at h
  split at h
  · simp only [Option.some.injEq] at h
    subst h
    exact trace_ext_log _ _
  · cases tdt with
    | none =>
      have := tdt_open_fd_trace h
      exact trace_ext_trans (trace_ext_log s (Event.tdt_add pid flags cb opq)) this
    | some a =>
      have := tdt_open_fd_trace h
      exact trace_ext_trans (trace_ext_log s (Event.tdt_add pid flags cb opq)) this

theorem dvb_table_add_transport_total (env : Env) (s : State) (t : Option Nat) (pmt_pid : Int) :
    ∃ s1, dvb_table_add_transport env s t pmt_pid = some s1 ∧ trace_ext s s1 := by
  unfold dvb_table_add_transport
  cases t with
  | some t =>
    obtain ⟨s1, h⟩ := tdt_add_total env (log s (Event.add_transport (some t) pmt_pid))
      (some { dvb_fparams_alloc with filter0 := 0x02, mask0 := 0xff }) Callback.dvb_pmt_callback
      (Opaque.transport t)
      ("PMT(" ++ toString pmt_pid ++ "), service:" ++ toString (env.tht_dvb_service_id t))
      (TDT_CRC ||| TDT_QUICKREQ) pmt_pid none
    exact ⟨s1, h, trace_ext_trans (trace_ext_log s _) (tdt_add_trace h)⟩
  | none =>
    obtain ⟨s1, h⟩ := tdt_add_total env
      (log (log s (Event.add_transport none pmt_pid)) Event.null_deref)
      (some { dvb_fparams_alloc with filter0 := 0x02, mask0 := 0xff }) Callback.dvb_pmt_callback
      Opaque.null
      ("PMT(" ++ toString pmt_pid ++ "), service:" ++ toString env.null_read)
      (TDT_CRC ||| TDT_QUICKREQ) pmt_pid none
    exact ⟨s1, h, trace_ext_trans (trace_ext_log s _)
      (trace_ext_trans (trace_ext_log _ _) (tdt_add_trace h))⟩

theorem pat_loop_total (env : Env) : ∀ (fuel : Nat) (s : State) (ptr : List Nat) (len : Int),
    len.toNat < fuel → ∃ s1, pat_loop env fuel s ptr len = some s1 ∧ trace_ext s s1 := by
  intro fuel
  induction fuel with
  | zero => intro s ptr len h; omega
  | succ n ih =>
    intro s ptr len h
    simp only [pat_loop]
    split
    · rename_i hl
      have hr : ∃ s2, (if ((byte ptr 0 <<< 8) ||| byte ptr 1) % 65536 ≠ 0 then
            dvb_table_add_transport env s
              (env.dvb_transport_find (((byte ptr 0 <<< 8) ||| byte ptr 1) % 65536)
                ((((byte ptr 2 &&& 0x1f) <<< 8) ||| byte ptr 3) % 65536))
              (((((byte ptr 2 &&& 0x1f) <<< 8) ||| byte ptr 3) % 65536 : Nat) : Int)
          else some s) = some s2 ∧ trace_ext s s2 := by
        split
        · exact dvb_table_add_transport_total env s _ _
        · exact ⟨s, rfl, trace_ext_refl s⟩
      obtain ⟨s2, hr2, ht2⟩ := hr
      rw [hr2]
      obtain ⟨s1, h1, ht1⟩ := ih s2 (ptr.drop 4) (len - 4) (by omega)
      exact ⟨s1, h1, trace_ext_trans ht2 ht1⟩
    · exact ⟨s, rfl, trace_ext_refl s⟩

theorem cat_loop_total (env : Env) : ∀ (fuel : Nat) (s : State) (ptr : List Nat) (len : Int),
    len.toNat < fuel → ∃ s1, cat_loop env fuel s ptr len = some s1 ∧ trace_ext s s1 := by
  intro fuel
  induction fuel with
  | zero => intro s ptr len h; omega
  | succ n ih =>
    intro s ptr len h
    simp only [cat_loop]
    split
    · rename_i hl
      have hr : ∃ s2, (if byte ptr 0 = env.DVB_DESC_CA then
            if ((byte (ptr.drop 2) 2 &&& (0x1f <<< 8)) ||| byte (ptr.drop 2) 3) % 65536 = 0 then some s
            else
              tdt_add env (calloc s).2 none Callback.dvb_ca_callback
                (Opaque.ca_stream (calloc s).1
                  (((byte (ptr.drop 2) 0 <<< 8) ||| byte (ptr.drop 2) 1) % 65536)) "CA"
                TDT_INC_TABLE_HDR
                ((((byte (ptr.drop 2) 2 &&& (0x1f <<< 8)) ||| byte (ptr.drop 2) 3) % 65536 : Nat) : Int)
                (some (calloc s).1)
          else some s) = some s2 ∧ trace_ext s s2 := by
        split
        · split
          · exact ⟨s, rfl, trace_ext_refl s⟩
          · obtain ⟨s2, h2⟩ := tdt_add_total env (calloc s).2 none Callback.dvb_ca_callback
              (Opaque.ca_stream (calloc s).1
                (((byte (ptr.drop 2) 0 <<< 8) ||| byte (ptr.drop 2) 1) % 65536)) "CA"
              TDT_INC_TABLE_HDR
              ((((byte (ptr.drop 2) 2 &&& (0x1f <<< 8)) ||| byte (ptr.drop 2) 3) % 65536 : Nat) : Int)
              (some (calloc s).1)
            refine ⟨s2, h2, ?_⟩
            obtain ⟨l, hl⟩ := tdt_add_trace h2
            exact ⟨l, hl⟩
        · exact ⟨s, rfl, trace_ext_refl s⟩
      obtain ⟨s2, hr2, ht2⟩ := hr
      rw [hr2]
      obtain ⟨s1, h1, ht1⟩ := ih s2 ((ptr.drop 2).drop (byte ptr 1)) (len - 2 - (byte ptr 1 : Int))
        (by omega)
      exact ⟨s1, h1, trace_ext_trans ht2 ht1⟩
    · exact ⟨s, rfl, trace_ext_refl s⟩

theorem run_callback_total (env : Env) (s : State) (cb : Callback) (ptr : List Nat) (len : Int)
    (tableid : Nat) :
    ∃ s1 ret, run_callback env s cb ptr len tableid = some (s1, ret) ∧ trace_ext s s1 := by
  cases cb <;> simp only [run_callback]
  case dvb_pat_callback =>
    unfold dvb_pat_callback
    split
    · exact ⟨s, -1, rfl, trace_ext_refl s⟩
    · split
      · exact ⟨s, -1, rfl, trace_ext_refl s⟩
      · simp only
        obtain ⟨s1, h1, ht1⟩ := pat_loop_total env (len.toNat + 1)
          (if s.tdmi_transport_stream_id ≠ ((byte ptr 0 <<< 8) ||| byte ptr 1) % 65536 then
            dvb_mux_set_tsid s (((byte ptr 0 <<< 8) ||| byte ptr 1) % 65536) else s)
          (ptr.drop 5) (len - 5) (by omega)
        rw [h1]
        refine ⟨s1, 0, rfl, trace_ext_trans ?_ ht1⟩
        split
        · exact ⟨[Event.mux_set_tsid _], rfl⟩
        · exact trace_ext_refl s
  case dvb_cat_callback =>
    unfold dvb_cat_callback
    split
    · exact ⟨s, -1, rfl, trace_ext_refl s⟩
    · obtain ⟨s1, h1, ht1⟩ := cat_loop_total env (len.toNat + 1) s (ptr.drop 5) (len - 5) (by omega)
      rw [h1]
      exact ⟨s1, 0, rfl, ht1⟩
  all_goals exact ⟨s, _, rfl, trace_ext_refl s⟩

theorem s_pat_cat_reachable (rest : List DevResult) : Reachable env0 (s_pat_cat rest) :=
  ⟨s_empty ([dev_ok 5, dev_fail] ++ rest), add_pat_cat, ⟨rfl, rfl⟩, rfl⟩

theorem dvb_table_fastswitch_trace (s : State) : trace_ext s (dvb_table_fastswitch s) := by
  unfold dvb_table_fastswitch
  simp only
  split
  · exact trace_ext_log s _
  · split
    · exact trace_ext_log s _
    · exact ⟨[Event.fastswitch, Event.mux_scanner], by simp [log]⟩

/-- A section that passes the two checks of `dvb_proc_table` reaches the decoder: the
call completes and the first record added to the trace is the decoder invocation. -/
theorem dvb_proc_table_accept (env : Env) {s : State} {a : Nat} {t : th_dvb_table}
    (sec : List Nat) (r : Int) (hf : find_tdt s a = some t)
    (hcrc : ¬ (t.tdt_flags &&& TDT_CRC ≠ 0 ∧ env.psi_crc32 sec r ≠ 0))
    (hlen : ¬ section_length sec < r - 3) :
    ∃ s1 l, dvb_proc_table env s a sec r = some s1 ∧
      s1.trace = s.trace ++
        Event.callback a t.tdt_callback
          (if t.tdt_flags &&& TDT_INC_TABLE_HDR ≠ 0 then sec else sec.drop 3)
          (if t.tdt_flags &&& TDT_INC_TABLE_HDR ≠ 0 then
            (if t.tdt_flags &&& TDT_CRC ≠ 0 then section_length sec - 4 else section_length sec) + 3
           else (if t.tdt_flags &&& TDT_CRC ≠ 0 then section_length sec - 4 else section_length sec))
          (byte sec 0) t.tdt_opaque_p :: l := by
  unfold dvb_proc_table
  simp only [hf, hcrc, hlen, if_false]
  obtain ⟨s2, ret, h2, l2, ht2⟩ := run_callback_total env
    (log s (Event.callback a t.tdt_callback
      (if t.tdt_flags &&& TDT_INC_TABLE_HDR ≠ 0 then sec else sec.drop 3)
      (if t.tdt_flags &&& TDT_INC_TABLE_HDR ≠ 0 then
        (if t.tdt_flags &&& TDT_CRC ≠ 0 then section_length sec - 4 else section_length sec) + 3
       else (if t.tdt_flags &&& TDT_CRC ≠ 0 then section_length sec - 4 else section_length sec))
      (byte sec 0) t.tdt_opaque_p))
    t.tdt_callback (if t.tdt_flags &&& TDT_INC_TABLE_HDR ≠ 0 then sec else sec.drop 3)
    (if t.tdt_flags &&& TDT_INC_TABLE_HDR ≠ 0 then
        (if t.tdt_flags &&& TDT_CRC ≠ 0 then section_length sec - 4 else section_length sec) + 3
       else (if t.tdt_flags &&& TDT_CRC ≠ 0 then section_length sec - 4 else section_length sec))
    (byte sec 0)
  rw [h2]
  simp only
  have h3 : trace_ext s2 (if ret = 0 then
      upd_tdt s2 a (fun u => { u with tdt_count := u.tdt_count + 1 }) else s2) := by
    split
    · exact ⟨[], by simp [upd_tdt]⟩
    · exact trace_ext_refl s2
  have h4 : trace_ext s2 (if t.tdt_flags &&& TDT_QUICKREQ ≠ 0 then
      dvb_table_fastswitch (if ret = 0 then
        upd_tdt s2 a (fun u => { u with tdt_count := u.tdt_count + 1 }) else s2)
      else (if ret = 0 then
        upd_tdt s2 a (fun u => { u with tdt_count := u.tdt_count + 1 }) else s2)) := by
    split
    · exact trace_ext_trans h3 (dvb_table_fastswitch_trace _)
    · exact h3
  obtain ⟨l4, ht4⟩ := h4
  refine ⟨_, l2 ++ l4, rfl, ?_⟩
  rw [ht4, ht2]
  simp [log]


theorem find_tdt_of_mem_inv {s : State} {t : th_dvb_table} (hI : Inv s)
    (h : t ∈ s.tdmi_tables) : find_tdt s t.addr = some t := by
  obtain ⟨u, hu⟩ := find_tdt_of_mem h
  obtain ⟨hum, hua⟩ := find_tdt_some hu
  have := List.inj_on_of_nodup_map hI.addr_nodup hum h hua
  rw [hu, this]

theorem open_fd_value_ne (d : DevResult) : open_fd_value d ≠ -1 ↔ d.open_ret.isSome = true := by
  unfold open_fd_value
  cases d.open_ret with
  | none => simp
  | some n => simp

/-- What `tdt_close_fd` does to a bound table. -/
theorem tdt_close_fd_spec {s : State} {a : Nat} {t : th_dvb_table} (hf : find_tdt s a = some t)
    (hfd : t.tdt_fd ≠ -1) :
    ∃ s1, tdt_close_fd s a = some s1 ∧
      s1.tdmi_tables = s.tdmi_tables.map
        (fun u => if u.addr = a then { u with tdt_fd := -1 } else u) ∧
      s1.tdmi_table_queue = s.tdmi_table_queue ++ [a] ∧ s1.dev = s.dev ∧
      s1.tdt_id_tally = s.tdt_id_tally ∧ s1.heap_next = s.heap_next := by
  unfold tdt_close_fd
  simp only [hf, hfd, if_false]
  exact ⟨_, rfl, rfl, rfl, rfl, rfl, rfl⟩

/-- What `tdt_open_fd` does to a pending table: the table gets the value `fd` in
`tdt_fd`, which is the descriptor when the device accepts the bind and -1 otherwise, in
which case the table goes to the tail of the queue. -/
theorem tdt_open_fd_spec {s : State} {a : Nat} {t : th_dvb_table} (hf : find_tdt s a = some t)
    (hfd : t.tdt_fd = -1) :
    ∃ (s1 : State) (g : th_dvb_table → th_dvb_table), tdt_open_fd s a = some s1 ∧
      s1.tdmi_tables = s.tdmi_tables.map (fun u => if u.addr = a then g u else u) ∧
      (∀ u, (g u).addr = u.addr) ∧ s1.heap_next = s.heap_next ∧
      ((bind_accepted (s.dev.headD dev_fail) ∧
          (∀ u, (g u).tdt_fd = open_fd_value (s.dev.headD dev_fail)) ∧
          open_fd_value (s.dev.headD dev_fail) ≠ -1 ∧
          s1.tdmi_table_queue = s.tdmi_table_queue.erase a) ∨
       (¬ bind_accepted (s.dev.headD dev_fail) ∧ (∀ u, (g u).tdt_fd = -1) ∧
          s1.tdmi_table_queue = s.tdmi_table_queue.erase a ++ [a])) := by
  unfold tdt_open_fd
  simp only [hf, hfd, ne_eq, not_true_eq_false, if_false]
  by_cases h1 : open_fd_value (s.dev.headD dev_fail) = -1
  · have hna : ¬ bind_accepted (s.dev.headD dev_fail) := by
      intro hacc
      exact (open_fd_value_ne _).2 hacc.1 h1
    simp only [log, h1, not_true_eq_false, if_false]
    exact ⟨_, fun u => { u with tdt_fd := -1 }, rfl, rfl, fun _ => rfl, rfl,
      Or.inr ⟨hna, fun _ => rfl, rfl⟩⟩
  · by_cases h2 : (s.dev.headD dev_fail).epoll_ctl_ret = 0
    · by_cases h3 : (s.dev.headD dev_fail).ioctl_ret = 0
      · simp only [log, h1, h2, h3, not_true_eq_false, not_false_eq_true, if_false, if_true]
        exact ⟨_, fun u => { u with
            tdt_fd := open_fd_value (s.dev.headD dev_fail), tdt_id := s.tdt_id_tally + 1 },
          rfl, rfl, fun _ => rfl, rfl,
          Or.inl ⟨⟨(open_fd_value_ne _).1 h1, h2, h3⟩, fun _ => rfl, trivial, rfl⟩⟩
      · have hna : ¬ bind_accepted (s.dev.headD dev_fail) := fun hacc => h3 hacc.2.2
        simp only [log, h1, h2, h3, not_true_eq_false, not_false_eq_true, if_false, if_true]
        exact ⟨_, fun u => { u with tdt_fd := -1, tdt_id := s.tdt_id_tally + 1 }, rfl, rfl,
          fun _ => rfl, rfl, Or.inr ⟨hna, fun _ => rfl, rfl⟩⟩
    · have hna : ¬ bind_accepted (s.dev.headD dev_fail) := fun hacc => h2 hacc.2.1
      simp only [log, h1, h2, not_true_eq_false, not_false_eq_true, if_false, if_true]
      exact ⟨_, fun u => { u with tdt_fd := -1, tdt_id := s.tdt_id_tally + 1 }, rfl, rfl,
        fun _ => rfl, rfl, Or.inr ⟨hna, fun _ => rfl, rfl⟩⟩

/-- The rotation block on a bound table `S` with pending queue `H :: Q`: `S` is released
and queued, then `H` is taken from the head and a bind is attempted for it. -/
theorem rotate_pending_spec {s : State} {S H : Nat} {Q : List Nat} {tS : th_dvb_table}
    (hI : Inv s) (hS : find_tdt s S = some tS) (hb : tS.tdt_fd ≠ -1)
    (hq : s.tdmi_table_queue = H :: Q) :
    ∃ (s1 : State) (g : th_dvb_table → th_dvb_table), rotate_pending s S = some s1 ∧
      s1.tdmi_tables = s.tdmi_tables.map
        (fun u => if u.addr = S then { u with tdt_fd := -1 } else if u.addr = H then g u else u) ∧
      (∀ u, (g u).addr = u.addr) ∧ H ≠ S ∧ (∃ tH ∈ s.tdmi_tables, tH.addr = H ∧ tH.tdt_fd = -1) ∧
      ((bind_accepted (s.dev.headD dev_fail) ∧
          (∀ u, (g u).tdt_fd = open_fd_value (s.dev.headD dev_fail)) ∧
          open_fd_value (s.dev.headD dev_fail) ≠ -1 ∧ s1.tdmi_table_queue = Q ++ [S]) ∨
       (¬ bind_accepted (s.dev.headD dev_fail) ∧ (∀ u, (g u).tdt_fd = -1) ∧
          s1.tdmi_table_queue = Q ++ [S] ++ [H])) := by
  obtain ⟨hSm, hSa⟩ := find_tdt_some hS
  have hHq : H ∈ s.tdmi_table_queue := by rw [hq]; exact List.mem_cons_self _ _
  obtain ⟨tH, hHm, hHa⟩ := hI.queue_sub H hHq
  have hHfd : tH.tdt_fd = -1 := (hI.pending_iff tH hHm).1 (hHa ▸ hHq)
  have hne : H ≠ S := by
    intro h
    apply hb
    apply (hI.pending_iff tS hSm).1
    rw [hSa, ← h]
    exact hHq
  obtain ⟨s2, hc, ht2, hq2, hd2, _, _⟩ := tdt_close_fd_spec hS hb
  have hI2 : Inv s2 := tdt_close_fd_inv hI hc
  have hHm2 : tH ∈ s2.tdmi_tables := by
    rw [ht2]
    refine List.mem_map.2 ⟨tH, hHm, ?_⟩
    have : tH.addr ≠ S := by rw [hHa]; exact hne
    simp [this]
  have hf2 : find_tdt s2 H = some tH := by
    have := find_tdt_of_mem_inv hI2 hHm2
    rwa [hHa] at this
  obtain ⟨s1, g, ho, ht1, hga, _, hcase⟩ := tdt_open_fd_spec hf2 hHfd
  have hqe : s2.tdmi_table_queue.erase H = Q ++ [S] := by
    rw [hq2, hq]
    simp
  refine ⟨s1, g, ?_, ?_, hga, hne, ⟨tH, hHm, hHa, hHfd⟩, ?_⟩
  · unfold rotate_pending
    have hne0 : s.tdmi_table_queue ≠ [] := by rw [hq]; simp
    simp only [hne0, ne_eq, not_false_eq_true, if_true, hc]
    rw [hq2, hq]
    simpa using ho
  · rw [ht1, ht2, List.map_map]
    apply List.map_congr_left
    intro u _
    simp only [Function.comp]
    by_cases h1 : u.addr = S
    · have : ¬ S = H := fun h => hne h.symm
      simp [h1, this]
    · simp [h1]
  · rw [hd2, hqe] at hcase
    exact hcase

theorem bound_count_rotate (l : List th_dvb_table) (F : th_dvb_table → th_dvb_table) (S H : Nat)
    (hSb : ∀ u ∈ l, u.addr = S → u.tdt_fd ≠ -1) (hFS : ∀ u, u.addr = S → (F u).tdt_fd = -1)
    (hFo : ∀ u, u.addr ≠ S → u.addr ≠ H → F u = u) :
    (l.map F).countP (fun t => decide (t.tdt_fd ≠ -1)) + l.countP (fun t => decide (t.addr = S))
      ≤ l.countP (fun t => decide (t.tdt_fd ≠ -1)) + l.countP (fun t => decide (t.addr = H)) := by
  induction l with
  | nil => simp
  | cons u l ih =>
    have ih2 := ih (fun v hv => hSb v (List.mem_cons_of_mem _ hv))
    simp only [List.map_cons, List.countP_cons]
    by_cases h1 : u.addr = S
    · have hb : decide (u.tdt_fd ≠ -1) = true := decide_eq_true (hSb u (List.mem_cons_self _ _) h1)
      have hf : decide ((F u).tdt_fd ≠ -1) = false := by
        rw [hFS u h1]; rfl
      have hs : decide (u.addr = S) = true := decide_eq_true h1
      rw [hb, hf, hs]
      simp only [if_true, Bool.false_eq_true, if_false]
      split <;> omega
    · have hs : decide (u.addr = S) = false := decide_eq_false h1
      rw [hs]
      by_cases h2 : u.addr = H
      · have hh : decide (u.addr = H) = true := decide_eq_true h2
        rw [hh]
        simp only [if_true, Bool.false_eq_true, if_false]
        split <;> split <;> omega
      · have hh : decide (u.addr = H) = false := decide_eq_false h2
        rw [hh, hFo u h1 h2]
        simp only [Bool.false_eq_true, if_false]
        omega

/-! ## The Program Association loop -/

theorem tdt_open_fd_frame {s s1 : State} {a : Nat} (h : tdt_open_fd s a = some s1) :
    s1.tdmi_tables.map (fun t => t.tdt_pid) = s.tdmi_tables.map (fun t => t.tdt_pid) ∧
    transport_calls s1.trace = transport_calls s.trace ∧
    s1.tdmi_transport_stream_id = s.tdmi_transport_stream_id := by
  unfold tdt_open_fd at h
  cases hf : find_tdt s a with
  | none => simp [hf] at h
  | some t =>
    simp only [hf] at h
    split at h
    · simp at h
    · split at h
      · split at h
        · simp only [Option.some.injEq] at h
          subst h
          exact ⟨map_upd_pid _ a _ (fun _ => rfl), by simp [log, upd_tdt, transport_calls], rfl⟩
        · split at h
          · simp only [Option.some.injEq] at h
            subst h
            exact ⟨map_upd_pid _ a _ (fun _ => rfl), by simp [log, upd_tdt, transport_calls], rfl⟩
          · simp only [Option.some.injEq] at h
            subst h
            exact ⟨map_upd_pid _ a _ (fun _ => rfl), by simp [log, upd_tdt, transport_calls], rfl⟩
      · simp only [Option.some.injEq] at h
        subst h
        exact ⟨map_upd_pid _ a _ (fun _ => rfl), by simp [log, upd_tdt, transport_calls], rfl⟩

theorem tdt_add_frame {env : Env} {s s1 : State} {fp : Option dmx_sct_filter_params}
    {cb : Callback} {opq : Opaque} {name : String} {flags : Nat} {pid : Int} {tdt : Option Nat}
    (h : tdt_add env s fp cb opq name flags pid tdt = some s1) :
    s1.tdmi_tables.map (fun t => t.tdt_pid)
      = (if pid ∈ s.tdmi_tables.map (fun t => t.tdt_pid) then s.tdmi_tables.map (fun t => t.tdt_pid)
         else pid :: s.tdmi_tables.map (fun t => t.tdt_pid)) ∧
    transport_calls s1.trace = transport_calls s.trace ∧
    s1.tdmi_transport_stream_id = s.tdmi_transport_stream_id := by
  unfold tdt_add at h
  simp only at h
  split at h
  · rename_i hany
    simp only [Option.some.injEq] at h
    subst h
    have hm : pid ∈ s.tdmi_tables.map (fun t => t.tdt_pid) := by
      simp only [log, List.any_eq_true, decide_eq_true_eq] at hany
      obtain ⟨t, ht, hp⟩ := hany
      exact List.mem_map.2 ⟨t, ht, hp.symm⟩
    simp only [hm, if_true]
    exact ⟨rfl, by simp [log, transport_calls], rfl⟩
  · rename_i hany
    have hm : pid ∉ s.tdmi_tables.map (fun t => t.tdt_pid) := by
      intro hm
      apply hany
      obtain ⟨t, ht, hp⟩ := List.mem_map.1 hm
      simp only [log, List.any_eq_true, decide_eq_true_eq]
      exact ⟨t, ht, hp.symm⟩
    simp only [hm, if_false]
    cases tdt with
    | none =>
      obtain ⟨h1, h2, h3⟩ := tdt_open_fd_frame h
      exact ⟨by rw [h1]; rfl, by rw [h2]; simp [log, calloc, transport_calls], by rw [h3]; rfl⟩
    | some a =>
      obtain ⟨h1, h2, h3⟩ := tdt_open_fd_frame h
      exact ⟨by rw [h1]; rfl, by rw [h2]; simp [log, transport_calls], by rw [h3]; rfl⟩

theorem byte_lt (p : List Nat) (i : Nat) : byte p i < 256 := Nat.mod_lt _ (by decide)

theorem byte_drop (p : List Nat) (n i : Nat) : byte (p.drop n) i = byte p (n + i) := by
  unfold byte
  simp [List.getD_eq_getElem?_getD, List.getElem?_drop]

theorem be16_lt (a b : Nat) (ha : a < 256) (hb : b < 256) : (a <<< 8) ||| b < 65536 := by
  have h1 : a <<< 8 < 2 ^ 16 := by
    rw [Nat.shiftLeft_eq]
    omega
  have h2 : b < 2 ^ 16 := by omega
  exact Nat.or_lt_two_pow h1 h2

theorem pmt_pid_lt (a b : Nat) (hb : b < 256) : ((a &&& 0x1f) <<< 8) ||| b < 65536 := by
  have h0 : a &&& 0x1f ≤ 0x1f := Nat.and_le_right
  have h1 : (a &&& 0x1f) <<< 8 < 2 ^ 16 := by
    rw [Nat.shiftLeft_eq]
    omega
  have h2 : b < 2 ^ 16 := by omega
  exact Nat.or_lt_two_pow h1 h2
theorem pat_registrations_step (ptr : List Nat) (off : Nat) (len : Int) (h : 4 ≤ len) :
    pat_registrations ptr off len
      = (if (pat_entry ptr off).1 ≠ 0 then [pat_entry ptr off] else [])
        ++ pat_registrations ptr (off + 4) (len - 4) := by
  unfold pat_registrations
  have hn : (len / 4).toNat = ((len - 4) / 4).toNat + 1 := by omega
  rw [hn, List.range'_succ, List.map_cons, List.filter_cons]
  split <;> simp_all

theorem pat_registrations_done (ptr : List Nat) (off : Nat) (len : Int) (h : ¬ 4 ≤ len) :
    pat_registrations ptr off len = [] := by
  unfold pat_registrations
  have hn : (len / 4).toNat = 0 := by omega
  rw [hn]
  rfl

theorem pat_service_eq (ptr : List Nat) (off : Nat) :
    ((byte (ptr.drop off) 0 <<< 8) ||| byte (ptr.drop off) 1) % 65536 = (pat_entry ptr off).1 := by
  rw [byte_drop, byte_drop]
  exact Nat.mod_eq_of_lt (be16_lt _ _ (byte_lt _ _) (byte_lt _ _))

theorem pat_pmt_eq (ptr : List Nat) (off : Nat) :
    (((byte (ptr.drop off) 2 &&& 0x1f) <<< 8) ||| byte (ptr.drop off) 3) % 65536
      = (pat_entry ptr off).2 := by
  rw [byte_drop, byte_drop]
  exact Nat.mod_eq_of_lt (pmt_pid_lt _ _ (byte_lt _ _))

theorem dvb_table_add_transport_frame {env : Env} {s s1 : State} {t : Option Nat} {pmt_pid : Int}
    (h : dvb_table_add_transport env s t pmt_pid = some s1) :
    s1.tdmi_tables.map (fun t => t.tdt_pid)
      = (if pmt_pid ∈ s.tdmi_tables.map (fun t => t.tdt_pid)
         then s.tdmi_tables.map (fun t => t.tdt_pid)
         else pmt_pid :: s.tdmi_tables.map (fun t => t.tdt_pid)) ∧
    transport_calls s1.trace = transport_calls s.trace ++ [(t, pmt_pid)] ∧
    s1.tdmi_transport_stream_id = s.tdmi_transport_stream_id := by
  unfold dvb_table_add_transport at h
  cases t with
  | some t =>
    obtain ⟨h1, h2, h3⟩ := tdt_add_frame h
    refine ⟨h1, ?_, h3⟩
    rw [h2]
    simp [log, transport_calls]
  | none =>
    obtain ⟨h1, h2, h3⟩ := tdt_add_frame h
    refine ⟨h1, ?_, h3⟩
    rw [h2]
    simp [log, transport_calls]

/-- The loop of `dvb_pat_callback` started at offset `off` with `len` bytes left: it
completes, calls `dvb_table_add_transport` once per entry to register, in order, and the
subscribed pids become the previous ones together with the PMT pids of those entries. -/
theorem pat_loop_spec (env : Env) (ptr : List Nat) : ∀ (fuel : Nat) (s : State) (off : Nat)
    (len : Int), len.toNat < fuel →
    ∃ s1, pat_loop env fuel s (ptr.drop off) len = some s1 ∧
      transport_calls s1.trace = transport_calls s.trace ++
        (pat_registrations ptr off len).map (fun e => (env.dvb_transport_find e.1 e.2, (e.2 : Int))) ∧
      (∀ p, p ∈ s1.tdmi_tables.map (fun t => t.tdt_pid) ↔
        p ∈ s.tdmi_tables.map (fun t => t.tdt_pid) ∨
        p ∈ (pat_registrations ptr off len).map (fun e => (e.2 : Int))) ∧
      ((s.tdmi_tables.map (fun t => t.tdt_pid)).Nodup →
        (s1.tdmi_tables.map (fun t => t.tdt_pid)).Nodup) ∧
      s1.tdmi_transport_stream_id = s.tdmi_transport_stream_id := by
  intro fuel
  induction fuel with
  | zero => intro s off len h; omega
  | succ n ih =>
    intro s off len h
    simp only [pat_loop]
    by_cases hl : len ≥ 4
    · simp only [hl, if_true]
      rw [pat_service_eq, pat_pmt_eq, List.drop_drop, pat_registrations_step ptr off len hl]
      by_cases hs : (pat_entry ptr off).1 = 0
      · simp only [hs, ne_eq, not_true_eq_false, if_false, List.nil_append]
        have := ih s (4 + off) (len - 4) (by omega)
        rw [Nat.add_comm off 4]
        exact this
      · simp only [hs, ne_eq, not_false_eq_true, if_true]
        obtain ⟨s2, h2, _⟩ := dvb_table_add_transport_total env s
          (env.dvb_transport_find (pat_entry ptr off).1 (pat_entry ptr off).2)
          ((pat_entry ptr off).2 : Int)
        obtain ⟨hp2, hc2, ht2⟩ := dvb_table_add_transport_frame h2
        rw [h2]
        simp only
        obtain ⟨s1, h1, hc1, hp1, hn1, ht1⟩ := ih s2 (4 + off) (len - 4) (by omega)
        rw [Nat.add_comm off 4]
        refine ⟨s1, h1, ?_, ?_, ?_, ?_⟩
        · rw [hc1, hc2]
          simp
        · intro p
          rw [hp1 p, hp2]
          split
          · rename_i hm
            simp only [List.singleton_append, List.map_cons, List.mem_cons]
            constructor
            · rintro (h | h)
              · exact Or.inl h
              · exact Or.inr (Or.inr h)
            · rintro (h | h | h)
              · exact Or.inl h
              · exact Or.inl (h ▸ hm)
              · exact Or.inr h
          · simp only [List.singleton_append, List.map_cons, List.mem_cons]
            constructor
            · rintro ((h | h) | h)
              · exact Or.inr (Or.inl h)
              · exact Or.inl h
              · exact Or.inr (Or.inr h)
            · rintro (h | h | h)
              · exact Or.inl (Or.inr h)
              · exact Or.inl (Or.inl h)
              · exact Or.inr h
        · intro hnd
          apply hn1
          rw [hp2]
          split
          · exact hnd
          · rename_i hm
            exact List.nodup_cons.2 ⟨hm, hnd⟩
        · rw [ht1, ht2]
    · simp only [hl, if_false]
      rw [pat_registrations_done ptr off len (by omega)]
      exact ⟨s, rfl, by simp, by simp, fun h => h, rfl⟩

/-! ## The claims -/

/-- C1 (evaluation at the failing input): on the bound CA subscription of `s_ca` (no CRC
requirement) the three-byte section 0x50 0xf0 0x05 declares 5 bytes while none is available
after the header, yet `dvb_proc_table` does not discard it: the decoder is invoked, with
length 5 + 3, and the received-section counter goes from 0 to 1. -/
theorem C1_overlong_section_reaches_decoder :
    section_length [0x50, 0xf0, 0x05] = 5 ∧ (5 : Int) > 3 - 3 ∧
    (dvb_proc_table env0 s_ca 100 [0x50, 0xf0, 0x05] 3).map
        (fun s => (s.trace.drop s_ca.trace.length, s.tdmi_tables.map (fun t => t.tdt_count)))
      = some ([Event.callback 100 Callback.dvb_ca_callback [0x50, 0xf0, 0x05] 8 0x50
                (Opaque.ca_stream 100 2816)], [1]) := by
  refine ⟨by decide, by decide, ?_⟩
  rfl

/-- C2: for a subscription that requires CRC and a section of `r >= 3` bytes whose
declared length is `r - 3`, `dvb_proc_table` completes, and the decoder is invoked if and
only if `psi_crc32` over the `r` bytes is zero; when it is not zero the state is left as
it was (no decoder call, counter unchanged, no fast-completion check). -/
theorem C2_crc_gate (env : Env) (s : State) (tdt : Nat) (t : th_dvb_table) (sec : List Nat)
    (r : Int) (hf : find_tdt s tdt = some t) (hcrc : t.tdt_flags &&& TDT_CRC ≠ 0)
    (_hr : 3 ≤ r) (hlen : section_length sec = r - 3) :
    ∃ s1, dvb_proc_table env s tdt sec r = some s1 ∧
      (decoder_invoked s s1 ↔ env.psi_crc32 sec r = 0) ∧
      (env.psi_crc32 sec r ≠ 0 → s1 = s) := by
  by_cases hc : env.psi_crc32 sec r = 0
  · obtain ⟨s1, l, h1, ht⟩ := dvb_proc_table_accept env sec r hf
      (by simp [hc]) (by rw [hlen]; exact lt_irrefl _)
    refine ⟨s1, h1, ⟨fun _ => hc, fun _ => ?_⟩, fun h => absurd hc h⟩
    unfold decoder_invoked
    rw [ht, List.drop_left]
    exact ⟨_, _, _, _, _, _, List.mem_cons_self _ _⟩
  · refine ⟨s, ?_, ⟨fun h => ?_, fun h => absurd h hc⟩, fun _ => rfl⟩
    · unfold dvb_proc_table
      simp [hf, hcrc, hc]
    · obtain ⟨a, cb, p, l, tid, o, hm⟩ := h
      simp at hm

/-- C2 at the bound PAT subscription of `s_pat_cat []` and the 20-byte `pat_section`. -/
theorem C2_crc_gate_witness :
    ∃ s1, dvb_proc_table env0 (s_pat_cat []) 100 pat_section 20 = some s1 ∧
      (decoder_invoked (s_pat_cat []) s1 ↔ env0.psi_crc32 pat_section 20 = 0) ∧
      (env0.psi_crc32 pat_section 20 ≠ 0 → s1 = s_pat_cat []) :=
  C2_crc_gate env0 (s_pat_cat []) 100
    { addr := 100, tdt_flags := 3, tdt_fd := 5, tdt_name := "pat",
      tdt_opaque_p := Opaque.null, tdt_callback := Callback.dvb_pat_callback,
      tdt_count := 0, tdt_pid := 0,
      tdt_fparams := { pid := 0, filter0 := 0, mask0 := 255, flags := 5 }, tdt_id := 1 }
    pat_section 20 rfl (by decide) (by decide) (by decide)

/-- C3: when some subscription of the stream already targets `pid`, `tdt_add` completes
and changes nothing but the ghost trace, which gains the record of the call itself:
the subscription set (members, order, every field), the pending queue, the id tally,
the heap and the device script are as before, and no `tdt_open_fd` takes place. -/
theorem C3_duplicate_pid_noop (env : Env) (s : State) (fparams : Option dmx_sct_filter_params)
    (callback : Callback) (opq : Opaque) (name : String) (flags : Nat) (pid : Int)
    (tdt : Option Nat) (hdup : ∃ t ∈ s.tdmi_tables, t.tdt_pid = pid) :
    ∃ s1, tdt_add env s fparams callback opq name flags pid tdt = some s1 ∧
      s1.tdmi_tables = s.tdmi_tables ∧ s1.tdmi_table_queue = s.tdmi_table_queue ∧
      s1.tdt_id_tally = s.tdt_id_tally ∧ s1.dev = s.dev ∧ s1.heap_next = s.heap_next ∧
      s1.trace = s.trace ++ [Event.tdt_add pid flags callback opq] ∧
      s1 = { s with trace := s.trace ++ [Event.tdt_add pid flags callback opq] } := by
  obtain ⟨t, ht, hp⟩ := hdup
  have hany : (log s (Event.tdt_add pid flags callback opq)).tdmi_tables.any
      (fun t => decide (pid = t.tdt_pid)) = true := by
    simp only [log, List.any_eq_true, decide_eq_true_eq]
    exact ⟨t, ht, hp.symm⟩
  refine ⟨log s (Event.tdt_add pid flags callback opq), ?_, rfl, rfl, rfl, rfl, rfl, rfl, rfl⟩
  unfold tdt_add
  simp only [hany, if_true]

/-- C3 at `s_pat_cat [dev_ok 6]` and pid 1, which the CAT subscription already targets. -/
theorem C3_duplicate_pid_noop_witness :
    ∃ s1, tdt_add env0 (s_pat_cat [dev_ok 6]) (some (fp_tableid 2)) Callback.dvb_pmt_callback
        (Opaque.transport 1) "PMT(1), service:1" (TDT_CRC ||| TDT_QUICKREQ) 1 none = some s1 ∧
      s1.tdmi_tables = (s_pat_cat [dev_ok 6]).tdmi_tables ∧
      s1.tdmi_table_queue = (s_pat_cat [dev_ok 6]).tdmi_table_queue ∧
      s1.tdt_id_tally = (s_pat_cat [dev_ok 6]).tdt_id_tally ∧
      s1.dev = (s_pat_cat [dev_ok 6]).dev ∧ s1.heap_next = (s_pat_cat [dev_ok 6]).heap_next ∧
      s1.trace = (s_pat_cat [dev_ok 6]).trace ++
        [Event.tdt_add 1 (TDT_CRC ||| TDT_QUICKREQ) Callback.dvb_pmt_callback (Opaque.transport 1)] ∧
      s1 = { s_pat_cat [dev_ok 6] with trace := (s_pat_cat [dev_ok 6]).trace ++
        [Event.tdt_add 1 (TDT_CRC ||| TDT_QUICKREQ) Callback.dvb_pmt_callback (Opaque.transport 1)] } :=
  C3_duplicate_pid_noop env0 (s_pat_cat [dev_ok 6]) (some (fp_tableid 2)) Callback.dvb_pmt_callback
    (Opaque.transport 1) "PMT(1), service:1" (TDT_CRC ||| TDT_QUICKREQ) 1 none
    ⟨_, List.mem_cons_self _ _, rfl⟩

/-- C4: in every state reached from an empty stream by `tdt_add` (with or without a
caller-supplied block), `tdt_open_fd`, `tdt_close_fd`, rotation steps, `dvb_tdt_destroy`
and dispatch steps, whatever the device answers, a subscription of the set is in the
pending queue exactly when its `tdt_fd` is -1, no subscription is queued twice, and every
queued address is that of a member of the set. -/
theorem C4_bound_pending_exclusive (env : Env) (s : State) (h : Reachable env s) :
    (∀ t ∈ s.tdmi_tables, (t.addr ∈ s.tdmi_table_queue ↔ t.tdt_fd = -1)) ∧
    s.tdmi_table_queue.Nodup ∧
    (∀ a ∈ s.tdmi_table_queue, ∃ t ∈ s.tdmi_tables, t.addr = a) ∧
    (s.tdmi_tables.map (fun t => t.addr)).Nodup := by
  have hI := reachable_inv h
  exact ⟨hI.pending_iff, hI.queue_nodup, hI.queue_sub, hI.addr_nodup⟩

/-- C4 at the state `s_run`, reached by the run `ops_run`. -/
theorem C4_bound_pending_exclusive_witness :
    (∀ t ∈ s_run.tdmi_tables, (t.addr ∈ s_run.tdmi_table_queue ↔ t.tdt_fd = -1)) ∧
    s_run.tdmi_table_queue.Nodup ∧
    (∀ a ∈ s_run.tdmi_table_queue, ∃ t ∈ s_run.tdmi_tables, t.addr = a) ∧
    (s_run.tdmi_tables.map (fun t => t.addr)).Nodup :=
  C4_bound_pending_exclusive env0 s_run
    ⟨s_empty [dev_ok 5, dev_fail, dev_ok 6, dev_fail, dev_ok 7], ops_run, ⟨rfl, rfl⟩, rfl⟩

/-- C5: in every state reached from an empty stream by the calls of `Op` (registrations
from outside and from the PAT and CAT decoders run by dispatch steps, rotations,
destroys), no two subscriptions of the set have the same `tdt_pid`. -/
theorem C5_pid_unique (env : Env) (s : State) (h : Reachable env s) :
    (s.tdmi_tables.map (fun t => t.tdt_pid)).Nodup :=
  (reachable_inv h).pid_nodup

set_option maxRecDepth 100000 in
/-- C5 at the state `s_pat_done`, reached by the run `ops_pat`. -/
theorem C5_pid_unique_witness :
    (s_pat_done.tdmi_tables.map (fun t => t.tdt_pid)).Nodup :=
  C5_pid_unique env0 s_pat_done
    ⟨s_empty [dev_ok 5, dev_fail, dev_ok 6], ops_pat, ⟨rfl, rfl⟩, rfl⟩

/-- C6: rotation step. In a state satisfying the registry invariant where `S` is bound
and the pending queue is `H :: Q`, the rotation block completes; afterwards `S` has
`tdt_fd = -1`, the set has the same members in the same order and every table other than
`S` and `H` is untouched. If the device accepts the bind, `H` holds the descriptor and the
queue is `Q ++ [S]`; otherwise `H` has `tdt_fd = -1` and the queue is `Q ++ [S] ++ [H]`.
The number of bound subscriptions does not increase. -/
theorem C6_rotation_step (s : State) (S H : Nat) (Q : List Nat) (tS : th_dvb_table)
    (hI : Inv s) (hS : find_tdt s S = some tS) (hb : tS.tdt_fd ≠ -1)
    (hq : s.tdmi_table_queue = H :: Q) :
    ∃ s1, rotate_pending s S = some s1 ∧
      (∀ u ∈ s1.tdmi_tables, u.addr = S → u.tdt_fd = -1) ∧
      s1.tdmi_tables.map (fun t => t.addr) = s.tdmi_tables.map (fun t => t.addr) ∧
      (∀ u, u.addr ≠ S → u.addr ≠ H → (u ∈ s1.tdmi_tables ↔ u ∈ s.tdmi_tables)) ∧
      (bind_accepted (s.dev.headD dev_fail) →
        s1.tdmi_table_queue = Q ++ [S] ∧
        ∀ u ∈ s1.tdmi_tables, u.addr = H →
          u.tdt_fd = open_fd_value (s.dev.headD dev_fail) ∧ u.tdt_fd ≠ -1) ∧
      (¬ bind_accepted (s.dev.headD dev_fail) →
        s1.tdmi_table_queue = Q ++ [S] ++ [H] ∧
        ∀ u ∈ s1.tdmi_tables, u.addr = H → u.tdt_fd = -1) ∧
      bound_count s1 ≤ bound_count s := by
  obtain ⟨s1, g, hr, ht, hga, hne, ⟨tH, hHm, hHa, hHfd⟩, hcase⟩ := rotate_pending_spec hI hS hb hq
  obtain ⟨hSm, hSa⟩ := find_tdt_some hS
  have hmem : ∀ u1 ∈ s1.tdmi_tables, ∃ u ∈ s.tdmi_tables,
      u1 = (if u.addr = S then { u with tdt_fd := -1 } else if u.addr = H then g u else u) := by
    intro u1 h1
    rw [ht] at h1
    obtain ⟨u, hu, rfl⟩ := List.mem_map.1 h1
    exact ⟨u, hu, rfl⟩
  have haddr : ∀ u : th_dvb_table,
      (if u.addr = S then { u with tdt_fd := -1 } else if u.addr = H then g u else u).addr
        = u.addr := by
    intro u
    split
    · rfl
    · split
      · exact hga u
      · rfl
  have hH : ∀ u1 ∈ s1.tdmi_tables, u1.addr = H → ∃ u, u1 = g u := by
    intro u1 h1 ha
    obtain ⟨u, _, rfl⟩ := hmem u1 h1
    rw [haddr u] at ha
    have : u.addr ≠ S := by rw [ha]; exact hne
    rw [if_neg this, if_pos ha]
    exact ⟨u, rfl⟩
  refine ⟨s1, hr, ?_, ?_, ?_, ?_, ?_, ?_⟩
  · intro u1 h1 ha
    obtain ⟨u, _, rfl⟩ := hmem u1 h1
    rw [haddr u] at ha
    simp [ha]
  · rw [ht, List.map_map]
    apply List.map_congr_left
    intro u _
    exact haddr u
  · intro u h1 h2
    constructor
    · intro hm
      obtain ⟨v, hv, rfl⟩ := hmem u hm
      rw [haddr v] at h1 h2
      simpa [h1, h2] using hv
    · intro hm
      rw [ht]
      refine List.mem_map.2 ⟨u, hm, ?_⟩
      simp [h1, h2]
  · intro hacc
    rcases hcase with ⟨_, hg, hv, hq1⟩ | ⟨hna, _, _⟩
    · refine ⟨hq1, ?_⟩
      intro u1 h1 ha
      obtain ⟨u, rfl⟩ := hH u1 h1 ha
      rw [hg u]
      exact ⟨rfl, hv⟩
    · exact absurd hacc hna
  · intro hna
    rcases hcase with ⟨hacc, _, _, _⟩ | ⟨_, hg, hq1⟩
    · exact absurd hacc hna
    · refine ⟨hq1, ?_⟩
      intro u1 h1 ha
      obtain ⟨u, rfl⟩ := hH u1 h1 ha
      exact hg u
  · have hc := bound_count_rotate s.tdmi_tables
      (fun u => if u.addr = S then { u with tdt_fd := -1 } else if u.addr = H then g u else u) S H
      (fun u hu ha => by
        have := find_tdt_of_mem_inv hI hu
        rw [ha, hS] at this
        rw [← Option.some.inj this]
        exact hb)
      (fun u ha => by simp [ha])
      (fun u h1 h2 => by simp [h1, h2])
    have hS1 : 0 < s.tdmi_tables.countP (fun t => decide (t.addr = S)) :=
      List.countP_pos_iff.2 ⟨tS, hSm, by simp [hSa]⟩
    have hH1 : s.tdmi_tables.countP (fun t => decide (t.addr = H)) ≤ 1 := by
      have h1 := List.nodup_iff_count_le_one.1 hI.addr_nodup H
      rw [List.count, List.countP_map] at h1
      have h2 : ((fun x => x == H) ∘ fun t : th_dvb_table => t.addr)
          = (fun t => decide (t.addr = H)) := by
        funext t
        rfl
      rw [h2] at h1
      exact h1
    unfold bound_count
    rw [ht]
    omega

/-- C6 at `s_pat_cat [dev_ok 6]`: PAT (address 100) bound, queue `[101]`. -/
theorem C6_rotation_step_witness :
    ∃ s1, rotate_pending (s_pat_cat [dev_ok 6]) 100 = some s1 ∧
      (∀ u ∈ s1.tdmi_tables, u.addr = 100 → u.tdt_fd = -1) ∧
      s1.tdmi_tables.map (fun t => t.addr)
        = (s_pat_cat [dev_ok 6]).tdmi_tables.map (fun t => t.addr) ∧
      (∀ u, u.addr ≠ 100 → u.addr ≠ 101 →
        (u ∈ s1.tdmi_tables ↔ u ∈ (s_pat_cat [dev_ok 6]).tdmi_tables)) ∧
      (bind_accepted ((s_pat_cat [dev_ok 6]).dev.headD dev_fail) →
        s1.tdmi_table_queue = [] ++ [100] ∧
        ∀ u ∈ s1.tdmi_tables, u.addr = 101 →
          u.tdt_fd = open_fd_value ((s_pat_cat [dev_ok 6]).dev.headD dev_fail) ∧ u.tdt_fd ≠ -1) ∧
      (¬ bind_accepted ((s_pat_cat [dev_ok 6]).dev.headD dev_fail) →
        s1.tdmi_table_queue = [] ++ [100] ++ [101] ∧
        ∀ u ∈ s1.tdmi_tables, u.addr = 101 → u.tdt_fd = -1) ∧
      bound_count s1 ≤ bound_count (s_pat_cat [dev_ok 6]) :=
  C6_rotation_step (s_pat_cat [dev_ok 6]) 100 101 []
    { addr := 100, tdt_flags := 3, tdt_fd := 5, tdt_name := "pat",
      tdt_opaque_p := Opaque.null, tdt_callback := Callback.dvb_pat_callback,
      tdt_count := 0, tdt_pid := 0,
      tdt_fparams := { pid := 0, filter0 := 0, mask0 := 255, flags := 5 }, tdt_id := 1 }
    (reachable_inv (s_pat_cat_reachable [dev_ok 6])) rfl (by decide) rfl

set_option maxRecDepth 100000 in
/-- C7 (counterexample): in `s_pat_cat [dev_ok 6]` the PAT subscription (CRC required) is
bound to descriptor 5 and CAT waits in the queue; a read past the grace window delivers
`bad_pat_section`, whose CRC fails. The step nevertheless rotates: PAT loses its
descriptor and is queued, CAT is bound to descriptor 6. -/
theorem C7_counterexample :
    env0.psi_crc32 bad_pat_section 20 ≠ 0 ∧
    (s_pat_cat [dev_ok 6]).tdmi_tables.map (fun t => (t.addr, t.tdt_fd)) = [(101, -1), (100, 5)] ∧
    (s_pat_cat [dev_ok 6]).tdmi_table_queue = [101] ∧
    (dvb_table_input env0 (s_pat_cat [dev_ok 6]) 1 ev_pat 20 bad_pat_section 250001).map
        (fun s => (s.tdmi_tables.map (fun t => (t.addr, t.tdt_fd)), s.tdmi_table_queue))
      = some ([(101, 6), (100, -1)], [100]) := by
  refine ⟨by decide, by decide, by decide, by decide⟩

/-- C7 (amended): in a dispatch step past the grace window whose event resolves to the
subscription `tdt` with the require-CRC flag and whose section fails the CRC check, the
decoder is not invoked and no counter changes (`dvb_proc_table` returns the state as it
was), and the step is the rotation block applied to that state: with an empty pending
queue nothing changes; with a non-empty queue and `tdt` bound, `tdt` is released
(`tdt_fd = -1`) and is in the pending queue afterwards. -/
theorem C7_crc_failure_still_rotates (env : Env) (s : State) (events u64 : Nat) (r : Int)
    (sec : List Nat) (t : Int) (tdt : th_dvb_table) (hI : Inv s)
    (hev : events &&& EPOLLIN ≠ 0) (hr : 3 ≤ r) (hcur : s.tda_mux_current = true)
    (ht : 250000 ≤ t - s.tdmi_table_start)
    (hres : s.tdmi_tables.find? (fun x => decide (x.tdt_id = to_int32 (u64 &&& 0xffffffff)))
      = some tdt)
    (hflag : tdt.tdt_flags &&& TDT_CRC ≠ 0) (hbad : env.psi_crc32 sec r ≠ 0) :
    dvb_proc_table env s tdt.addr sec r = some s ∧
    dvb_table_input env s events u64 r sec t = rotate_pending s tdt.addr ∧
    (s.tdmi_table_queue = [] → dvb_table_input env s events u64 r sec t = some s) ∧
    (s.tdmi_table_queue ≠ [] → tdt.tdt_fd ≠ -1 →
      ∃ s1, dvb_table_input env s events u64 r sec t = some s1 ∧
        (∀ u ∈ s1.tdmi_tables, u.addr = tdt.addr → u.tdt_fd = -1) ∧
        tdt.addr ∈ s1.tdmi_table_queue) := by
  have hm : tdt ∈ s.tdmi_tables := List.mem_of_find?_eq_some hres
  have hf : find_tdt s tdt.addr = some tdt := find_tdt_of_mem_inv hI hm
  have hp : dvb_proc_table env s tdt.addr sec r = some s := by
    unfold dvb_proc_table
    simp [hf, hflag, hbad]
  have hin : dvb_table_input env s events u64 r sec t = rotate_pending s tdt.addr := by
    unfold dvb_table_input
    have hr2 : ¬ r < 3 := not_lt.2 hr
    simp only [hev, hr2, hcur, ht, hres, hp, if_false, if_true, ge_iff_le, Bool.true_eq_false]
  refine ⟨hp, hin, ?_, ?_⟩
  · intro hq
    rw [hin]
    unfold rotate_pending
    simp [hq]
  · intro hq hb
    obtain ⟨H, Q, hHQ⟩ := List.exists_cons_of_ne_nil hq
    obtain ⟨s1, g, hr1, ht1, hga, _, _, hcase⟩ := rotate_pending_spec hI hf hb hHQ
    refine ⟨s1, by rw [hin, hr1], ?_, ?_⟩
    · intro u hu ha
      rw [ht1] at hu
      obtain ⟨v, _, rfl⟩ := List.mem_map.1 hu
      by_cases h1 : v.addr = tdt.addr
      · simp [h1]
      · exfalso
        apply h1
        rw [← ha]
        simp only [h1, if_false]
        split
        · exact (hga v).symm
        · rfl
    · rcases hcase with ⟨_, _, _, hq1⟩ | ⟨_, _, hq1⟩
      · rw [hq1]; simp
      · rw [hq1]; simp

set_option maxRecDepth 100000 in
/-- C7 (amended) at `s_pat_cat [dev_ok 6]` and the CRC-failing `bad_pat_section`. -/
theorem C7_crc_failure_still_rotates_witness :
    dvb_proc_table env0 (s_pat_cat [dev_ok 6]) 100 bad_pat_section 20 = some (s_pat_cat [dev_ok 6]) ∧
    dvb_table_input env0 (s_pat_cat [dev_ok 6]) 1 ev_pat 20 bad_pat_section 250001
      = rotate_pending (s_pat_cat [dev_ok 6]) 100 ∧
    ((s_pat_cat [dev_ok 6]).tdmi_table_queue = [] →
      dvb_table_input env0 (s_pat_cat [dev_ok 6]) 1 ev_pat 20 bad_pat_section 250001
        = some (s_pat_cat [dev_ok 6])) ∧
    ((s_pat_cat [dev_ok 6]).tdmi_table_queue ≠ [] → (5 : Int) ≠ -1 →
      ∃ s1, dvb_table_input env0 (s_pat_cat [dev_ok 6]) 1 ev_pat 20 bad_pat_section 250001 = some s1 ∧
        (∀ u ∈ s1.tdmi_tables, u.addr = 100 → u.tdt_fd = -1) ∧
        100 ∈ s1.tdmi_table_queue) :=
  C7_crc_failure_still_rotates env0 (s_pat_cat [dev_ok 6]) 1 ev_pat 20 bad_pat_section 250001
    { addr := 100, tdt_flags := 3, tdt_fd := 5, tdt_name := "pat",
      tdt_opaque_p := Opaque.null, tdt_callback := Callback.dvb_pat_callback,
      tdt_count := 0, tdt_pid := 0,
      tdt_fparams := { pid := 0, filter0 := 0, mask0 := 255, flags := 5 }, tdt_id := 1 }
    (reachable_inv (s_pat_cat_reachable [dev_ok 6])) (by decide) (by decide) rfl (by decide)
    (by decide) (by decide) (by decide)

set_option maxRecDepth 100000 in
/-- C8 (counterexample): a valid section read exactly 250,000 microseconds after
`tdmi_table_start` (hence within 250 ms, read inclusively) is not dropped: the PAT decoder
is invoked and two subscriptions are added. -/
theorem C8_counterexample :
    (250000 : Int) - (s_pat_cat [dev_ok 6]).tdmi_table_start ≤ 250000 ∧
    (dvb_table_input env0 (s_pat_cat [dev_ok 6]) 1 ev_pat 20 pat_section 250000).map
        (fun s => ((s.trace.drop (s_pat_cat [dev_ok 6]).trace.length).take 1,
          s.tdmi_tables.map (fun t => t.tdt_pid)))
      = some ([Event.callback 100 Callback.dvb_pat_callback (pat_section.drop 3) 13 0 Opaque.null],
          [49, 48, 1, 0]) := by
  refine ⟨by decide, by decide⟩

/-- C8 (amended): a section read less than 250,000 microseconds after
`tdmi_table_start` leaves the whole state unchanged (no decoder call, same set, queue,
counters and scan flag); a section of at least 3 bytes read 250,000 microseconds or
more after it (in particular at 250,001) on the current stream, whose event id resolves
to the subscription `tdt`, is handed to `dvb_proc_table` for `tdt`, followed by the
rotation block. -/
theorem C8_grace_window (env : Env) (s : State) (events u64 : Nat) (r : Int) (sec : List Nat)
    (t : Int) :
    (t - s.tdmi_table_start < 250000 → dvb_table_input env s events u64 r sec t = some s) ∧
    (∀ tdt, 250000 ≤ t - s.tdmi_table_start → events &&& EPOLLIN ≠ 0 → 3 ≤ r →
      s.tda_mux_current = true →
      s.tdmi_tables.find? (fun x => decide (x.tdt_id = to_int32 (u64 &&& 0xffffffff))) = some tdt →
      dvb_table_input env s events u64 r sec t
        = (dvb_proc_table env s tdt.addr sec r).bind (fun s1 => rotate_pending s1 tdt.addr)) := by
  constructor
  · intro h
    have h2 : ¬ t - s.tdmi_table_start ≥ 250000 := not_le.2 h
    unfold dvb_table_input
    simp only [h2, if_false]
    split
    · rfl
    · split
      · rfl
      · split <;> rfl
  · intro tdt ht hev hr hcur hres
    have hr2 : ¬ r < 3 := not_lt.2 hr
    unfold dvb_table_input
    simp only [hev, hr2, hcur, ht, hres, if_false, if_true, ge_iff_le, Bool.true_eq_false]
    cases dvb_proc_table env s tdt.addr sec r <;> rfl

set_option maxRecDepth 100000 in
/-- C8 (amended) at `s_pat_cat [dev_ok 6]`, elapsed times 249,999 and 250,001. -/
theorem C8_grace_window_witness :
    dvb_table_input env0 (s_pat_cat [dev_ok 6]) 1 ev_pat 20 pat_section 249999
      = some (s_pat_cat [dev_ok 6]) ∧
    dvb_table_input env0 (s_pat_cat [dev_ok 6]) 1 ev_pat 20 pat_section 250001
      = (dvb_proc_table env0 (s_pat_cat [dev_ok 6]) 100 pat_section 20).bind
          (fun s1 => rotate_pending s1 100) :=
  ⟨(C8_grace_window env0 (s_pat_cat [dev_ok 6]) 1 ev_pat 20 pat_section 249999).1 (by decide),
   (C8_grace_window env0 (s_pat_cat [dev_ok 6]) 1 ev_pat 20 pat_section 250001).2
    { addr := 100, tdt_flags := 3, tdt_fd := 5, tdt_name := "pat",
      tdt_opaque_p := Opaque.null, tdt_callback := Callback.dvb_pat_callback,
      tdt_count := 0, tdt_pid := 0,
      tdt_fparams := { pid := 0, filter0 := 0, mask0 := 255, flags := 5 }, tdt_id := 1 }
    (by decide) (by decide) (by decide) rfl (by decide)⟩

/-- The calls of `dvb_pat_callback` on a payload of length `len >= 5` with the
current/next bit set: `dvb_table_add_transport` is called, in table order, once per entry
at offsets 5, 9, ... (while 4 bytes remain) whose service id is not 0, with what
`dvb_transport_find` returned for the entry, `NULL` included, and with the PMT pid
`((e[2] & 0x1f) << 8) | e[3]`. Where no call is handed `NULL` the decoder returns 0, and
the subscribed pids are the previous ones together with those PMT pids, none twice if
none was before; the embedding goes on in the same way after a read through `NULL`. -/
theorem dvb_pat_callback_calls (env : Env) (s : State) (ptr : List Nat) (len : Int)
    (hlen : 5 ≤ len) (hcn : byte ptr 2 &&& 1 ≠ 0) :
    ∃ s1, dvb_pat_callback env s ptr len = some (s1, 0) ∧
      transport_calls s1.trace = transport_calls s.trace ++
        (pat_registrations ptr 5 (len - 5)).map
          (fun e => (env.dvb_transport_find e.1 e.2, (e.2 : Int))) ∧
      (∀ p, p ∈ s1.tdmi_tables.map (fun t => t.tdt_pid) ↔
        p ∈ s.tdmi_tables.map (fun t => t.tdt_pid) ∨
        p ∈ (pat_registrations ptr 5 (len - 5)).map (fun e => (e.2 : Int))) ∧
      ((s.tdmi_tables.map (fun t => t.tdt_pid)).Nodup →
        (s1.tdmi_tables.map (fun t => t.tdt_pid)).Nodup) := by
  unfold dvb_pat_callback
  have h1 : ¬ len < 5 := not_lt.2 hlen
  simp only [h1, hcn, if_false]
  obtain ⟨s1, hl, hc, hp, hn, _⟩ := pat_loop_spec env ptr (len.toNat + 1)
    (if s.tdmi_transport_stream_id ≠ ((byte ptr 0 <<< 8) ||| byte ptr 1) % 65536 then
      dvb_mux_set_tsid s (((byte ptr 0 <<< 8) ||| byte ptr 1) % 65536) else s)
    5 (len - 5) (by omega)
  rw [hl]
  refine ⟨s1, rfl, ?_, ?_, ?_⟩
  · rw [hc]
    congr 1
    split
    · simp [dvb_mux_set_tsid, log, transport_calls]
    · rfl
  · intro p
    rw [hp p]
    split <;> rfl
  · intro hnd
    apply hn
    split
    · exact hnd
    · exact hnd

set_option maxRecDepth 100000 in
/-- The payload of `pat_section` (transport id 7, entries (1, 0x30) and (2, 0x31)) on the
stream `s_pat_cat` holding the PAT and CAT subscriptions: both services are found, and
the pids 0x30 and 0x31 are added. -/
theorem pat_section_registrations :
    pat_registrations (pat_section.drop 3) 5 (13 - 5) = [(1, 0x30), (2, 0x31)] ∧
    (dvb_pat_callback env0 (s_pat_cat [dev_ok 6, dev_ok 7]) (pat_section.drop 3) 13).map
        (fun r => (r.1.tdmi_tables.map (fun t => t.tdt_pid), transport_calls r.1.trace,
          decide (Event.null_deref ∈ r.1.trace), r.2)) =
      some ([0x31, 0x30, 1, 0], [(some 1, 0x30), (some 2, 0x31)], false, 0) := by
  decide

set_option maxRecDepth 100000 in
/-- C9 (evaluation at the failing input): the payload `pat_pl_pid0` has length 9, the
current/next bit set and one entry, service id 1 with PMT pid 0, so the claim asks for one
registration. On a stream that does not know service 1, `dvb_transport_find` called with
PMT pid 0 returns `NULL` (the result the callers at lines 496, 663 and 1092 test for);
line 725 hands it to `dvb_table_add_transport` untested, and line 1254 reads
`t->tht_dvb_service_id` through it: the one call recorded has `t == NULL`, and the trace
holds the read through `NULL`. -/
theorem C9_pat_null_transport :
    5 ≤ (9 : Int) ∧ byte pat_pl_pid0 2 &&& 1 ≠ 0 ∧
    pat_registrations pat_pl_pid0 5 (9 - 5) = [(1, 0)] ∧
    env0.dvb_transport_find 1 0 = none ∧
    (dvb_pat_callback env0 (s_pat_cat []) pat_pl_pid0 9).map
        (fun r => (transport_calls r.1.trace, decide (Event.null_deref ∈ r.1.trace))) =
      some ([(none, 0)], true) := by
  decide

set_option maxRecDepth 100000 in
/-- C10 (evaluation at the failing input): the CA descriptor 0x0b 0x00 0xe1 0x00 carries
the 13-bit pid `((0xe1 & 0x1f) << 8) | 0x00 = 0x100`, which is not zero, yet
`dvb_cat_callback` makes no `tdt_add` call for it: line 778 computes
`(ptr[2] & 0x1f << 8) | ptr[3]`, which is `ptr[3]`. With pid bytes 0xe1 0x05 (pid 0x105)
the subscription is registered for pid 5. -/
theorem C10_ca_pid_high_bits_dropped :
    ((0xe1 &&& 0x1f) <<< 8) ||| 0x00 = 0x100 ∧
    (dvb_cat_callback env0 (s_pat_cat [dev_ok 6]) (cat_payload 0xe1 0x00) 11).map
        (fun r => (tdt_add_calls (r.1.trace.drop (s_pat_cat [dev_ok 6]).trace.length),
          r.1.tdmi_tables.map (fun t => t.tdt_pid), r.2))
      = some ([], [1, 0], 0) ∧
    ((0xe1 &&& 0x1f) <<< 8) ||| 0x05 = 0x105 ∧
    (dvb_cat_callback env0 (s_pat_cat [dev_ok 6]) (cat_payload 0xe1 0x05) 11).map
        (fun r => (tdt_add_calls (r.1.trace.drop (s_pat_cat [dev_ok 6]).trace.length),
          r.1.tdmi_tables.map (fun t => t.tdt_pid), r.2))
      = some ([(5, TDT_INC_TABLE_HDR, Callback.dvb_ca_callback, Opaque.ca_stream 102 0x0b00)],
          [5, 1, 0], 0) := by
  refine ⟨by decide, rfl, by decide, rfl⟩

/-! ## Frames of the registry calls, fast completion, defaults and flush -/

theorem same_sub_refl (u : th_dvb_table) : same_sub u u := ⟨rfl, rfl, rfl, rfl, rfl, rfl⟩

theorem same_sub_trans {u v w : th_dvb_table} (h1 : same_sub u v) (h2 : same_sub v w) :
    same_sub u w := by
  unfold same_sub at h1 h2 ⊢
  refine ⟨h2.1.trans h1.1, h2.2.1.trans h1.2.1, h2.2.2.1.trans h1.2.2.1, ?_, ?_, ?_⟩
  · exact h2.2.2.2.1.trans h1.2.2.2.1
  · exact h2.2.2.2.2.1.trans h1.2.2.2.2.1
  · exact h2.2.2.2.2.2.trans h1.2.2.2.2.2

theorem Frame.refl (s : State) : Frame s s :=
  ⟨fun _ t h => ⟨t, h, same_sub_refl t⟩, rfl, rfl, rfl, rfl, fun h => h⟩

theorem Frame.trans {s s1 s2 : State} (h1 : Frame s s1) (h2 : Frame s1 s2) : Frame s s2 := by
  refine ⟨?_, h2.calls.trans h1.calls, h2.initial.trans h1.initial, h2.num_mux.trans h1.num_mux,
    h2.start.trans h1.start, fun h => h2.nonneg (h1.nonneg h)⟩
  intro b t ht
  obtain ⟨t1, ht1, hs1⟩ := h1.live b t ht
  obtain ⟨t2, ht2, hs2⟩ := h2.live b t1 ht1
  exact ⟨t2, ht2, same_sub_trans hs1 hs2⟩

theorem find_tdt_map {s s1 : State} (F : th_dvb_table → th_dvb_table)
    (hF : ∀ u, (F u).addr = u.addr) (h : s1.tdmi_tables = s.tdmi_tables.map F) (b : Nat) :
    find_tdt s1 b = (find_tdt s b).map F := by
  unfold find_tdt
  have hc : ((fun t : th_dvb_table => t.addr == b) ∘ F) = (fun t => t.addr == b) := by
    funext u
    simp [Function.comp, hF]
  rw [h, List.find?_map, hc]

/-- A state whose tables are those of `s` up to their binding, with the same decoder
record, scan flag, scan counter and scan start, is framed by `s`. -/
theorem Frame.of_map {s s1 : State} (F : th_dvb_table → th_dvb_table)
    (hF : ∀ u, same_sub u (F u)) (ht : s1.tdmi_tables = s.tdmi_tables.map F)
    (hc : callback_calls s1.trace = callback_calls s.trace)
    (hi : s1.tdmi_table_initial = s.tdmi_table_initial)
    (hn : s1.tda_initial_num_mux = s.tda_initial_num_mux)
    (hs : s1.tdmi_table_start = s.tdmi_table_start) : Frame s s1 := by
  refine ⟨?_, hc, hi, hn, hs, ?_⟩
  · intro b t hb
    refine ⟨F t, ?_, hF t⟩
    rw [find_tdt_map F (fun u => (hF u).1) ht b, hb]
    rfl
  · intro h t htm
    rw [ht] at htm
    obtain ⟨u, hu, rfl⟩ := List.mem_map.1 htm
    rw [(hF u).2.2.2.2.2]
    exact h u hu

/-- Frame of an assignment to the binding fields of the table at `a`. -/
theorem Frame.upd {s s1 : State} (a : Nat) (g : th_dvb_table → th_dvb_table)
    (ht : s1.tdmi_tables = s.tdmi_tables.map (fun u => if u.addr = a then g u else u))
    (hg : ∀ u, same_sub u (g u))
    (hc : callback_calls s1.trace = callback_calls s.trace)
    (hi : s1.tdmi_table_initial = s.tdmi_table_initial)
    (hn : s1.tda_initial_num_mux = s.tda_initial_num_mux)
    (hs : s1.tdmi_table_start = s.tdmi_table_start) : Frame s s1 := by
  refine Frame.of_map (fun u => if u.addr = a then g u else u) ?_ ht hc hi hn hs
  intro u
  show same_sub u (if u.addr = a then g u else u)
  split
  · exact hg u
  · exact same_sub_refl u

theorem tdt_open_fd_Frame {s s1 : State} {a : Nat} (h : tdt_open_fd s a = some s1) :
    Frame s s1 := by
  unfold tdt_open_fd at h
  cases hf : find_tdt s a with
  | none => simp [hf] at h
  | some t =>
    simp only [hf] at h
    split at h
    · simp at h
    · split at h
      · split at h
        · simp only [Option.some.injEq] at h
          subst h
          exact Frame.upd a _ rfl (fun _ => same_sub_refl _)
            (by simp [log, upd_tdt, callback_calls]) rfl rfl rfl
        · split at h
          · simp only [Option.some.injEq] at h
            subst h
            exact Frame.upd a _ rfl (fun _ => same_sub_refl _)
              (by simp [log, upd_tdt, callback_calls]) rfl rfl rfl
          · simp only [Option.some.injEq] at h
            subst h
            exact Frame.upd a _ rfl (fun _ => same_sub_refl _)
              (by simp [log, upd_tdt, callback_calls]) rfl rfl rfl
      · simp only [Option.some.injEq] at h
        subst h
        exact Frame.upd a _ rfl (fun _ => same_sub_refl _)
          (by simp [log, upd_tdt, callback_calls]) rfl rfl rfl

theorem Frame.same_tables {s s1 : State} (ht : s1.tdmi_tables = s.tdmi_tables)
    (hc : callback_calls s1.trace = callback_calls s.trace)
    (hi : s1.tdmi_table_initial = s.tdmi_table_initial)
    (hn : s1.tda_initial_num_mux = s.tda_initial_num_mux)
    (hs : s1.tdmi_table_start = s.tdmi_table_start) : Frame s s1 := by
  refine ⟨?_, hc, hi, hn, hs, fun h => by rw [ht]; exact h⟩
  intro b t hb
  refine ⟨t, ?_, same_sub_refl t⟩
  unfold find_tdt at hb ⊢
  rw [ht]
  exact hb

/-- Frame of linking a new table whose address no live table has. -/
theorem Frame.cons {s s1 : State} (t : th_dvb_table) (ht : s1.tdmi_tables = t :: s.tdmi_tables)
    (hfresh : ∀ u ∈ s.tdmi_tables, u.addr ≠ t.addr) (hcount : 0 ≤ t.tdt_count)
    (hc : callback_calls s1.trace = callback_calls s.trace)
    (hi : s1.tdmi_table_initial = s.tdmi_table_initial)
    (hn : s1.tda_initial_num_mux = s.tda_initial_num_mux)
    (hs : s1.tdmi_table_start = s.tdmi_table_start) : Frame s s1 := by
  refine ⟨?_, hc, hi, hn, hs, ?_⟩
  · intro b u hb
    obtain ⟨hum, hua⟩ := find_tdt_some hb
    refine ⟨u, ?_, same_sub_refl u⟩
    have hne : ¬ t.addr = b := by
      intro h
      exact hfresh u hum (hua.trans h.symm)
    unfold find_tdt at hb ⊢
    rw [ht, List.find?_cons_of_neg _ (by simpa using hne)]
    exact hb
  · intro h u hu
    rw [ht] at hu
    rcases List.mem_cons.1 hu with rfl | hu
    · exact hcount
    · exact h u hu

theorem map_upd_sig (l : List th_dvb_table) (a : Nat) (g : th_dvb_table → th_dvb_table)
    (hg : ∀ u, sub_sig (g u) = sub_sig u) :
    (l.map (fun u => if u.addr = a then g u else u)).map sub_sig = l.map sub_sig := by
  rw [List.map_map]
  apply List.map_congr_left
  intro u _
  simp only [Function.comp]
  split
  · exact hg u
  · rfl

theorem tdt_open_fd_sig {s s1 : State} {a : Nat} (h : tdt_open_fd s a = some s1) :
    s1.tdmi_tables.map sub_sig = s.tdmi_tables.map sub_sig := by
  unfold tdt_open_fd at h
  cases hf : find_tdt s a with
  | none => simp [hf] at h
  | some t =>
    simp only [hf] at h
    split at h
    · simp at h
    · split at h
      · split at h
        · simp only [Option.some.injEq] at h
          subst h
          exact map_upd_sig _ a _ (fun _ => rfl)
        · split at h
          · simp only [Option.some.injEq] at h
            subst h
            exact map_upd_sig _ a _ (fun _ => rfl)
          · simp only [Option.some.injEq] at h
            subst h
            exact map_upd_sig _ a _ (fun _ => rfl)
      · simp only [Option.some.injEq] at h
        subst h
        exact map_upd_sig _ a _ (fun _ => rfl)

theorem tdt_add_Frame {env : Env} {s s1 : State} {fp : Option dmx_sct_filter_params}
    {cb : Callback} {opq : Opaque} {name : String} {flags : Nat} {pid : Int} {tdt : Option Nat}
    (hI : Inv s) (hb : fresh_block s tdt)
    (h : tdt_add env s fp cb opq name flags pid tdt = some s1) : Frame s s1 := by
  unfold tdt_add at h
  simp only at h
  split at h
  · simp only [Option.some.injEq] at h
    subst h
    exact Frame.same_tables rfl (by simp [log, callback_calls]) rfl rfl rfl
  · cases tdt with
    | none =>
      simp only [calloc, log] at h
      refine Frame.trans ?_ (tdt_open_fd_Frame h)
      exact Frame.cons _ rfl (fun u hu => ne_of_lt (hI.addr_lt u hu)) (le_refl _)
        (by simp [callback_calls]) rfl rfl rfl
    | some a =>
      simp only [log] at h
      refine Frame.trans ?_ (tdt_open_fd_Frame h)
      exact Frame.cons _ rfl (fun u hu => ne_of_lt (hb.2 u hu)) (le_refl _)
        (by simp [callback_calls]) rfl rfl rfl

/-- The subscriptions after `tdt_add`: unchanged when the pid is already subscribed,
otherwise the new one at the head; in both cases the scan start is untouched. -/
theorem tdt_add_sig {env : Env} {s s1 : State} {fp : Option dmx_sct_filter_params}
    {cb : Callback} {opq : Opaque} {name : String} {flags : Nat} {pid : Int} {tdt : Option Nat}
    (h : tdt_add env s fp cb opq name flags pid tdt = some s1) :
    s1.tdmi_tables.map sub_sig
      = (if pid ∈ s.tdmi_tables.map (fun t => t.tdt_pid) then s.tdmi_tables.map sub_sig
         else (pid, flags, cb) :: s.tdmi_tables.map sub_sig) ∧
    s1.tdmi_table_start = s.tdmi_table_start := by
  unfold tdt_add at h
  simp only at h
  split at h
  · rename_i hany
    simp only [Option.some.injEq] at h
    subst h
    have hm : pid ∈ s.tdmi_tables.map (fun t => t.tdt_pid) := by
      simp only [log, List.any_eq_true, decide_eq_true_eq] at hany
      obtain ⟨t, ht, hp⟩ := hany
      exact List.mem_map.2 ⟨t, ht, hp.symm⟩
    simp only [hm, if_true]
    exact ⟨rfl, rfl⟩
  · rename_i hany
    have hm : pid ∉ s.tdmi_tables.map (fun t => t.tdt_pid) := by
      intro hm
      apply hany
      obtain ⟨t, ht, hp⟩ := List.mem_map.1 hm
      simp only [log, List.any_eq_true, decide_eq_true_eq]
      exact ⟨t, ht, hp.symm⟩
    simp only [hm, if_false]
    cases tdt with
    | none =>
      have h1 := tdt_open_fd_sig h
      have h2 := (tdt_open_fd_Frame h).start
      exact ⟨by rw [h1]; rfl, by rw [h2]; rfl⟩
    | some a =>
      have h1 := tdt_open_fd_sig h
      have h2 := (tdt_open_fd_Frame h).start
      exact ⟨by rw [h1]; rfl, by rw [h2]; rfl⟩

theorem dvb_table_add_transport_Frame {env : Env} {s s1 : State} {t : Option Nat}
    {pmt_pid : Int}
    (hI : Inv s) (h : dvb_table_add_transport env s t pmt_pid = some s1) : Frame s s1 := by
  unfold dvb_table_add_transport at h
  cases t with
  | some t =>
    have h1 : Frame s (log s (Event.add_transport (some t) pmt_pid)) :=
      Frame.same_tables rfl (by simp [log, callback_calls]) rfl rfl rfl
    exact Frame.trans h1 (tdt_add_Frame (s := log s _) hI (show fresh_block _ none from trivial) h)
  | none =>
    have h1 : Frame s (log (log s (Event.add_transport none pmt_pid)) Event.null_deref) :=
      Frame.same_tables rfl (by simp [log, callback_calls]) rfl rfl rfl
    exact Frame.trans h1
      (tdt_add_Frame (s := log (log s _) _) hI (show fresh_block _ none from trivial) h)

theorem dvb_table_add_transport_inv {env : Env} {s s1 : State} {t : Option Nat}
    {pmt_pid : Int}
    (hI : Inv s) (h : dvb_table_add_transport env s t pmt_pid = some s1) : Inv s1 := by
  unfold dvb_table_add_transport at h
  cases t with
  | some t => exact tdt_add_inv (s := log s _) hI (show fresh_block _ none from trivial) h
  | none => exact tdt_add_inv (s := log (log s _) _) hI (show fresh_block _ none from trivial) h

theorem pat_loop_Frame (env : Env) : ∀ (fuel : Nat) (s s1 : State) (ptr : List Nat) (len : Int),
    Inv s → pat_loop env fuel s ptr len = some s1 → Frame s s1 := by
  intro fuel
  induction fuel with
  | zero => intro s s1 ptr len _ h; simp [pat_loop] at h
  | succ n ih =>
    intro s s1 ptr len hI h
    simp only [pat_loop] at h
    split at h
    · split at h
      · simp at h
      · rename_i s2 hr
        split at hr
        · exact Frame.trans (dvb_table_add_transport_Frame hI hr)
            (ih s2 s1 _ _ (dvb_table_add_transport_inv hI hr) h)
        · simp only [Option.some.injEq] at hr
          subst hr
          exact ih s s1 _ _ hI h
    · simp only [Option.some.injEq] at h
      subst h
      exact Frame.refl s

theorem cat_loop_Frame (env : Env) : ∀ (fuel : Nat) (s s1 : State) (ptr : List Nat) (len : Int),
    Inv s → cat_loop env fuel s ptr len = some s1 → Frame s s1 := by
  intro fuel
  induction fuel with
  | zero => intro s s1 ptr len _ h; simp [cat_loop] at h
  | succ n ih =>
    intro s s1 ptr len hI h
    simp only [cat_loop] at h
    split at h
    · split at h
      · simp at h
      · rename_i s2 hr
        split at hr
        · split at hr
          · simp only [Option.some.injEq] at hr
            subst hr
            exact ih s s1 _ _ hI h
          · simp only [calloc] at hr
            have hI1 : Inv { s with heap_next := s.heap_next + 1 } :=
              ⟨hI.addr_nodup, fun t ht => Nat.lt_succ_of_lt (hI.addr_lt t ht),
                hI.queue_nodup, hI.queue_sub, hI.pending_iff, hI.pid_nodup⟩
            have hb : fresh_block { s with heap_next := s.heap_next + 1 } (some s.heap_next) :=
              ⟨Nat.lt_succ_self _, fun u hu => hI.addr_lt u hu⟩
            have hF0 : Frame s { s with heap_next := s.heap_next + 1 } :=
              Frame.same_tables rfl rfl rfl rfl rfl
            exact Frame.trans (Frame.trans hF0 (tdt_add_Frame hI1 hb hr))
              (ih s2 s1 _ _ (tdt_add_inv hI1 hb hr) h)
        · simp only [Option.some.injEq] at hr
          subst hr
          exact ih s s1 _ _ hI h
    · simp only [Option.some.injEq] at h
      subst h
      exact Frame.refl s

theorem run_callback_Frame {env : Env} {s s1 : State} {cb : Callback} {ptr : List Nat}
    {len : Int} {tableid : Nat} {ret : Int} (hI : Inv s)
    (h : run_callback env s cb ptr len tableid = some (s1, ret)) : Frame s s1 := by
  cases cb <;> simp only [run_callback, Option.some.injEq, Prod.mk.injEq] at h
  case dvb_pat_callback =>
    unfold dvb_pat_callback at h
    split at h
    · simp only [Option.some.injEq, Prod.mk.injEq] at h; rw [← h.1]; exact Frame.refl s
    · split at h
      · simp only [Option.some.injEq, Prod.mk.injEq] at h; rw [← h.1]; exact Frame.refl s
      · simp only at h
        split at h
        · simp at h
        · rename_i s2 hl
          simp only [Option.some.injEq, Prod.mk.injEq] at h
          rw [← h.1]
          split at hl
          · refine Frame.trans ?_
              (pat_loop_Frame env _ _ _ _ _ (show Inv (dvb_mux_set_tsid s _) from hI) hl)
            exact Frame.same_tables rfl (by simp [dvb_mux_set_tsid, log, callback_calls])
              rfl rfl rfl
          · exact pat_loop_Frame env _ _ _ _ _ hI hl
  case dvb_cat_callback =>
    unfold dvb_cat_callback at h
    split at h
    · simp only [Option.some.injEq, Prod.mk.injEq] at h; rw [← h.1]; exact Frame.refl s
    · split at h
      · simp at h
      · rename_i s2 hl
        simp only [Option.some.injEq, Prod.mk.injEq] at h
        rw [← h.1]
        exact cat_loop_Frame env _ _ _ _ _ hI hl
  all_goals (rw [← h.1]; exact Frame.refl s)

theorem dvb_table_fastswitch_tables (s : State) :
    (dvb_table_fastswitch s).tdmi_tables = s.tdmi_tables ∧
    callback_calls (dvb_table_fastswitch s).trace = callback_calls s.trace := by
  unfold dvb_table_fastswitch
  simp only
  split
  · exact ⟨rfl, by simp [log, callback_calls]⟩
  · split
    · exact ⟨rfl, by simp [log, callback_calls]⟩
    · exact ⟨rfl, by simp [log, callback_calls]⟩

/-- What `dvb_table_fastswitch` does to the scan flag and the adapter's scan counter, for
counters that are not negative. -/
theorem dvb_table_fastswitch_spec (s : State) (hnn : ∀ t ∈ s.tdmi_tables, 0 ≤ t.tdt_count) :
    (s.tdmi_table_initial ≠ 0 → all_quick_received s →
      (dvb_table_fastswitch s).tdmi_table_initial = 0 ∧
      (dvb_table_fastswitch s).tda_initial_num_mux = s.tda_initial_num_mux - 1) ∧
    (s.tdmi_table_initial = 0 ∨ ¬ all_quick_received s →
      (dvb_table_fastswitch s).tdmi_table_initial = s.tdmi_table_initial ∧
      (dvb_table_fastswitch s).tda_initial_num_mux = s.tda_initial_num_mux) := by
  have hiff : (s.tdmi_tables.any
      (fun t => decide (t.tdt_flags &&& TDT_QUICKREQ ≠ 0) && decide (t.tdt_count = 0))) = true
      ↔ ¬ all_quick_received s := by
    unfold all_quick_received
    simp only [List.any_eq_true, Bool.and_eq_true, decide_eq_true_eq]
    constructor
    · rintro ⟨t, ht, hq, hc⟩ hall
      have := hall t ht hq
      omega
    · intro hall
      by_contra hex
      apply hall
      intro t ht hq
      have h0 := hnn t ht
      by_contra hlt
      exact hex ⟨t, ht, hq, by omega⟩
  unfold dvb_table_fastswitch
  simp only [log]
  constructor
  · intro hi hall
    have hany : ¬ (s.tdmi_tables.any
      (fun t => decide (t.tdt_flags &&& TDT_QUICKREQ ≠ 0) && decide (t.tdt_count = 0))) = true :=
      fun h => hiff.1 h hall
    simp only [hi, hany, if_false]
    exact ⟨rfl, rfl⟩
  · rintro (hi | hall)
    · simp only [hi, if_true]
      exact ⟨trivial, trivial⟩
    · have hany := hiff.2 hall
      split
      · exact ⟨rfl, rfl⟩
      · simp only [hany, if_true]
        exact ⟨trivial, trivial⟩

/-- An accepted section: the call completes; `s2` and `ret` are what the decoder leaves
and returns, and the result is `s2` with the counter of the table incremented when
`ret = 0`, followed by the fast-completion check when the table is eligible. -/
theorem dvb_proc_table_accepted (env : Env) {s : State} {a : Nat} {t : th_dvb_table}
    (sec : List Nat) (r : Int) (hf : find_tdt s a = some t)
    (hcrc : ¬ (t.tdt_flags &&& TDT_CRC ≠ 0 ∧ env.psi_crc32 sec r ≠ 0))
    (hlen : ¬ section_length sec < r - 3) :
    ∃ s2 ret,
      run_callback env
        (log s (Event.callback a t.tdt_callback
          (if t.tdt_flags &&& TDT_INC_TABLE_HDR ≠ 0 then sec else sec.drop 3)
          (if t.tdt_flags &&& TDT_INC_TABLE_HDR ≠ 0 then
            (if t.tdt_flags &&& TDT_CRC ≠ 0 then section_length sec - 4 else section_length sec) + 3
           else (if t.tdt_flags &&& TDT_CRC ≠ 0 then section_length sec - 4 else section_length sec))
          (byte sec 0) t.tdt_opaque_p))
        t.tdt_callback (if t.tdt_flags &&& TDT_INC_TABLE_HDR ≠ 0 then sec else sec.drop 3)
        (if t.tdt_flags &&& TDT_INC_TABLE_HDR ≠ 0 then
          (if t.tdt_flags &&& TDT_CRC ≠ 0 then section_length sec - 4 else section_length sec) + 3
         else (if t.tdt_flags &&& TDT_CRC ≠ 0 then section_length sec - 4 else section_length sec))
        (byte sec 0) = some (s2, ret) ∧
      dvb_proc_table env s a sec r = some
        (if t.tdt_flags &&& TDT_QUICKREQ ≠ 0 then
          dvb_table_fastswitch (if ret = 0 then
            upd_tdt s2 a (fun u => { u with tdt_count := u.tdt_count + 1 }) else s2)
         else (if ret = 0 then
            upd_tdt s2 a (fun u => { u with tdt_count := u.tdt_count + 1 }) else s2)) := by
  obtain ⟨s2, ret, h2, _⟩ := run_callback_total env
    (log s (Event.callback a t.tdt_callback
      (if t.tdt_flags &&& TDT_INC_TABLE_HDR ≠ 0 then sec else sec.drop 3)
      (if t.tdt_flags &&& TDT_INC_TABLE_HDR ≠ 0 then
        (if t.tdt_flags &&& TDT_CRC ≠ 0 then section_length sec - 4 else section_length sec) + 3
       else (if t.tdt_flags &&& TDT_CRC ≠ 0 then section_length sec - 4 else section_length sec))
      (byte sec 0) t.tdt_opaque_p))
    t.tdt_callback (if t.tdt_flags &&& TDT_INC_TABLE_HDR ≠ 0 then sec else sec.drop 3)
    (if t.tdt_flags &&& TDT_INC_TABLE_HDR ≠ 0 then
        (if t.tdt_flags &&& TDT_CRC ≠ 0 then section_length sec - 4 else section_length sec) + 3
       else (if t.tdt_flags &&& TDT_CRC ≠ 0 then section_length sec - 4 else section_length sec))
    (byte sec 0)
  refine ⟨s2, ret, h2, ?_⟩
  unfold dvb_proc_table
  simp only [hf, hcrc, hlen, if_false]
  rw [h2]

theorem payload_spec_eq (flags : Nat) (sec : List Nat) :
    payload_spec (decide (flags &&& TDT_CRC ≠ 0)) (decide (flags &&& TDT_INC_TABLE_HDR ≠ 0)) sec
      = (if flags &&& TDT_INC_TABLE_HDR ≠ 0 then sec else sec.drop 3,
         if flags &&& TDT_INC_TABLE_HDR ≠ 0 then
           (if flags &&& TDT_CRC ≠ 0 then section_length sec - 4 else section_length sec) + 3
         else (if flags &&& TDT_CRC ≠ 0 then section_length sec - 4 else section_length sec)) := by
  unfold payload_spec
  by_cases h1 : flags &&& TDT_INC_TABLE_HDR ≠ 0 <;> by_cases h2 : flags &&& TDT_CRC ≠ 0 <;>
    simp [h1, h2]

theorem upd_addr (a : Nat) (g : th_dvb_table → th_dvb_table) (hg : ∀ u, (g u).addr = u.addr)
    (u : th_dvb_table) : (if u.addr = a then g u else u).addr = u.addr := by
  split
  · exact hg u
  · rfl

/-- C20: for a section accepted by `dvb_proc_table` (not rejected by the CRC test, declared
length not below the bytes available) on a stream satisfying the registry invariant, the
decoder is invoked exactly once, with table id `sec[0]` and the payload of `payload_spec`;
the call completes and the counter of the subscription grows by 1 if the decoder returns
0 and is unchanged otherwise. -/
theorem C20_decoder_payload (env : Env) (s : State) (a : Nat) (t : th_dvb_table)
    (sec : List Nat) (r : Int) (hI : Inv s) (hf : find_tdt s a = some t)
    (hcrc : ¬ (t.tdt_flags &&& TDT_CRC ≠ 0 ∧ env.psi_crc32 sec r ≠ 0))
    (hlen : ¬ section_length sec < r - 3) :
    ∃ s2 ret s1 t1,
      run_callback env
        (log s (Event.callback a t.tdt_callback
          (payload_spec (decide (t.tdt_flags &&& TDT_CRC ≠ 0))
            (decide (t.tdt_flags &&& TDT_INC_TABLE_HDR ≠ 0)) sec).1
          (payload_spec (decide (t.tdt_flags &&& TDT_CRC ≠ 0))
            (decide (t.tdt_flags &&& TDT_INC_TABLE_HDR ≠ 0)) sec).2
          (byte sec 0) t.tdt_opaque_p))
        t.tdt_callback
        (payload_spec (decide (t.tdt_flags &&& TDT_CRC ≠ 0))
          (decide (t.tdt_flags &&& TDT_INC_TABLE_HDR ≠ 0)) sec).1
        (payload_spec (decide (t.tdt_flags &&& TDT_CRC ≠ 0))
          (decide (t.tdt_flags &&& TDT_INC_TABLE_HDR ≠ 0)) sec).2
        (byte sec 0) = some (s2, ret) ∧
      dvb_proc_table env s a sec r = some s1 ∧
      callback_calls s1.trace = callback_calls s.trace ++
        [(a, t.tdt_callback,
          (payload_spec (decide (t.tdt_flags &&& TDT_CRC ≠ 0))
            (decide (t.tdt_flags &&& TDT_INC_TABLE_HDR ≠ 0)) sec).1,
          (payload_spec (decide (t.tdt_flags &&& TDT_CRC ≠ 0))
            (decide (t.tdt_flags &&& TDT_INC_TABLE_HDR ≠ 0)) sec).2,
          byte sec 0, t.tdt_opaque_p)] ∧
      find_tdt s1 a = some t1 ∧ t1.tdt_count = t.tdt_count + (if ret = 0 then 1 else 0) := by
  rw [payload_spec_eq]
  obtain ⟨s2, ret, h2, hp⟩ := dvb_proc_table_accepted env sec r hf hcrc hlen
  have hF := run_callback_Frame (show Inv (log s _) from hI) h2
  obtain ⟨t2, hf2, hs2⟩ := hF.live a t hf
  obtain ⟨_, ht2a⟩ := find_tdt_some hf2
  have hc2 : callback_calls s2.trace = callback_calls s.trace ++
      [(a, t.tdt_callback, (if t.tdt_flags &&& TDT_INC_TABLE_HDR ≠ 0 then sec else sec.drop 3),
        (if t.tdt_flags &&& TDT_INC_TABLE_HDR ≠ 0 then
          (if t.tdt_flags &&& TDT_CRC ≠ 0 then section_length sec - 4 else section_length sec) + 3
         else (if t.tdt_flags &&& TDT_CRC ≠ 0 then section_length sec - 4 else section_length sec)),
        byte sec 0, t.tdt_opaque_p)] := by
    rw [hF.calls]
    simp [log, callback_calls]
  -- the state after the counter update
  have h3 : ∃ t3, find_tdt (if ret = 0 then
        upd_tdt s2 a (fun u => { u with tdt_count := u.tdt_count + 1 }) else s2) a = some t3 ∧
      t3.tdt_count = t.tdt_count + (if ret = 0 then 1 else 0) ∧
      callback_calls (if ret = 0 then
        upd_tdt s2 a (fun u => { u with tdt_count := u.tdt_count + 1 }) else s2).trace
        = callback_calls s2.trace := by
    by_cases hr : ret = 0
    · simp only [hr, if_true]
      refine ⟨{ t2 with tdt_count := t2.tdt_count + 1 }, ?_, ?_, rfl⟩
      · rw [find_tdt_map (fun u => if u.addr = a then { u with tdt_count := u.tdt_count + 1 } else u)
          (upd_addr a _ (fun _ => rfl)) rfl a, hf2]
        simp [ht2a]
      · show t2.tdt_count + 1 = t.tdt_count + 1
        rw [hs2.2.2.2.2.2]
    · simp only [hr, if_false]
      exact ⟨t2, hf2, by rw [hs2.2.2.2.2.2]; simp, trivial⟩
  obtain ⟨t3, hf3, hcount, hc3⟩ := h3
  refine ⟨s2, ret, _, t3, h2, hp, ?_, ?_, hcount⟩
  · split
    · rw [(dvb_table_fastswitch_tables _).2, hc3, hc2]
    · rw [hc3, hc2]
  · split
    · unfold find_tdt at hf3 ⊢
      rw [(dvb_table_fastswitch_tables _).1]
      exact hf3
    · exact hf3

set_option maxRecDepth 100000 in
/-- C20 at the bound PAT subscription of `s_pat_cat` and the section `pat_section`
(CRC required, header not included): the decoder receives the 13 payload bytes. -/
theorem C20_decoder_payload_witness :
    ∃ s2 ret s1 t1,
      run_callback env0
        (log (s_pat_cat [dev_ok 6, dev_ok 7]) (Event.callback 100 Callback.dvb_pat_callback
          (payload_spec (decide (3 &&& TDT_CRC ≠ 0))
            (decide (3 &&& TDT_INC_TABLE_HDR ≠ 0)) pat_section).1
          (payload_spec (decide (3 &&& TDT_CRC ≠ 0))
            (decide (3 &&& TDT_INC_TABLE_HDR ≠ 0)) pat_section).2
          (byte pat_section 0) Opaque.null))
        Callback.dvb_pat_callback
        (payload_spec (decide (3 &&& TDT_CRC ≠ 0))
          (decide (3 &&& TDT_INC_TABLE_HDR ≠ 0)) pat_section).1
        (payload_spec (decide (3 &&& TDT_CRC ≠ 0))
          (decide (3 &&& TDT_INC_TABLE_HDR ≠ 0)) pat_section).2
        (byte pat_section 0) = some (s2, ret) ∧
      dvb_proc_table env0 (s_pat_cat [dev_ok 6, dev_ok 7]) 100 pat_section 20 = some s1 ∧
      callback_calls s1.trace = callback_calls (s_pat_cat [dev_ok 6, dev_ok 7]).trace ++
        [(100, Callback.dvb_pat_callback,
          (payload_spec (decide (3 &&& TDT_CRC ≠ 0))
            (decide (3 &&& TDT_INC_TABLE_HDR ≠ 0)) pat_section).1,
          (payload_spec (decide (3 &&& TDT_CRC ≠ 0))
            (decide (3 &&& TDT_INC_TABLE_HDR ≠ 0)) pat_section).2,
          byte pat_section 0, Opaque.null)] ∧
      find_tdt s1 100 = some t1 ∧ t1.tdt_count = 0 + (if ret = 0 then 1 else 0) :=
  C20_decoder_payload env0 (s_pat_cat [dev_ok 6, dev_ok 7]) 100
    { addr := 100, tdt_flags := 3, tdt_fd := 5, tdt_name := "pat",
      tdt_opaque_p := Opaque.null, tdt_callback := Callback.dvb_pat_callback,
      tdt_count := 0, tdt_pid := 0,
      tdt_fparams := { pid := 0, filter0 := 0, mask0 := 255, flags := 5 }, tdt_id := 1 }
    pat_section 20 (reachable_inv (s_pat_cat_reachable [dev_ok 6, dev_ok 7])) rfl
    (by decide) (by decide)

/-- C16: when `dvb_proc_table` has processed an accepted section for the subscription
`t` on a stream satisfying the registry invariant, with counters not negative: if `t` is
fast-completion-eligible and the scan flag was set, the flag is cleared and
`tda_initial_num_mux` decremented by 1 exactly when every eligible subscription of the
set then has a count of at least 1, and both are unchanged otherwise; if `t` is not
eligible or the flag was already clear, both are unchanged. -/
theorem C16_fast_completion (env : Env) (s : State) (a : Nat) (t : th_dvb_table)
    (sec : List Nat) (r : Int) (hI : Inv s) (hnn : ∀ u ∈ s.tdmi_tables, 0 ≤ u.tdt_count)
    (hf : find_tdt s a = some t)
    (hcrc : ¬ (t.tdt_flags &&& TDT_CRC ≠ 0 ∧ env.psi_crc32 sec r ≠ 0))
    (hlen : ¬ section_length sec < r - 3) :
    ∃ s1, dvb_proc_table env s a sec r = some s1 ∧
      (t.tdt_flags &&& TDT_QUICKREQ ≠ 0 → s.tdmi_table_initial ≠ 0 →
        (all_quick_received s1 →
          s1.tdmi_table_initial = 0 ∧ s1.tda_initial_num_mux = s.tda_initial_num_mux - 1) ∧
        (¬ all_quick_received s1 →
          s1.tdmi_table_initial = s.tdmi_table_initial ∧
          s1.tda_initial_num_mux = s.tda_initial_num_mux)) ∧
      (t.tdt_flags &&& TDT_QUICKREQ = 0 ∨ s.tdmi_table_initial = 0 →
        s1.tdmi_table_initial = s.tdmi_table_initial ∧
        s1.tda_initial_num_mux = s.tda_initial_num_mux) := by
  obtain ⟨s2, ret, h2, hp⟩ := dvb_proc_table_accepted env sec r hf hcrc hlen
  have hF := run_callback_Frame (show Inv (log s _) from hI) h2
  have hnn2 : ∀ u ∈ s2.tdmi_tables, 0 ≤ u.tdt_count := hF.nonneg hnn
  -- the state after the counter update
  have h3 : ∃ s3, s3 = (if ret = 0 then
        upd_tdt s2 a (fun u => { u with tdt_count := u.tdt_count + 1 }) else s2) ∧
      (∀ u ∈ s3.tdmi_tables, 0 ≤ u.tdt_count) ∧
      s3.tdmi_table_initial = s.tdmi_table_initial ∧
      s3.tda_initial_num_mux = s.tda_initial_num_mux := by
    refine ⟨_, rfl, ?_, ?_, ?_⟩
    · split
      · intro u hu
        simp only [upd_tdt] at hu
        obtain ⟨v, hv, rfl⟩ := List.mem_map.1 hu
        have := hnn2 v hv
        split
        · show 0 ≤ v.tdt_count + 1
          omega
        · exact this
      · exact hnn2
    · split
      · exact hF.initial
      · exact hF.initial
    · split
      · exact hF.num_mux
      · exact hF.num_mux
  obtain ⟨s3, hs3, hnn3, hi3, hn3⟩ := h3
  rw [← hs3] at hp
  refine ⟨_, hp, ?_, ?_⟩
  · intro hq hi
    have hq' : t.tdt_flags &&& TDT_QUICKREQ ≠ 0 := hq
    simp only [hq', if_true, ne_eq, not_false_eq_true]
    have hspec := dvb_table_fastswitch_spec s3 hnn3
    have hall : all_quick_received (dvb_table_fastswitch s3) ↔ all_quick_received s3 := by
      unfold all_quick_received
      rw [(dvb_table_fastswitch_tables s3).1]
    rw [hall, ← hi3, ← hn3]
    exact ⟨fun h => hspec.1 (by rw [hi3]; exact hi) h, fun h => hspec.2 (Or.inr h)⟩
  · rintro (hq | hi)
    · simp only [hq, ne_eq, not_true_eq_false, if_false]
      exact ⟨hi3, hn3⟩
    · split
      · rw [← hi3, ← hn3]
        exact (dvb_table_fastswitch_spec s3 hnn3).2 (Or.inl (by rw [hi3]; exact hi))
      · exact ⟨hi3, hn3⟩

theorem s_nit_reachable : Reachable env0 s_nit :=
  ⟨s_empty [dev_ok 5],
    [Op.tdt_add none Callback.dvb_nit_callback Opaque.null "nit" TDT_QUICKREQ 0x10],
    ⟨rfl, rfl⟩, rfl⟩

set_option maxRecDepth 100000 in
/-- C16 at the stream `s_nit` and the section `nit_section`, which the NIT decoder accepts
(it returns 0): the only eligible subscription receives its first section, so the flag is
cleared and the counter goes from 1 to 0. -/
theorem C16_fast_completion_witness :
    (dvb_nit_callback denv0 none (nit_section.drop 3) 9 0x40).map (fun r => r.1) = some 0 ∧
    (dvb_proc_table env0 s_nit 100 nit_section 12).map
        (fun s => (s.tdmi_table_initial, s.tda_initial_num_mux)) = some (0, 0) ∧
    ∃ s1, dvb_proc_table env0 s_nit 100 nit_section 12 = some s1 ∧
      (2 &&& TDT_QUICKREQ ≠ 0 → s_nit.tdmi_table_initial ≠ 0 →
        (all_quick_received s1 →
          s1.tdmi_table_initial = 0 ∧ s1.tda_initial_num_mux = s_nit.tda_initial_num_mux - 1) ∧
        (¬ all_quick_received s1 →
          s1.tdmi_table_initial = s_nit.tdmi_table_initial ∧
          s1.tda_initial_num_mux = s_nit.tda_initial_num_mux)) ∧
      (2 &&& TDT_QUICKREQ = 0 ∨ s_nit.tdmi_table_initial = 0 →
        s1.tdmi_table_initial = s_nit.tdmi_table_initial ∧
        s1.tda_initial_num_mux = s_nit.tda_initial_num_mux) :=
  ⟨by decide, by decide,
   C16_fast_completion env0 s_nit 100
    { addr := 100, tdt_flags := 2, tdt_fd := 5, tdt_name := "nit",
      tdt_opaque_p := Opaque.null, tdt_callback := Callback.dvb_nit_callback,
      tdt_count := 0, tdt_pid := 16,
      tdt_fparams := { pid := 16, filter0 := 0, mask0 := 0, flags := 4 }, tdt_id := 1 }
    nit_section 12 (reachable_inv s_nit_reachable) (by decide) rfl (by decide) (by decide)⟩

theorem tdt_add_fresh (env : Env) (s : State) (fp : Option dmx_sct_filter_params)
    (cb : Callback) (opq : Opaque) (name : String) (flags : Nat) (pid : Int)
    (L : List (Int × Nat × Callback)) (now : Int) (hs : s.tdmi_tables.map sub_sig = L)
    (hp : pid ∉ L.map Prod.fst) (hst : s.tdmi_table_start = now) :
    ∃ s1, tdt_add env s fp cb opq name flags pid none = some s1 ∧
      s1.tdmi_tables.map sub_sig = (pid, flags, cb) :: L ∧ s1.tdmi_table_start = now := by
  obtain ⟨s1, h⟩ := tdt_add_total env s fp cb opq name flags pid none
  obtain ⟨h1, h2⟩ := tdt_add_sig h
  have hm : pid ∉ s.tdmi_tables.map (fun t => t.tdt_pid) := by
    have : s.tdmi_tables.map (fun t => t.tdt_pid) = L.map Prod.fst := by
      rw [← hs, List.map_map]
      rfl
    rw [this]
    exact hp
  rw [if_neg hm, hs] at h1
  exact ⟨s1, h, h1, h2.trans hst⟩

/-- C17: on a stream with an empty subscription set `dvb_table_add_default` completes,
sets `tdmi_table_start` to the clock value and leaves the set holding, newest first,
eit (0x12), sdt (0x11), nit (0x10), cat (1), pat (0) for the adapter types FE_QPSK,
FE_OFDM and FE_QAM, and vct (0x1ffb), cat (1), pat (0) for FE_ATSC, one subscription per
pid; every one requires CRC and exactly pat, nit, sdt and vct are
fast-completion-eligible. -/
theorem C17_default_subscriptions (env : Env) (s : State) (tda_type : fe_type) (vsb_8 : Bool)
    (now : Int) (h0 : s.tdmi_tables = []) :
    ∃ s1, dvb_table_add_default env s tda_type vsb_8 now = some s1 ∧
      s1.tdmi_table_start = now ∧
      s1.tdmi_tables.map sub_sig =
        (if tda_type = fe_type.FE_ATSC then
          [(0x1ffb, TDT_QUICKREQ ||| TDT_CRC, Callback.atsc_vct_callback),
           (0x01, TDT_CRC, Callback.dvb_cat_callback),
           (0x00, TDT_QUICKREQ ||| TDT_CRC, Callback.dvb_pat_callback)]
         else
          [(0x12, TDT_CRC, Callback.dvb_eit_callback),
           (0x11, TDT_QUICKREQ ||| TDT_CRC, Callback.dvb_sdt_callback),
           (0x10, TDT_QUICKREQ ||| TDT_CRC, Callback.dvb_nit_callback),
           (0x01, TDT_CRC, Callback.dvb_cat_callback),
           (0x00, TDT_QUICKREQ ||| TDT_CRC, Callback.dvb_pat_callback)]) ∧
      (∀ t ∈ s1.tdmi_tables, t.tdt_flags &&& TDT_CRC ≠ 0) ∧
      (∀ t ∈ s1.tdmi_tables, (t.tdt_flags &&& TDT_QUICKREQ ≠ 0 ↔
        t.tdt_callback ∈ [Callback.dvb_pat_callback, Callback.dvb_nit_callback,
          Callback.dvb_sdt_callback, Callback.atsc_vct_callback])) := by
  have key : ∃ s1, dvb_table_add_default env s tda_type vsb_8 now = some s1 ∧
      s1.tdmi_table_start = now ∧
      s1.tdmi_tables.map sub_sig =
        (if tda_type = fe_type.FE_ATSC then
          [(0x1ffb, TDT_QUICKREQ ||| TDT_CRC, Callback.atsc_vct_callback),
           (0x01, TDT_CRC, Callback.dvb_cat_callback),
           (0x00, TDT_QUICKREQ ||| TDT_CRC, Callback.dvb_pat_callback)]
         else
          [(0x12, TDT_CRC, Callback.dvb_eit_callback),
           (0x11, TDT_QUICKREQ ||| TDT_CRC, Callback.dvb_sdt_callback),
           (0x10, TDT_QUICKREQ ||| TDT_CRC, Callback.dvb_nit_callback),
           (0x01, TDT_CRC, Callback.dvb_cat_callback),
           (0x00, TDT_QUICKREQ ||| TDT_CRC, Callback.dvb_pat_callback)]) := by
    unfold dvb_table_add_default
    simp only
    obtain ⟨sa, ha, hsa, hta⟩ := tdt_add_fresh env
      { s with tdmi_table_start := now }
      (some { dvb_fparams_alloc with filter0 := 0x00, mask0 := 0xff }) Callback.dvb_pat_callback
      Opaque.null "pat" (TDT_QUICKREQ ||| TDT_CRC) 0 [] now (by simp [h0]) (by simp) rfl
    rw [ha]
    simp only
    obtain ⟨sb, hb, hsb, htb⟩ := tdt_add_fresh env sa
      (some { dvb_fparams_alloc with filter0 := 0x1, mask0 := 0xff }) Callback.dvb_cat_callback
      Opaque.null "cat" TDT_CRC 1 _ now hsa (by decide) hta
    rw [hb]
    simp only
    have hdvb : ∃ s1, dvb_table_add_default_dvb env sb = some s1 ∧
        s1.tdmi_table_start = now ∧
        s1.tdmi_tables.map sub_sig =
          [(0x12, TDT_CRC, Callback.dvb_eit_callback),
           (0x11, TDT_QUICKREQ ||| TDT_CRC, Callback.dvb_sdt_callback),
           (0x10, TDT_QUICKREQ ||| TDT_CRC, Callback.dvb_nit_callback),
           (0x01, TDT_CRC, Callback.dvb_cat_callback),
           (0x00, TDT_QUICKREQ ||| TDT_CRC, Callback.dvb_pat_callback)] := by
      unfold dvb_table_add_default_dvb
      simp only
      obtain ⟨sc, hc, hsc, htc⟩ := tdt_add_fresh env sb
        (some { dvb_fparams_alloc with filter0 := 0x40, mask0 := 0xff }) Callback.dvb_nit_callback
        Opaque.null "nit" (TDT_QUICKREQ ||| TDT_CRC) 0x10 _ now hsb (by decide) htb
      rw [hc]
      simp only
      obtain ⟨sd, hd, hsd, htd⟩ := tdt_add_fresh env sc
        (some { dvb_fparams_alloc with filter0 := 0x42, mask0 := 0xff }) Callback.dvb_sdt_callback
        Opaque.null "sdt" (TDT_QUICKREQ ||| TDT_CRC) 0x11 _ now hsc (by decide) htc
      rw [hd]
      simp only
      obtain ⟨se, he, hse, hte⟩ := tdt_add_fresh env sd
        (some dvb_fparams_alloc) Callback.dvb_eit_callback
        Opaque.null "eit" TDT_CRC 0x12 _ now hsd (by decide) htd
      exact ⟨se, he, hte, hse⟩
    cases tda_type with
    | FE_QPSK => simpa using hdvb
    | FE_OFDM => simpa using hdvb
    | FE_QAM => simpa using hdvb
    | FE_ATSC =>
      simp only [if_true]
      unfold dvb_table_add_default_atsc
      obtain ⟨sc, hc, hsc, htc⟩ := tdt_add_fresh env sb
        (some { dvb_fparams_alloc with filter0 := (if vsb_8 then 0xc8 else 0xc9), mask0 := 0xff })
        Callback.atsc_vct_callback
        Opaque.null "vct" (TDT_QUICKREQ ||| TDT_CRC) 0x1ffb _ now hsb (by decide) htb
      exact ⟨sc, hc, htc, hsc⟩
  obtain ⟨s1, h1, hst, hsig⟩ := key
  refine ⟨s1, h1, hst, hsig, ?_, ?_⟩
  · intro t ht
    have hm : sub_sig t ∈ s1.tdmi_tables.map sub_sig := List.mem_map.2 ⟨t, ht, rfl⟩
    rw [hsig] at hm
    have hfl : t.tdt_flags = (sub_sig t).2.1 := rfl
    rw [hfl]
    split at hm
    · simp only [List.mem_cons, List.mem_singleton, List.not_mem_nil, or_false] at hm
      rcases hm with h | h | h <;> rw [h] <;> decide
    · simp only [List.mem_cons, List.mem_singleton, List.not_mem_nil, or_false] at hm
      rcases hm with h | h | h | h | h <;> rw [h] <;> decide
  · intro t ht
    have hm : sub_sig t ∈ s1.tdmi_tables.map sub_sig := List.mem_map.2 ⟨t, ht, rfl⟩
    rw [hsig] at hm
    have hfl : t.tdt_flags = (sub_sig t).2.1 := rfl
    have hcb : t.tdt_callback = (sub_sig t).2.2 := rfl
    rw [hfl, hcb]
    split at hm
    · simp only [List.mem_cons, List.mem_singleton, List.not_mem_nil, or_false] at hm
      rcases hm with h | h | h <;> rw [h] <;> decide
    · simp only [List.mem_cons, List.mem_singleton, List.not_mem_nil, or_false] at hm
      rcases hm with h | h | h | h | h <;> rw [h] <;> decide

/-- C17 at an empty stream on a cable adapter (FE_QAM) with two filters available. -/
theorem C17_default_subscriptions_witness :
    ∃ s1, dvb_table_add_default env0 (s_empty [dev_ok 5, dev_ok 6]) fe_type.FE_QAM false 777
        = some s1 ∧
      s1.tdmi_table_start = 777 ∧
      s1.tdmi_tables.map sub_sig =
        (if fe_type.FE_QAM = fe_type.FE_ATSC then
          [(0x1ffb, TDT_QUICKREQ ||| TDT_CRC, Callback.atsc_vct_callback),
           (0x01, TDT_CRC, Callback.dvb_cat_callback),
           (0x00, TDT_QUICKREQ ||| TDT_CRC, Callback.dvb_pat_callback)]
         else
          [(0x12, TDT_CRC, Callback.dvb_eit_callback),
           (0x11, TDT_QUICKREQ ||| TDT_CRC, Callback.dvb_sdt_callback),
           (0x10, TDT_QUICKREQ ||| TDT_CRC, Callback.dvb_nit_callback),
           (0x01, TDT_CRC, Callback.dvb_cat_callback),
           (0x00, TDT_QUICKREQ ||| TDT_CRC, Callback.dvb_pat_callback)]) ∧
      (∀ t ∈ s1.tdmi_tables, t.tdt_flags &&& TDT_CRC ≠ 0) ∧
      (∀ t ∈ s1.tdmi_tables, (t.tdt_flags &&& TDT_QUICKREQ ≠ 0 ↔
        t.tdt_callback ∈ [Callback.dvb_pat_callback, Callback.dvb_nit_callback,
          Callback.dvb_sdt_callback, Callback.atsc_vct_callback])) :=
  C17_default_subscriptions env0 (s_empty [dev_ok 5, dev_ok 6]) fe_type.FE_QAM false 777 rfl

theorem close_events_no_open (l : List th_dvb_table) (a : Nat) :
    Event.tdt_open_fd a ∉ close_events l := by
  induction l with
  | nil => simp [close_events]
  | cons t l ih =>
    simp only [close_events]
    split
    · exact ih
    · simp [ih]

/-- The loop of `dvb_table_flush_all` on a state satisfying the registry invariant. -/
theorem flush_loop_spec : ∀ (fuel : Nat) (s : State), Inv s → s.tdmi_tables.length < fuel →
    ∃ s1, flush_loop fuel s = some s1 ∧ s1.tdmi_tables = [] ∧ s1.tdmi_table_queue = [] ∧
      s1.trace = s.trace ++ close_events s.tdmi_tables ∧ s1.dev = s.dev ∧
      s1.tdt_id_tally = s.tdt_id_tally := by
  intro fuel
  induction fuel with
  | zero => intro s _ h; omega
  | succ n ih =>
    intro s hI hlen
    cases hl : s.tdmi_tables with
    | nil =>
      refine ⟨s, ?_, hl, ?_, ?_, rfl, rfl⟩
      · simp [flush_loop, hl]
      · cases hq : s.tdmi_table_queue with
        | nil => rfl
        | cons b q =>
          obtain ⟨t, ht, _⟩ := hI.queue_sub b (by rw [hq]; exact List.mem_cons_self _ _)
          rw [hl] at ht
          simp at ht
      · simp [close_events]
    | cons t l =>
      have hnd := hI.addr_nodup
      rw [hl, List.map_cons, List.nodup_cons] at hnd
      have hne : ∀ u ∈ l, u.addr ≠ t.addr := by
        intro u hu h
        exact hnd.1 (List.mem_map.2 ⟨u, hu, h⟩)
      have hfind : find_tdt s t.addr = some t := by
        unfold find_tdt
        rw [hl]
        simp
      have hfilter : (t :: l).filter (fun u => u.addr != t.addr) = l := by
        rw [List.filter_cons_of_neg (by simp)]
        apply List.filter_eq_self.2
        intro u hu
        simpa using hne u hu
      -- one call of dvb_tdt_destroy
      have hd : ∃ s2, dvb_tdt_destroy s t.addr = some s2 ∧ s2.tdmi_tables = l ∧
          s2.trace = s.trace ++ (if t.tdt_fd = -1 then []
            else [Event.epoll_del t.tdt_fd, Event.close t.tdt_fd]) ∧
          s2.dev = s.dev ∧ s2.tdt_id_tally = s.tdt_id_tally := by
        unfold dvb_tdt_destroy
        simp only [hfind]
        by_cases hfd : t.tdt_fd = -1
        · simp only [hfd, if_true]
          refine ⟨_, rfl, ?_, by simp, rfl, rfl⟩
          show s.tdmi_tables.filter (fun u => u.addr != t.addr) = l
          rw [hl]
          exact hfilter
        · simp only [hfd, if_false]
          refine ⟨_, rfl, ?_, by simp [log], rfl, rfl⟩
          show s.tdmi_tables.filter (fun u => u.addr != t.addr) = l
          rw [hl]
          exact hfilter
      obtain ⟨s2, hd2, ht2, htr2, hdev2, htal2⟩ := hd
      have hI2 : Inv s2 := dvb_tdt_destroy_inv hI hd2
      have hlen2 : s2.tdmi_tables.length < n := by
        rw [ht2]
        rw [hl] at hlen
        simp only [List.length_cons] at hlen
        omega
      obtain ⟨s1, h1, hT, hQ, hTr, hDev, hTal⟩ := ih s2 hI2 hlen2
      refine ⟨s1, ?_, hT, hQ, ?_, hDev.trans hdev2, hTal.trans htal2⟩
      · simp only [flush_loop, hl, hd2]
        exact h1
      · rw [hTr, htr2, ht2]
        simp only [close_events]
        split <;> simp

/-- C18: on a stream satisfying the registry invariant `dvb_table_flush_all` completes and
leaves the subscription set and the pending queue empty; the calls it makes are, for each
bound subscription of the set in order, one `epoll_ctl(DEL)` and one `close` of its
descriptor; no `tdt_open_fd` takes place and no device answer is consumed. -/
theorem C18_flush_all (s : State) (hI : Inv s) :
    ∃ s1, dvb_table_flush_all s = some s1 ∧ s1.tdmi_tables = [] ∧ s1.tdmi_table_queue = [] ∧
      s1.trace = s.trace ++ close_events s.tdmi_tables ∧
      (∀ a, Event.tdt_open_fd a ∉ s1.trace.drop s.trace.length) ∧
      s1.dev = s.dev ∧ s1.tdt_id_tally = s.tdt_id_tally := by
  obtain ⟨s1, h1, hT, hQ, hTr, hDev, hTal⟩ :=
    flush_loop_spec (s.tdmi_tables.length + 1) s hI (Nat.lt_succ_self _)
  refine ⟨s1, h1, hT, hQ, hTr, ?_, hDev, hTal⟩
  intro a
  rw [hTr, List.drop_left]
  exact close_events_no_open _ a

/-- C18 at the stream `s_pat_cat []`: PAT bound to descriptor 5, CAT pending. -/
theorem C18_flush_all_witness :
    ∃ s1, dvb_table_flush_all (s_pat_cat []) = some s1 ∧ s1.tdmi_tables = [] ∧
      s1.tdmi_table_queue = [] ∧
      s1.trace = (s_pat_cat []).trace ++ close_events (s_pat_cat []).tdmi_tables ∧
      (∀ a, Event.tdt_open_fd a ∉ s1.trace.drop (s_pat_cat []).trace.length) ∧
      s1.dev = (s_pat_cat []).dev ∧ s1.tdt_id_tally = (s_pat_cat []).tdt_id_tally :=
  C18_flush_all (s_pat_cat []) (reachable_inv (s_pat_cat_reachable []))

/-! ## The decoders of the services, the programme guide and the network -/

theorem char_val_unsigned (c : Nat) (h : c ≤ 255) : char_val false c = (c : Int) := by
  unfold char_val
  simp only [Bool.false_eq_true, false_and, if_false]
  rw [Nat.mod_eq_of_lt (by omega)]

theorem char_val_ws (sgn : Bool) (c : Nat) (h : c ≤ 32) : char_val sgn c = (c : Int) := by
  unfold char_val
  have h1 : c % 256 = c := Nat.mod_eq_of_lt (by omega)
  rw [h1, if_neg (by omega)]

theorem sdt_skip_heading_ws (sgn : Bool) (name : List Nat)
    (h : ∀ c ∈ name, 1 ≤ c ∧ c ≤ 32) : sdt_skip_heading sgn name = [] := by
  induction name with
  | nil => rfl
  | cons c cs ih =>
    have hc := h c (List.mem_cons_self _ _)
    have h1 : c % 256 = c := Nat.mod_eq_of_lt (by omega)
    rw [sdt_skip_heading, if_pos, ih (fun d hd => h d (List.mem_cons_of_mem _ hd))]
    rw [char_val_ws sgn c hc.2, h1]
    omega

theorem sdt_service_name_ws (sgn : Bool) (name : List Nat) (sid : Nat)
    (h : ∀ c ∈ name, 1 ≤ c ∧ c ≤ 32) : sdt_service_name sgn name sid = sdt_noname sid := by
  unfold sdt_service_name
  rw [sdt_skip_heading_ws sgn name h]
  rfl

theorem sdt_skip_heading_unsigned (name : List Nat) (hb : ∀ c ∈ name, 1 ≤ c ∧ c ≤ 255) :
    sdt_skip_heading false name = name.dropWhile (fun c => decide (c ≤ 32)) := by
  induction name with
  | nil => rfl
  | cons c cs ih =>
    have hc := hb c (List.mem_cons_self _ _)
    have h1 : c % 256 = c := Nat.mod_eq_of_lt (by omega)
    rw [sdt_skip_heading, char_val_unsigned c hc.2, h1, List.dropWhile_cons]
    by_cases h : c ≤ 32
    · rw [if_pos (by omega), ih (fun d hd => hb d (List.mem_cons_of_mem _ hd))]
      simp [h]
    · rw [if_neg (by omega)]
      simp [h]

theorem sdt_trim_trailing_unsigned (m : List Nat) (hb : ∀ c ∈ m, 1 ≤ c ∧ c ≤ 255)
    (hhead : 32 < m.getD 0 0) (l : Nat) (hl : l + 1 ≤ m.length) :
    1 ≤ sdt_trim_trailing false m (l + 1) ∧
    m.take (sdt_trim_trailing false m (l + 1)) =
      (m.take (l + 1)).rdropWhile (fun c => decide (c ≤ 32)) := by
  induction l with
  | zero =>
    rw [sdt_trim_trailing, if_neg (by omega)]
    refine ⟨le_refl _, ?_⟩
    cases m with
    | nil => simp at hl
    | cons c cs =>
      simp only [List.getD_cons_zero] at hhead
      simp [List.rdropWhile, hhead]
  | succ l ih =>
    have hlt : l + 1 < m.length := by omega
    have hmem : m.getD (l + 1) 0 ∈ m := by
      rw [List.getD_eq_getElem _ _ hlt]; exact List.getElem_mem _
    have hc := hb _ hmem
    have htake : m.take (l + 1 + 1) = m.take (l + 1) ++ [m.getD (l + 1) 0] := by
      rw [List.getD_eq_getElem _ _ hlt, List.take_succ, List.getElem?_eq_getElem hlt]
      rfl
    rw [sdt_trim_trailing, char_val_unsigned _ hc.2, htake]
    by_cases h : m.getD (l + 1) 0 ≤ 32
    · rw [if_pos ⟨by omega, by exact_mod_cast h⟩, List.rdropWhile_concat_pos _ _ _ (by simpa using h)]
      exact ih (by omega)
    · rw [if_neg (by intro hh; exact h (by exact_mod_cast hh.2)),
        List.rdropWhile_concat_neg _ _ _ (by simpa using h), ← htake]
      exact ⟨by omega, rfl⟩

/-- With an unsigned plain `char` the name kept for a service is the decoded name without
its longest prefix and longest suffix of bytes 1..32, whenever it has another byte. -/
theorem sdt_service_name_unsigned (name : List Nat) (sid : Nat)
    (hb : ∀ c ∈ name, 1 ≤ c ∧ c ≤ 255) (hne : ∃ c ∈ name, 32 < c) :
    sdt_service_name false name sid =
      (name.dropWhile (fun c => decide (c ≤ 32))).rdropWhile (fun c => decide (c ≤ 32)) := by
  unfold sdt_service_name
  rw [sdt_skip_heading_unsigned name hb]
  generalize hm : name.dropWhile (fun c => decide (c ≤ 32)) = m
  have hsub : ∀ c ∈ m, c ∈ name := fun c hc => by
    rw [← hm] at hc; exact (List.dropWhile_sublist _).subset hc
  cases hmc : m with
  | nil =>
    exfalso
    obtain ⟨c, hc, h32⟩ := hne
    rw [hmc, List.dropWhile_eq_nil_iff] at hm
    have := hm c hc
    simp at this
    omega
  | cons c cs =>
    have hhead : 32 < (c :: cs).getD 0 0 := by
      have h := List.head_dropWhile_not (fun c => decide (c ≤ 32)) name
        (by rw [hm, hmc]; simp)
      simp only [hm, hmc, List.head_cons] at h
      simp only [List.getD_cons_zero]
      simpa using h
    have h := sdt_trim_trailing_unsigned (c :: cs)
      (fun d hd => hb d (hsub d (hmc ▸ hd))) hhead cs.length (by simp)
    have hlen : (c :: cs).length = cs.length + 1 := rfl
    simp only [hlen]
    rw [if_neg (by omega), h.2, ← hlen, List.take_length]

/-- C11: when the display name decoded from a service descriptor is empty or has
only bytes in 1..32, the name of lines 645-660 is "noname-sid-0x" followed by the service
id in lower-case hexadecimal without leading zeros, whatever the signedness of `char`;
and for a service the stream knows, that placeholder is the name compared with the
stored one and, on a difference, stored and saved. -/
theorem C11_noname_placeholder (D : DecEnv) (buf : List Nat) (off dlen sid fca : Nat)
    (services : List th_transport) (lg : List Effect) (stype : Nat)
    (provider name : List Nat) (i : Nat) (t : th_transport)
    (hname : ∀ c ∈ name, 1 ≤ c ∧ c ≤ 32)
    (hdesc : dvb_desc_service D buf off dlen = some (stype, provider, name))
    (hfind : sdt_transport_find services sid = some i)
    (hget : services.get? i = some t) :
    sdt_service_name D.char_signed name sid =
      "noname-sid-0x".toList.map Char.toNat ++ (Nat.toDigits 16 sid).map Char.toNat ∧
    sdt_service D buf off dlen sid fca services lg =
      if t.tht_servicetype ≠ stype ∨ t.tht_scrambled ≠ fca ∨
          t.tht_provider.getD [] ≠ provider ∨ t.tht_svcname.getD [] ≠ sdt_noname sid then
        (services.set i { t with tht_servicetype := stype, tht_scrambled := fca,
                                 tht_provider := some provider,
                                 tht_svcname := some (sdt_noname sid) },
          lg ++ [Effect.parse off dlen] ++ [Effect.config_save sid])
      else (services, lg ++ [Effect.parse off dlen]) := by
  have h := sdt_service_name_ws D.char_signed name sid hname
  refine ⟨h, ?_⟩
  unfold sdt_service
  simp only [hdesc, hfind, hget, h]

set_option maxRecDepth 100000 in
/-- C11 at the payload `sdt_pl [32, 32, 32]` (display name of three spaces, service 0x1f): the
service descriptor is at offset 15, and the run of `dvb_sdt_callback` stores
"noname-sid-0x1f". -/
theorem C11_noname_placeholder_witness :
    (sdt_service_name denv0.char_signed [32, 32, 32] 0x1f = "noname-sid-0x1f".toList.map Char.toNat ∧
     sdt_service denv0 (sdt_pl [32, 32, 32]) 15 6 0x1f 0 sdt_services0 [] =
      (sdt_services1 ("noname-sid-0x1f".toList.map Char.toNat),
       [Effect.parse 15 6, Effect.config_save 0x1f])) ∧
    dvb_sdt_callback denv0 sdt_services0 (sdt_pl [32, 32, 32]) 21 =
      some (0, sdt_services1 ("noname-sid-0x1f".toList.map Char.toNat),
        [Effect.read 0 8, Effect.read 8 5, Effect.read 13 2, Effect.parse 15 6,
         Effect.config_save 0x1f]) :=
  ⟨C11_noname_placeholder denv0 (sdt_pl [32, 32, 32]) 15 6 0x1f 0 sdt_services0 [] 1 []
      [32, 32, 32] 0 sdt_service0 (by decide) (by decide) (by decide) (by decide),
   by decide⟩

set_option maxRecDepth 100000 in
/-- C12 (evaluation at the failing input): the display name C3 96 52 46 ("ÖRF" in
UTF-8) has no byte in 1..32, yet with plain `char` signed the comparisons
`*chname <= 32` see the bytes C3 and 96 as negative and skip them: the name stored for
service 0x1f is 52 46 ("RF"). A trailing byte of that kind goes the same way (52 C3 96
gives 52). With plain `char` unsigned the name is kept. -/
theorem C12_name_trimming_signed_char :
    dvb_sdt_callback denv0 sdt_services0 (sdt_pl [0xc3, 0x96, 0x52, 0x46]) 22 =
      some (0, sdt_services1 [0x52, 0x46],
        [Effect.read 0 8, Effect.read 8 5, Effect.read 13 2, Effect.parse 15 7,
         Effect.config_save 0x1f]) ∧
    sdt_service_name true [0xc3, 0x96, 0x52, 0x46] 0x1f = [0x52, 0x46] ∧
    sdt_service_name true [0x52, 0xc3, 0x96] 0x1f = [0x52] ∧
    sdt_service_name false [0xc3, 0x96, 0x52, 0x46] 0x1f = [0xc3, 0x96, 0x52, 0x46] := by
  decide

theorem eit_desc_loop_total (D : DecEnv) (buf : List Nat) (e : Nat) (fuel : Nat) :
    ∀ (off : Nat) (len dllen : Int) (lg : List Effect), dllen.toNat < fuel →
      ∃ off1 len1 lg1, eit_desc_loop D buf e fuel off len dllen lg = some (off1, len1, lg1) ∧
        len1 ≤ len ∧ lg <+: lg1 := by
  induction fuel with
  | zero => intro off len dllen lg h; omega
  | succ fuel ih =>
    intro off len dllen lg h
    rw [eit_desc_loop]
    by_cases hd : dllen > 0
    · simp only [hd, if_true]
      by_cases hb : (byte buf (off + 1) : Int) > len - 2
      · simp only [hb, if_true]
        exact ⟨_, _, _, rfl, by omega, List.prefix_append _ _⟩
      · simp only [hb, if_false]
        obtain ⟨off1, len1, lg1, h1, h2, h3⟩ := ih (off + 2 + byte buf (off + 1))
          (len - 2 - (byte buf (off + 1) : Int)) (dllen - 2 - (byte buf (off + 1) : Int))
          (if byte buf off = D.DVB_DESC_SHORT_EVENT then
            match dvb_desc_short_event D buf (off + 2) (byte buf (off + 1)) with
            | some (title, desc) =>
              lg ++ [Effect.read off 2] ++ [Effect.parse (off + 2) (byte buf (off + 1))] ++
                [Effect.epg_event_set_title e title, Effect.epg_event_set_desc e desc]
            | none => lg ++ [Effect.read off 2] ++ [Effect.parse (off + 2) (byte buf (off + 1))]
          else if byte buf off = D.DVB_DESC_CONTENT then
            if byte buf (off + 1) ≥ 2 then
              lg ++ [Effect.read off 2] ++ [Effect.read (off + 2) 1,
                Effect.epg_event_set_content_type e
                  (D.epg_content_type_find_by_dvbcode (byte buf (off + 2)))]
            else lg ++ [Effect.read off 2]
          else lg ++ [Effect.read off 2]) (by omega)
        refine ⟨off1, len1, lg1, h1, by omega, List.IsPrefix.trans ?_ h3⟩
        split
        · split <;> simp only [List.append_assoc] <;> exact List.prefix_append _ _
        · split
          · split
            · simp only [List.append_assoc]; exact List.prefix_append _ _
            · exact List.prefix_append _ _
          · exact List.prefix_append _ _
    · simp only [hd, if_false]
      exact ⟨_, _, _, rfl, le_refl _, List.prefix_refl _⟩

theorem eit_loop_total (D : DecEnv) (buf : List Nat) (ch : Nat) (fuel : Nat) :
    ∀ (off : Nat) (len : Int) (lg : List Effect), len.toNat < fuel →
      ∃ lg1, eit_loop D buf ch fuel off len lg = some lg1 ∧ lg <+: lg1 := by
  induction fuel with
  | zero => intro off len lg h; omega
  | succ fuel ih =>
    intro off len lg h
    rw [eit_loop]
    by_cases hl : len ≥ 12
    · simp only [hl, if_true]
      by_cases hb : eit_dllen buf off > len - 12
      · simp only [hb, if_true]
        exact ⟨_, rfl, List.prefix_append _ _⟩
      · simp only [hb, if_false]
        have hd0 : 0 ≤ eit_dllen buf off := by unfold eit_dllen; exact Int.ofNat_nonneg _
        by_cases hp : eit_start_time D buf off + eit_duration buf off < D.dispatch_clock
        · simp only [hp, if_true]
          obtain ⟨lg1, h1, h2⟩ := ih (off + 12 + (eit_dllen buf off).toNat)
            (len - 12 - eit_dllen buf off) (lg ++ [Effect.read off 12]) (by omega)
          exact ⟨lg1, h1, (List.prefix_append _ _).trans h2⟩
        · simp only [hp, if_false]
          cases hc : D.epg_event_create
              (lg ++ [Effect.read off 12] ++ [Effect.epg_event_create ch (eit_start_time D buf off)
                (eit_start_time D buf off + eit_duration buf off) (be16 buf off)]) ch
              (eit_start_time D buf off) (eit_start_time D buf off + eit_duration buf off)
              (be16 buf off) with
          | none =>
            obtain ⟨lg1, h1, h2⟩ := ih (off + 12 + (eit_dllen buf off).toNat)
              (len - 12 - eit_dllen buf off) (lg ++ [Effect.read off 12] ++
                [Effect.epg_event_create ch (eit_start_time D buf off)
                  (eit_start_time D buf off + eit_duration buf off) (be16 buf off)]) (by omega)
            refine ⟨lg1, h1, List.IsPrefix.trans ?_ h2⟩
            simp only [List.append_assoc]; exact List.prefix_append _ _
          | some ev =>
            obtain ⟨off1, len1, lg1, h1, h2, h3⟩ := eit_desc_loop_total D buf ev
              ((eit_dllen buf off).toNat + 1) (off + 12) (len - 12) (eit_dllen buf off)
              (lg ++ [Effect.read off 12] ++ [Effect.epg_event_create ch (eit_start_time D buf off)
                (eit_start_time D buf off + eit_duration buf off) (be16 buf off)]) (by omega)
            simp only [h1]
            obtain ⟨lg2, h4, h5⟩ := ih off1 len1 lg1 (by omega)
            refine ⟨lg2, h4, List.IsPrefix.trans ?_ (h3.trans h5)⟩
            simp only [List.append_assoc]; exact List.prefix_append _ _
    · simp only [hl, if_false]
      exact ⟨_, rfl, List.prefix_refl _⟩

/-- The Event Information decoder returns on every payload, length and table id. -/
theorem dvb_eit_callback_total (D : DecEnv) (buf : List Nat) (len : Int) (tableid : Nat) :
    ∃ ret lg, dvb_eit_callback D buf len tableid = some (ret, lg) := by
  unfold dvb_eit_callback
  split
  · exact ⟨_, _, rfl⟩
  · simp only []
    split
    · exact ⟨_, _, rfl⟩
    · split
      · exact ⟨_, _, rfl⟩
      · split
        · exact ⟨_, _, rfl⟩
        · split
          · exact ⟨_, _, rfl⟩
          · rename_i ch _
            obtain ⟨lg1, h1, _⟩ := eit_loop_total D buf ch ((len - 11).toNat + 1) 11 (len - 11)
              [Effect.read 0 11] (by omega)
            simp only [h1]
            exact ⟨_, _, rfl⟩

set_option maxRecDepth 100000 in
theorem bcdtoint_byte : ∀ i < 256, bcdtoint i = (((i / 16) * 10 + i % 16 : Nat) : Int) := by
  decide

theorem bcdtoint_le (i : Nat) (h : i < 256) : 0 ≤ bcdtoint i ∧ bcdtoint i ≤ 165 := by
  rw [bcdtoint_byte i h]
  have h1 : i / 16 ≤ 15 := by omega
  have h2 : i % 16 ≤ 15 := by omega
  constructor
  · exact Int.ofNat_nonneg _
  · have : (i / 16) * 10 + i % 16 ≤ 165 := by omega
    exact_mod_cast this

theorem int32_id (x : Int) (h1 : -2147483648 ≤ x) (h2 : x < 2147483648) : int32 x = x := by
  unfold int32
  omega

theorem and_0xff_byte (b : Nat) (h : b < 256) : b &&& 0xff = b := by
  have := Nat.and_pow_two_sub_one_eq_mod b 8
  norm_num at this
  rw [this]; omega

theorem eit_duration_eq (buf : List Nat) (off : Nat) :
    eit_duration buf off = bcdtoint (byte buf (off + 7)) * 3600 +
      bcdtoint (byte buf (off + 8)) * 60 + bcdtoint (byte buf (off + 9)) := by
  unfold eit_duration add32 mul32
  rw [and_0xff_byte _ (byte_lt _ _), and_0xff_byte _ (byte_lt _ _),
    and_0xff_byte _ (byte_lt _ _)]
  have h7 := bcdtoint_le _ (byte_lt buf (off + 7))
  have h8 := bcdtoint_le _ (byte_lt buf (off + 8))
  have h9 := bcdtoint_le _ (byte_lt buf (off + 9))
  rw [int32_id (bcdtoint (byte buf (off + 7)) * 3600) (by omega) (by omega),
    int32_id (bcdtoint (byte buf (off + 8)) * 60) (by omega) (by omega),
    int32_id (bcdtoint (byte buf (off + 7)) * 3600 + bcdtoint (byte buf (off + 8)) * 60)
      (by omega) (by omega),
    int32_id _ (by omega) (by omega)]

/-- C13: at an event entry of an accepted Event Information payload (at least 12
bytes left, descriptor loop length within the rest), the duration is
hours * 3600 + minutes * 60 + seconds of the BCD bytes 7..9; when start + duration is
before `dispatch_clock` the loop goes on at the entry after the descriptor loop having
asked for nothing (the entry adds only its own read to what was done); otherwise
`epg_event_create` is asked for with the start and stop times and the event id; in both
cases the loop completes. -/
theorem C13_past_events_skipped (D : DecEnv) (buf : List Nat) (ch fuel off : Nat) (len : Int)
    (lg : List Effect) (hlen : 12 ≤ len) (hfit : eit_dllen buf off ≤ len - 12)
    (hfuel : len.toNat < fuel + 1) :
    eit_duration buf off = bcdtoint (byte buf (off + 7)) * 3600 +
      bcdtoint (byte buf (off + 8)) * 60 + bcdtoint (byte buf (off + 9)) ∧
    (eit_start_time D buf off + eit_duration buf off < D.dispatch_clock →
      ∃ lg1, eit_loop D buf ch (fuel + 1) off len lg = some lg1 ∧
        eit_loop D buf ch fuel (off + 12 + (eit_dllen buf off).toNat)
          (len - 12 - eit_dllen buf off) (lg ++ [Effect.read off 12]) = some lg1) ∧
    (D.dispatch_clock ≤ eit_start_time D buf off + eit_duration buf off →
      ∃ lg1, eit_loop D buf ch (fuel + 1) off len lg = some lg1 ∧
        (lg ++ [Effect.read off 12, Effect.epg_event_create ch (eit_start_time D buf off)
          (eit_start_time D buf off + eit_duration buf off) (be16 buf off)]) <+: lg1) := by
  have hd0 : 0 ≤ eit_dllen buf off := by unfold eit_dllen; exact Int.ofNat_nonneg _
  have hb : ¬ eit_dllen buf off > len - 12 := by omega
  refine ⟨eit_duration_eq buf off, ?_, ?_⟩
  · intro hp
    obtain ⟨lg1, h1, _⟩ := eit_loop_total D buf ch fuel (off + 12 + (eit_dllen buf off).toNat)
      (len - 12 - eit_dllen buf off) (lg ++ [Effect.read off 12]) (by omega)
    refine ⟨lg1, ?_, h1⟩
    rw [eit_loop]
    simp only [ge_iff_le, hlen, if_true, hb, if_false, hp]
    exact h1
  · intro hp
    have hp1 : ¬ eit_start_time D buf off + eit_duration buf off < D.dispatch_clock := by omega
    rw [eit_loop]
    simp only [ge_iff_le, hlen, if_true, hb, if_false, hp1]
    cases hc : D.epg_event_create
        (lg ++ [Effect.read off 12] ++ [Effect.epg_event_create ch (eit_start_time D buf off)
          (eit_start_time D buf off + eit_duration buf off) (be16 buf off)]) ch
        (eit_start_time D buf off) (eit_start_time D buf off + eit_duration buf off)
        (be16 buf off) with
    | none =>
      obtain ⟨lg1, h1, h2⟩ := eit_loop_total D buf ch fuel (off + 12 + (eit_dllen buf off).toNat)
        (len - 12 - eit_dllen buf off) (lg ++ [Effect.read off 12] ++
          [Effect.epg_event_create ch (eit_start_time D buf off)
            (eit_start_time D buf off + eit_duration buf off) (be16 buf off)]) (by omega)
      refine ⟨lg1, h1, ?_⟩
      simpa only [List.append_assoc, List.singleton_append] using h2
    | some ev =>
      obtain ⟨off1, len1, lg1, h1, h2, h3⟩ := eit_desc_loop_total D buf ev
        ((eit_dllen buf off).toNat + 1) (off + 12) (len - 12) (eit_dllen buf off)
        (lg ++ [Effect.read off 12] ++ [Effect.epg_event_create ch (eit_start_time D buf off)
          (eit_start_time D buf off + eit_duration buf off) (be16 buf off)]) (by omega)
      simp only [h1]
      obtain ⟨lg2, h4, h5⟩ := eit_loop_total D buf ch fuel off1 len1 lg1 (by omega)
      refine ⟨lg2, h4, ?_⟩
      have := h3.trans h5
      simpa only [List.append_assoc, List.singleton_append] using this

set_option maxRecDepth 100000 in
/-- C13 at `eit_pl2` under `denv0`: the entry at offset 11 ends at 3800, before the clock 5000:
the loop resumes at offset 24 having asked for nothing; the whole run asks for the second
event only. -/
theorem C13_past_events_skipped_witness :
    (∃ lg1, eit_loop denv0 eit_pl2 1 (25 + 1) 11 25 [Effect.read 0 11] = some lg1 ∧
      eit_loop denv0 eit_pl2 1 25 (11 + 12 + (eit_dllen eit_pl2 11).toNat)
        (25 - 12 - eit_dllen eit_pl2 11) ([Effect.read 0 11] ++ [Effect.read 11 12]) = some lg1) ∧
    dvb_eit_callback denv0 eit_pl2 36 0x4e =
      some (0, [Effect.read 0 11, Effect.read 11 12, Effect.read 24 12,
        Effect.epg_event_create 1 6000 7800 9]) :=
  ⟨(C13_past_events_skipped denv0 eit_pl2 1 25 11 25 [Effect.read 0 11] (by decide) (by decide)
      (by decide)).2.1 (by decide), by decide⟩

theorem in_bounds_append {L : Int} {lg : List Effect} (hlg : ∀ e ∈ lg, in_bounds L e)
    {ex : List Effect} (hex : ∀ e ∈ ex, in_bounds L e) : ∀ e ∈ lg ++ ex, in_bounds L e := by
  intro e he
  rcases List.mem_append.mp he with h | h
  · exact hlg e h
  · exact hex e h

theorem eit_desc_loop_bounds (D : DecEnv) (buf : List Nat) (ev : Nat) (L : Int) (fuel : Nat) :
    ∀ (off : Nat) (len dllen : Int) (lg : List Effect) (off1 : Nat) (len1 : Int)
      (lg1 : List Effect), (off : Int) + len = L → dllen ≤ len →
      (∀ e ∈ lg, in_bounds (L + 1) e) →
      eit_desc_loop D buf ev fuel off len dllen lg = some (off1, len1, lg1) →
      (off1 : Int) + len1 = L ∧ ∀ e ∈ lg1, in_bounds (L + 1) e := by
  induction fuel with
  | zero => intro off len dllen lg off1 len1 lg1 _ _ _ h; simp [eit_desc_loop] at h
  | succ fuel ih =>
    intro off len dllen lg off1 len1 lg1 hL hd hlg h
    rw [eit_desc_loop] at h
    by_cases hd0 : dllen > 0
    · simp only [hd0, if_true] at h
      have hread : ∀ e ∈ lg ++ [Effect.read off 2], in_bounds (L + 1) e :=
        in_bounds_append hlg (by
          intro e he
          rw [List.mem_singleton] at he
          rw [he]; right; push_cast; omega)
      by_cases hb : (byte buf (off + 1) : Int) > len - 2
      · simp only [hb, if_true, Option.some.injEq, Prod.mk.injEq] at h
        obtain ⟨h1, h2, h3⟩ := h
        rw [← h1, ← h2, ← h3]
        exact ⟨by push_cast; omega, hread⟩
      · simp only [hb, if_false] at h
        refine ih _ _ _ _ off1 len1 lg1 (by push_cast; omega) (by omega) ?_ h
        split
        · have hparse : ∀ e ∈ lg ++ [Effect.read off 2] ++
              [Effect.parse (off + 2) (byte buf (off + 1))], in_bounds (L + 1) e :=
            in_bounds_append hread (by
              intro e he
              rw [List.mem_singleton] at he
              rw [he]; right; push_cast; omega)
          split
          · exact in_bounds_append hparse (by
              intro e he
              simp only [List.mem_cons, List.mem_singleton, List.not_mem_nil, or_false] at he
              rcases he with he | he <;> rw [he] <;> trivial)
          · exact hparse
        · split
          · split
            · rename_i h2
              exact in_bounds_append hread (by
                intro e he
                simp only [List.mem_cons, List.mem_singleton, List.not_mem_nil, or_false] at he
                rcases he with he | he <;> rw [he]
                · right; push_cast; omega
                · trivial)
            · exact hread
          · exact hread
    · simp only [hd0, if_false, Option.some.injEq, Prod.mk.injEq] at h
      obtain ⟨h1, h2, h3⟩ := h
      rw [← h1, ← h2, ← h3]
      exact ⟨hL, hlg⟩

theorem eit_loop_bounds (D : DecEnv) (buf : List Nat) (ch : Nat) (L : Int) (fuel : Nat) :
    ∀ (off : Nat) (len : Int) (lg lg1 : List Effect), (off : Int) + len = L →
      (∀ e ∈ lg, in_bounds (L + 1) e) →
      eit_loop D buf ch fuel off len lg = some lg1 → ∀ e ∈ lg1, in_bounds (L + 1) e := by
  induction fuel with
  | zero => intro off len lg lg1 _ _ h; simp [eit_loop] at h
  | succ fuel ih =>
    intro off len lg lg1 hL hlg h
    rw [eit_loop] at h
    by_cases hl : len ≥ 12
    · simp only [hl, if_true] at h
      have hread : ∀ e ∈ lg ++ [Effect.read off 12], in_bounds (L + 1) e :=
        in_bounds_append hlg (by
          intro e he
          rw [List.mem_singleton] at he
          rw [he]; right; push_cast; omega)
      have hd0 : 0 ≤ eit_dllen buf off := by unfold eit_dllen; exact Int.ofNat_nonneg _
      by_cases hb : eit_dllen buf off > len - 12
      · simp only [hb, if_true, Option.some.injEq] at h
        rw [← h]; exact hread
      · simp only [hb, if_false] at h
        by_cases hp : eit_start_time D buf off + eit_duration buf off < D.dispatch_clock
        · simp only [hp, if_true] at h
          exact ih _ _ _ lg1 (by push_cast; omega) hread h
        · simp only [hp, if_false] at h
          have hcreate : ∀ e ∈ lg ++ [Effect.read off 12] ++
              [Effect.epg_event_create ch (eit_start_time D buf off)
                (eit_start_time D buf off + eit_duration buf off) (be16 buf off)],
              in_bounds (L + 1) e :=
            in_bounds_append hread (by
              intro e he
              rw [List.mem_singleton] at he
              rw [he]; trivial)
          split at h
          · exact ih _ _ _ lg1 (by push_cast; omega) hcreate h
          · rename_i e he
            split at h
            · simp at h
            · rename_i off2 len2 lg2 h2
              obtain ⟨k1, k2⟩ := eit_desc_loop_bounds D buf e L _ _ _ _ _ off2 len2 lg2
                (by push_cast; omega) (by omega) hcreate h2
              exact ih _ _ _ lg1 k1 k2 h
    · simp only [hl, if_false, Option.some.injEq] at h
      rw [← h]; exact hlg

/-- The Event Information decoder reads at most one byte past the payload: everything it
reads or hands to a parser lies at offsets below `len + 1`. -/
theorem dvb_eit_callback_bounds (D : DecEnv) (buf : List Nat) (len : Int) (tableid : Nat)
    (ret : Int) (lg : List Effect) (h : dvb_eit_callback D buf len tableid = some (ret, lg)) :
    ∀ e ∈ lg, in_bounds (len + 1) e := by
  unfold dvb_eit_callback at h
  split at h
  · simp only [Option.some.injEq, Prod.mk.injEq] at h
    rw [← h.2]; intro e he; simp at he
  · rename_i hc
    have hread : ∀ e ∈ [Effect.read 0 11], in_bounds (len + 1) e := by
      intro e he
      rw [List.mem_singleton] at he
      rw [he]; right; push_cast; omega
    simp only at h
    split at h
    · simp only [Option.some.injEq, Prod.mk.injEq] at h; rw [← h.2]; exact hread
    · split at h
      · simp only [Option.some.injEq, Prod.mk.injEq] at h; rw [← h.2]; exact hread
      · split at h
        · simp only [Option.some.injEq, Prod.mk.injEq] at h; rw [← h.2]; exact hread
        · split at h
          · simp only [Option.some.injEq, Prod.mk.injEq] at h; rw [← h.2]; exact hread
          · split at h
            · simp at h
            · rename_i lg2 h2
              simp only [Option.some.injEq, Prod.mk.injEq] at h
              rw [← h.2]
              exact eit_loop_bounds D buf _ len _ 11 (len - 11) _ lg2 (by push_cast; omega)
                hread h2

set_option maxRecDepth 100000 in
/-- C14 (evaluation at the failing input): the payload `eit_pl1` has 24 bytes: the
header, one event to come with descriptor loop length 1, and one more byte. The loop
`while(dllen > 0)` of line 535 is entered with one byte left and reads `ptr[0]` and
`ptr[1]`, offsets 23 and 24; offset 24 is not below the length 24. -/
theorem C14_eit_reads_past_len :
    dvb_eit_callback denv0 eit_pl1 24 0x4e =
      some (0, [Effect.read 0 11, Effect.read 11 12, Effect.epg_event_create 1 6000 7800 9,
        Effect.read 23 2]) ∧
    ¬ in_bounds 24 (Effect.read 23 2) := by
  decide

/-- C15: with the current/next bit of the payload clear (byte 2, bit 0), each of the five
decoders that test it returns -1 once its earlier tests have passed, having done nothing
but read the header: the registry state, the services and the network name are as before
and no call into the broadcast model or the programme guide is made. Consequently, for a
subscription to one of these decoders and an accepted section with such a payload,
`dvb_proc_table` completes with the registry as it was (the call is traced, the
fast-switch check runs if the subscription asks for it): the counter is not incremented. -/
theorem C15_current_next_gating (env : Env) (D : DecEnv) (services : List th_transport)
    (network : Option (List Nat)) (s : State) :
    (∀ (ptr : List Nat) (len : Int) (tableid : Nat), byte ptr 2 &&& 1 = 0 →
      (5 ≤ len → dvb_pat_callback env s ptr len = some (s, -1)) ∧
      dvb_cat_callback env s ptr len = some (s, -1) ∧
      (8 ≤ len → dvb_sdt_callback D services ptr len = some (-1, services, [Effect.read 0 8])) ∧
      (0x4e ≤ tableid → tableid ≤ 0x6f → 11 ≤ len →
        dvb_eit_callback D ptr len tableid = some (-1, [Effect.read 0 11])) ∧
      (tableid = 0x40 →
        dvb_nit_callback D network ptr len tableid = some (-1, network, [Effect.read 2 1])) ∧
      outward [Effect.read 0 8] = [] ∧ outward [Effect.read 0 11] = [] ∧
      outward [Effect.read 2 1] = []) ∧
    (∀ (a : Nat) (t : th_dvb_table) (sec : List Nat) (r : Int),
      find_tdt s a = some t →
      ¬ (t.tdt_flags &&& TDT_CRC ≠ 0 ∧ env.psi_crc32 sec r ≠ 0) →
      ¬ section_length sec < r - 3 →
      earlier_checks t.tdt_callback
        (payload_spec (decide (t.tdt_flags &&& TDT_CRC ≠ 0))
          (decide (t.tdt_flags &&& TDT_INC_TABLE_HDR ≠ 0)) sec).2 (byte sec 0) →
      byte (payload_spec (decide (t.tdt_flags &&& TDT_CRC ≠ 0))
          (decide (t.tdt_flags &&& TDT_INC_TABLE_HDR ≠ 0)) sec).1 2 &&& 1 = 0 →
      (∀ s0 ret, decoder_ret_model D services network t.tdt_callback
          (payload_spec (decide (t.tdt_flags &&& TDT_CRC ≠ 0))
            (decide (t.tdt_flags &&& TDT_INC_TABLE_HDR ≠ 0)) sec).1
          (payload_spec (decide (t.tdt_flags &&& TDT_CRC ≠ 0))
            (decide (t.tdt_flags &&& TDT_INC_TABLE_HDR ≠ 0)) sec).2 (byte sec 0) = some ret →
        env.decoder_ret t.tdt_callback s0
          (payload_spec (decide (t.tdt_flags &&& TDT_CRC ≠ 0))
            (decide (t.tdt_flags &&& TDT_INC_TABLE_HDR ≠ 0)) sec).1
          (payload_spec (decide (t.tdt_flags &&& TDT_CRC ≠ 0))
            (decide (t.tdt_flags &&& TDT_INC_TABLE_HDR ≠ 0)) sec).2 (byte sec 0) = ret) →
      ∃ s1, dvb_proc_table env s a sec r = some s1 ∧
        s1.tdmi_tables = s.tdmi_tables ∧ find_tdt s1 a = some t ∧
        s1 = (if t.tdt_flags &&& TDT_QUICKREQ ≠ 0 then dvb_table_fastswitch else id)
          (log s (Event.callback a t.tdt_callback
            (payload_spec (decide (t.tdt_flags &&& TDT_CRC ≠ 0))
              (decide (t.tdt_flags &&& TDT_INC_TABLE_HDR ≠ 0)) sec).1
            (payload_spec (decide (t.tdt_flags &&& TDT_CRC ≠ 0))
              (decide (t.tdt_flags &&& TDT_INC_TABLE_HDR ≠ 0)) sec).2
            (byte sec 0) t.tdt_opaque_p))) := by
  have hpat : ∀ (s : State) (ptr : List Nat) (len : Int), byte ptr 2 &&& 1 = 0 → 5 ≤ len →
      dvb_pat_callback env s ptr len = some (s, -1) := by
    intro s ptr len hb h
    unfold dvb_pat_callback
    rw [if_neg (by omega), if_pos hb]
  have hcat : ∀ (s : State) (ptr : List Nat) (len : Int), byte ptr 2 &&& 1 = 0 →
      dvb_cat_callback env s ptr len = some (s, -1) := by
    intro s ptr len hb
    unfold dvb_cat_callback
    rw [if_pos hb]
  have hsdt : ∀ (ptr : List Nat) (len : Int), byte ptr 2 &&& 1 = 0 → 8 ≤ len →
      dvb_sdt_callback D services ptr len = some (-1, services, [Effect.read 0 8]) := by
    intro ptr len hb h
    unfold dvb_sdt_callback
    rw [if_neg (by omega)]
    simp only [hb, if_true]
  have heit : ∀ (ptr : List Nat) (len : Int) (tableid : Nat), byte ptr 2 &&& 1 = 0 →
      0x4e ≤ tableid → tableid ≤ 0x6f → 11 ≤ len →
      dvb_eit_callback D ptr len tableid = some (-1, [Effect.read 0 11]) := by
    intro ptr len tableid hb h1 h2 h3
    unfold dvb_eit_callback
    rw [if_neg (by omega)]
    simp only [hb, if_true]
  have hnit : ∀ (ptr : List Nat) (len : Int) (tableid : Nat), byte ptr 2 &&& 1 = 0 →
      tableid = 0x40 →
      dvb_nit_callback D network ptr len tableid = some (-1, network, [Effect.read 2 1]) := by
    intro ptr len tableid hb h1
    unfold dvb_nit_callback
    rw [if_neg (by simpa using h1)]
    simp only [hb, if_true]
  refine ⟨fun ptr len tableid hb => ⟨hpat s ptr len hb, hcat s ptr len hb, hsdt ptr len hb,
    heit ptr len tableid hb, hnit ptr len tableid hb, rfl, rfl, rfl⟩, ?_⟩
  intro a t sec r hf hcrc hlen hchk hb hret
  obtain ⟨s2, ret, h2, hp⟩ := dvb_proc_table_accepted env sec r hf hcrc hlen
  rw [payload_spec_eq] at hchk hb hret ⊢
  simp only at hchk hb hret ⊢
  have hrun : s2 = log s (Event.callback a t.tdt_callback
        (if t.tdt_flags &&& TDT_INC_TABLE_HDR ≠ 0 then sec else sec.drop 3)
        (if t.tdt_flags &&& TDT_INC_TABLE_HDR ≠ 0 then
          (if t.tdt_flags &&& TDT_CRC ≠ 0 then section_length sec - 4 else section_length sec) + 3
         else (if t.tdt_flags &&& TDT_CRC ≠ 0 then section_length sec - 4 else section_length sec))
        (byte sec 0) t.tdt_opaque_p) ∧ ret = -1 := by
    cases hcb : t.tdt_callback <;> rw [hcb] at h2 hchk hret <;>
      simp only [earlier_checks] at hchk
    case dvb_pat_callback =>
      simp only [run_callback] at h2
      rw [hpat _ _ _ hb hchk] at h2
      simp only [Option.some.injEq, Prod.mk.injEq] at h2
      exact ⟨h2.1.symm, h2.2.symm⟩
    case dvb_cat_callback =>
      simp only [run_callback] at h2
      rw [hcat _ _ _ hb] at h2
      simp only [Option.some.injEq, Prod.mk.injEq] at h2
      exact ⟨h2.1.symm, h2.2.symm⟩
    case dvb_sdt_callback =>
      simp only [run_callback, Option.some.injEq, Prod.mk.injEq] at h2
      refine ⟨h2.1.symm, ?_⟩
      rw [← h2.2]
      apply hret
      simp only [decoder_ret_model, hsdt _ _ hb hchk, Option.map_some']
    case dvb_eit_callback =>
      simp only [run_callback, Option.some.injEq, Prod.mk.injEq] at h2
      refine ⟨h2.1.symm, ?_⟩
      rw [← h2.2]
      apply hret
      simp only [decoder_ret_model, heit _ _ _ hb hchk.1 hchk.2.1 hchk.2.2, Option.map_some']
    case dvb_nit_callback =>
      simp only [run_callback, Option.some.injEq, Prod.mk.injEq] at h2
      refine ⟨h2.1.symm, ?_⟩
      rw [← h2.2]
      apply hret
      simp only [decoder_ret_model, hnit _ _ _ hb hchk, Option.map_some']
  obtain ⟨hs2, hr⟩ := hrun
  rw [hr] at hp
  simp only [show ((-1 : Int) = 0) = False from by simp, if_false] at hp
  have ht : ((if t.tdt_flags &&& TDT_QUICKREQ ≠ 0 then dvb_table_fastswitch else id) s2).tdmi_tables
      = s.tdmi_tables := by
    split
    · rw [(dvb_table_fastswitch_tables s2).1, hs2]; rfl
    · rw [hs2]; rfl
  refine ⟨(if t.tdt_flags &&& TDT_QUICKREQ ≠ 0 then dvb_table_fastswitch else id) s2, ?_, ht, ?_,
    by rw [hs2]⟩
  · rw [hp]; split <;> rfl
  · unfold find_tdt at hf ⊢
    rw [ht]; exact hf

set_option maxRecDepth 100000 in
/-- C15 at the stream `s_nit` (one bound NIT subscription, counter 0) and the section
`nit_next_section`, whose payload has the current/next bit clear: the decoder returns -1
having read byte 2 only, and `dvb_proc_table` leaves the subscription as it was. -/
theorem C15_current_next_gating_witness :
    dvb_nit_callback denv0 none (nit_next_section.drop 3) 9 0x40 =
      some (-1, none, [Effect.read 2 1]) ∧
    ∃ s1, dvb_proc_table env1 s_nit 100 nit_next_section 12 = some s1 ∧
      s1.tdmi_tables = s_nit.tdmi_tables ∧ find_tdt s1 100 = some nit_table := by
  refine ⟨((C15_current_next_gating env1 denv0 sdt_services0 none s_nit).1
    (nit_next_section.drop 3) 9 0x40 (by decide)).2.2.2.2.1 rfl, ?_⟩
  obtain ⟨s1, h1, h2, h3, _⟩ := (C15_current_next_gating env1 denv0 sdt_services0 none s_nit).2
    100 nit_table nit_next_section 12 (by decide) (by decide) (by decide) (by decide) (by decide)
    (fun _ _ h => by simp only [env1, h, Option.getD_some])
  exact ⟨s1, h1, h2, h3⟩

theorem uint32_id (x : Int) (h1 : 0 ≤ x) (h2 : x < 4294967296) : uint32 x = x.toNat := by
  unfold uint32
  rw [Int.emod_eq_of_lt h1 h2]

theorem delivery_freq_bcd (buf : List Nat) (off : Nat)
    (h0 : byte buf off / 16 ≤ 9 ∧ byte buf off % 16 ≤ 9)
    (h1 : byte buf (off + 1) / 16 ≤ 9 ∧ byte buf (off + 1) % 16 ≤ 9)
    (h2 : byte buf (off + 2) / 16 ≤ 9 ∧ byte buf (off + 2) % 16 ≤ 9)
    (h3 : byte buf (off + 3) / 16 ≤ 9 ∧ byte buf (off + 3) % 16 ≤ 9) :
    delivery_freq buf off = (decimal_value (freq_digits buf off) : Int) ∧
      decimal_value (freq_digits buf off) ≤ 99999999 := by
  unfold delivery_freq add32 mul32
  rw [bcdtoint_byte _ (byte_lt _ _), bcdtoint_byte _ (byte_lt _ _), bcdtoint_byte _ (byte_lt _ _),
    bcdtoint_byte _ (byte_lt _ _)]
  simp only [decimal_value, freq_digits, bcd_digits, List.cons_append, List.nil_append,
    List.foldl_cons, List.foldl_nil]
  generalize byte buf off / 16 = a0 at *
  generalize byte buf off % 16 = a1 at *
  generalize byte buf (off + 1) / 16 = a2 at *
  generalize byte buf (off + 1) % 16 = a3 at *
  generalize byte buf (off + 2) / 16 = a4 at *
  generalize byte buf (off + 2) % 16 = a5 at *
  generalize byte buf (off + 3) / 16 = a6 at *
  generalize byte buf (off + 3) % 16 = a7 at *
  push_cast
  rw [int32_id ((a0 * 10 + a1 : Int) * 1000000) (by omega) (by omega),
    int32_id ((a2 * 10 + a3 : Int) * 10000) (by omega) (by omega),
    int32_id ((a4 * 10 + a5 : Int) * 100) (by omega) (by omega),
    int32_id ((a0 * 10 + a1 : Int) * 1000000 + (a2 * 10 + a3) * 10000) (by omega) (by omega),
    int32_id ((a0 * 10 + a1 : Int) * 1000000 + (a2 * 10 + a3) * 10000 + (a4 * 10 + a5) * 100)
      (by omega) (by omega),
    int32_id _ (by omega) (by omega)]
  constructor <;> omega

theorem delivery_symrate_bcd (buf : List Nat) (off : Nat)
    (h7 : byte buf (off + 7) / 16 ≤ 9 ∧ byte buf (off + 7) % 16 ≤ 9)
    (h8 : byte buf (off + 8) / 16 ≤ 9 ∧ byte buf (off + 8) % 16 ≤ 9)
    (h9 : byte buf (off + 9) / 16 ≤ 9 ∧ byte buf (off + 9) % 16 ≤ 9)
    (h10 : byte buf (off + 10) / 16 ≤ 9) :
    delivery_symrate buf off = (decimal_value (symrate_digits buf off) : Int) ∧
      decimal_value (symrate_digits buf off) ≤ 9999999 := by
  unfold delivery_symrate add32 mul32
  rw [bcdtoint_byte _ (byte_lt _ _), bcdtoint_byte _ (byte_lt _ _), bcdtoint_byte _ (byte_lt _ _)]
  have hs : byte buf (off + 10) >>> 4 = byte buf (off + 10) / 16 := by
    rw [Nat.shiftRight_eq_div_pow]
  rw [hs]
  simp only [decimal_value, symrate_digits, bcd_digits, List.cons_append, List.nil_append,
    List.foldl_cons, List.foldl_nil]
  generalize byte buf (off + 7) / 16 = a0 at *
  generalize byte buf (off + 7) % 16 = a1 at *
  generalize byte buf (off + 8) / 16 = a2 at *
  generalize byte buf (off + 8) % 16 = a3 at *
  generalize byte buf (off + 9) / 16 = a4 at *
  generalize byte buf (off + 9) % 16 = a5 at *
  generalize byte buf (off + 10) / 16 = a6 at *
  push_cast
  rw [int32_id ((a0 * 10 + a1 : Int) * 100000) (by omega) (by omega),
    int32_id ((a2 * 10 + a3 : Int) * 1000) (by omega) (by omega),
    int32_id ((a4 * 10 + a5 : Int) * 10) (by omega) (by omega),
    int32_id ((a0 * 10 + a1 : Int) * 100000 + (a2 * 10 + a3) * 1000) (by omega) (by omega),
    int32_id ((a0 * 10 + a1 : Int) * 100000 + (a2 * 10 + a3) * 1000 + (a4 * 10 + a5) * 10)
      (by omega) (by omega),
    int32_id _ (by omega) (by omega)]
  constructor <;> omega

theorem sat_api5_fields_keeps (b6 : Nat) (dmc : dvb_mux_conf) :
    (sat_api5_fields b6 dmc).frequency = dmc.frequency ∧
    (sat_api5_fields b6 dmc).symbol_rate = dmc.symbol_rate ∧
    (sat_api5_fields b6 dmc).dmc_polarisation = dmc.dmc_polarisation ∧
    (sat_api5_fields b6 dmc).fec_inner = dmc.fec_inner := by
  unfold sat_api5_fields
  simp only
  split <;> exact ⟨rfl, rfl, rfl, rfl⟩

/-- C19: for a satellite delivery descriptor body whose bytes 0..3 hold eight BCD digits
and whose bytes 7..9 with the high nibble of byte 10 hold seven, `dvb_table_sat_delivery`
with autodiscovery on and a declared length of at least 11 returns 0 and asks for one
mux, whose frequency is 10 times the eight-digit value and whose symbol rate is 100 times
the seven-digit value (no 32-bit wrap-around occurs), with polarisation
`(byte6 >> 5) & 3` and inner FEC `fec_tab[byte10 & 0x0f]`; with autodiscovery off or a
length below 11 it returns -1 and asks for nothing. -/
theorem C19_sat_delivery (D : DecEnv) (buf : List Nat) (off : Nat) (len : Int) (tsid : Nat)
    (h0 : byte buf off / 16 ≤ 9 ∧ byte buf off % 16 ≤ 9)
    (h1 : byte buf (off + 1) / 16 ≤ 9 ∧ byte buf (off + 1) % 16 ≤ 9)
    (h2 : byte buf (off + 2) / 16 ≤ 9 ∧ byte buf (off + 2) % 16 ≤ 9)
    (h3 : byte buf (off + 3) / 16 ≤ 9 ∧ byte buf (off + 3) % 16 ≤ 9)
    (h7 : byte buf (off + 7) / 16 ≤ 9 ∧ byte buf (off + 7) % 16 ≤ 9)
    (h8 : byte buf (off + 8) / 16 ≤ 9 ∧ byte buf (off + 8) % 16 ≤ 9)
    (h9 : byte buf (off + 9) / 16 ≤ 9 ∧ byte buf (off + 9) % 16 ≤ 9)
    (h10 : byte buf (off + 10) / 16 ≤ 9) :
    (D.tda_autodiscovery = true → 11 ≤ len →
      ∃ dmc, dvb_table_sat_delivery D buf off len tsid =
          (0, [Effect.read off 11, Effect.mux_create dmc tsid]) ∧
        dmc.frequency = 10 * decimal_value (freq_digits buf off) ∧
        dmc.symbol_rate = 100 * decimal_value (symrate_digits buf off) ∧
        dmc.frequency < 2 ^ 31 ∧ dmc.symbol_rate < 2 ^ 31 ∧
        dmc.dmc_polarisation = (byte buf (off + 6) >>> 5) &&& 3 ∧
        dmc.fec_inner = fec_tab D.api5 (byte buf (off + 10) &&& 0x0f)) ∧
    (D.tda_autodiscovery = false ∨ len < 11 →
      dvb_table_sat_delivery D buf off len tsid = (-1, [])) := by
  constructor
  · intro ha hl
    refine ⟨sat_delivery_conf D buf off, ?_, ?_⟩
    · unfold dvb_table_sat_delivery
      rw [if_neg (by simp [ha]), if_neg (by omega)]
    · obtain ⟨hf, hfb⟩ := delivery_freq_bcd buf off h0 h1 h2 h3
      obtain ⟨hs, hsb⟩ := delivery_symrate_bcd buf off h7 h8 h9 h10
      have hfreq : uint32 (mul32 (delivery_freq buf off) 10) =
          10 * decimal_value (freq_digits buf off) := by
        rw [hf]; unfold mul32
        rw [int32_id _ (by omega) (by omega), uint32_id _ (by omega) (by omega)]
        omega
      have hsym : uint32 (mul32 (delivery_symrate buf off) 100) =
          100 * decimal_value (symrate_digits buf off) := by
        rw [hs]; unfold mul32
        rw [int32_id _ (by omega) (by omega), uint32_id _ (by omega) (by omega)]
        omega
      unfold sat_delivery_conf
      simp only
      split
      · obtain ⟨k1, k2, k3, k4⟩ := sat_api5_fields_keeps (byte buf (off + 6))
          { dmc_zero with
            inversion := fe_spectral_inversion.INVERSION_AUTO
            frequency := uint32 (mul32 (delivery_freq buf off) 10)
            symbol_rate := uint32 (mul32 (delivery_symrate buf off) 100)
            fec_inner := fec_tab D.api5 (byte buf (off + 10) &&& 0x0f)
            dmc_polarisation := (byte buf (off + 6) >>> 5) &&& 0x03
            dmc_satconf := D.dmc_satconf }
        rw [k1, k2, k3, k4]
        simp only [hfreq, hsym]
        refine ⟨trivial, trivial, by omega, by omega, trivial, trivial⟩
      · simp only [hfreq, hsym]
        refine ⟨trivial, trivial, by omega, by omega, trivial, trivial⟩
  · intro h
    unfold dvb_table_sat_delivery
    rcases h with h | h
    · rw [if_pos h]
    · by_cases ha : D.tda_autodiscovery = false
      · rw [if_pos ha]
      · rw [if_neg ha, if_pos h]

set_option maxRecDepth 100000 in
/-- C19 at the descriptor body `sat_body` (digits 01174350 and 0275000) under `denv0`:
the mux asked for has frequency 11,743,500 and symbol rate 27,500,000. -/
theorem C19_sat_delivery_witness :
    (∃ dmc, dvb_table_sat_delivery denv0 sat_body 0 11 7 =
        (0, [Effect.read 0 11, Effect.mux_create dmc 7]) ∧
      dmc.frequency = 10 * decimal_value (freq_digits sat_body 0) ∧
      dmc.symbol_rate = 100 * decimal_value (symrate_digits sat_body 0) ∧
      dmc.frequency < 2 ^ 31 ∧ dmc.symbol_rate < 2 ^ 31 ∧
      dmc.dmc_polarisation = (byte sat_body (0 + 6) >>> 5) &&& 3 ∧
      dmc.fec_inner = fec_tab denv0.api5 (byte sat_body (0 + 10) &&& 0x0f)) ∧
    decimal_value (freq_digits sat_body 0) = 1174350 ∧
    decimal_value (symrate_digits sat_body 0) = 275000 ∧
    (dvb_table_sat_delivery denv0 sat_body 0 11 7).2 =
      [Effect.read 0 11, Effect.mux_create
        { frequency := 11743500, inversion := fe_spectral_inversion.INVERSION_AUTO,
          symbol_rate := 27500000, fec_inner := fe_code_rate.FEC_3_4,
          modulation := fe_modulation.QPSK, dmc_polarisation := 1, dmc_satconf := 3,
          dmc_fe_modulation := fe_modulation.QPSK,
          dmc_fe_delsys := fe_delivery_system.SYS_DVBS2,
          dmc_fe_rolloff := fe_rolloff.ROLLOFF_35 } 7] :=
  ⟨(C19_sat_delivery denv0 sat_body 0 11 7 (by decide) (by decide) (by decide) (by decide)
      (by decide) (by decide) (by decide) (by decide)).1 rfl (by decide),
    by decide, by decide, by decide⟩

/-! ## Update on change, descriptor containment, cable arithmetic and the assertions of the dispatch step -/

theorem sdt_transport_find_set {services : List th_transport} {sid i : Nat} (t1 : th_transport)
    (hfind : sdt_transport_find services sid = some i) (h1 : t1.tht_dvb_service_id = sid) :
    sdt_transport_find (services.set i t1) sid = some i ∧ (services.set i t1).get? i = some t1 := by
  unfold sdt_transport_find at hfind ⊢
  rw [List.findIdx?_eq_some_iff_getElem] at hfind ⊢
  obtain ⟨hi, _, hlt⟩ := hfind
  refine ⟨⟨by simpa using hi, by simp [h1], ?_⟩, ?_⟩
  · intro j hji
    rw [List.getElem_set_ne (by omega)]
    exact hlt j hji
  · rw [List.get?_eq_getElem?, List.getElem?_set_self hi]

theorem sdt_transport_find_get {services : List th_transport} {sid i : Nat}
    (hfind : sdt_transport_find services sid = some i) :
    ∃ t, services.get? i = some t ∧ t.tht_dvb_service_id = sid := by
  unfold sdt_transport_find at hfind
  rw [List.findIdx?_eq_some_iff_getElem] at hfind
  obtain ⟨hi, hp, _⟩ := hfind
  refine ⟨services[i], ?_, by simpa using hp⟩
  rw [List.get?_eq_getElem?, List.getElem?_eq_getElem hi]

/-- The body of `case DVB_DESC_SERVICE` for a descriptor that decodes and a service the
stream knows. -/
theorem sdt_service_found (D : DecEnv) (buf : List Nat) (off dlen sid fca : Nat)
    (services : List th_transport) (lg : List Effect) (stype : Nat)
    (provider name : List Nat) (i : Nat) (t : th_transport)
    (hdesc : dvb_desc_service D buf off dlen = some (stype, provider, name))
    (hfind : sdt_transport_find services sid = some i)
    (hget : services.get? i = some t) :
    sdt_service D buf off dlen sid fca services lg =
      if t.tht_servicetype ≠ stype ∨ t.tht_scrambled ≠ fca ∨
          t.tht_provider.getD [] ≠ provider ∨
          t.tht_svcname.getD [] ≠ sdt_service_name D.char_signed name sid then
        (services.set i { t with tht_servicetype := stype, tht_scrambled := fca,
                                 tht_provider := some provider,
                                 tht_svcname := some (sdt_service_name D.char_signed name sid) },
          lg ++ [Effect.parse off dlen] ++ [Effect.config_save sid])
      else (services, lg ++ [Effect.parse off dlen]) := by
  unfold sdt_service
  simp only [hdesc, hfind, hget]

/-- Handling the same service descriptor again changes no service and asks for no save. -/
theorem sdt_service_again (D : DecEnv) (buf : List Nat) (off dlen sid fca : Nat)
    (services : List th_transport) (lg lg2 : List Effect) :
    sdt_service D buf off dlen sid fca (sdt_service D buf off dlen sid fca services lg).1 lg2 =
      ((sdt_service D buf off dlen sid fca services lg).1, lg2 ++ [Effect.parse off dlen]) := by
  cases hdesc : dvb_desc_service D buf off dlen with
  | none =>
    have h : ∀ sv l, sdt_service D buf off dlen sid fca sv l = (sv, l ++ [Effect.parse off dlen]) := by
      intro sv l; unfold sdt_service; simp only [hdesc]
    rw [h services lg, h]
  | some r =>
    obtain ⟨stype, provider, name⟩ := r
    cases hfind : sdt_transport_find services sid with
    | none =>
      have h : ∀ l, sdt_service D buf off dlen sid fca services l =
          (services, l ++ [Effect.parse off dlen]) := by
        intro l; unfold sdt_service; simp only [hdesc, hfind]
      rw [h lg, h]
    | some i =>
      obtain ⟨t, hget, hsid⟩ := sdt_transport_find_get hfind
      rw [sdt_service_found D buf off dlen sid fca services lg stype provider name i t hdesc
        hfind hget]
      split
      · obtain ⟨k1, k2⟩ := sdt_transport_find_set
          { t with tht_servicetype := stype, tht_scrambled := fca,
                   tht_provider := some provider,
                   tht_svcname := some (sdt_service_name D.char_signed name sid) } hfind hsid
        rw [sdt_service_found D buf off dlen sid fca _ lg2 stype provider name i _ hdesc k1 k2]
        simp
      · rename_i hsame
        rw [sdt_service_found D buf off dlen sid fca services lg2 stype provider name i t hdesc
          hfind hget, if_neg hsame]

/-- A Service Description payload that holds one service entry with one descriptor, a
service descriptor, is decoded by one call of `sdt_service` at offset 15. -/
theorem dvb_sdt_callback_single (D : DecEnv) (services : List th_transport) (buf : List Nat)
    (len : Int) (hbit : byte buf 2 &&& 1 ≠ 0)
    (hdl : ((((byte buf 11 &&& 0x0f) <<< 8) ||| byte buf 12 : Nat) : Int) = len - 13)
    (htag : byte buf 13 = D.DVB_DESC_SERVICE)
    (hlen : (byte buf 14 : Int) = len - 15) (hpos : 1 ≤ byte buf 14) :
    dvb_sdt_callback D services buf len =
      some ((0 : Int), sdt_service D buf 15 (byte buf 14) (be16 buf 8)
        ((byte buf 11 >>> 4) &&& 0x1) services
        [Effect.read 0 8, Effect.read 8 5, Effect.read 13 2]) := by
  have h0 : (0 : Int) ≤ (byte buf 14 : Int) := Int.ofNat_nonneg _
  have h15 : 16 ≤ len := by omega
  unfold dvb_sdt_callback
  rw [if_neg (by omega)]
  simp only [hbit, if_false]
  rw [sdt_loop]
  simp only [show len - 8 ≥ 5 from by omega, if_true, hdl,
    show ¬ (len - 13 > len - 8 - 5) from by omega, if_false]
  obtain ⟨k, hk⟩ : ∃ k, (len - 13).toNat = k + 1 := ⟨(len - 13).toNat - 1, by omega⟩
  obtain ⟨m, hm⟩ : ∃ m, len.toNat = m + 1 := ⟨len.toNat - 1, by omega⟩
  rw [sdt_desc_loop]
  simp only [show len - 13 > 2 from by omega, if_true, htag, hlen,
    show ¬ (len - 15 > len - 8 - 5 - 2) from by omega, if_false]
  rw [hk, sdt_desc_loop]
  simp only [show ¬ (len - 13 - 2 - (len - 15) > 2) from by omega, if_false]
  rw [hm, sdt_loop]
  simp only [show ¬ (len - 8 - 5 - 2 - (len - 15) ≥ 5) from by omega, if_false]
  rfl

/-- C21: for a service descriptor that decodes (type, provider, display name) and a
service the stream knows, `dvb_sdt_callback` compares the four values with the stored ones
(an absent stored string counting as empty): if one differs it writes all four and calls
the save hook once, otherwise it writes nothing and does not call it. Handling the same
descriptor again changes nothing and saves nothing, so a payload with one service entry
holding one service descriptor, decoded a second time, leaves the services as they are and
calls no save hook. -/
theorem C21_update_on_change (D : DecEnv) (buf : List Nat) (off dlen sid fca : Nat)
    (services : List th_transport) (lg : List Effect) (stype : Nat)
    (provider name : List Nat) (i : Nat) (t : th_transport)
    (hdesc : dvb_desc_service D buf off dlen = some (stype, provider, name))
    (hfind : sdt_transport_find services sid = some i)
    (hget : services.get? i = some t) :
    (sdt_service D buf off dlen sid fca services lg =
      if t.tht_servicetype ≠ stype ∨ t.tht_scrambled ≠ fca ∨
          t.tht_provider.getD [] ≠ provider ∨
          t.tht_svcname.getD [] ≠ sdt_service_name D.char_signed name sid then
        (services.set i { t with tht_servicetype := stype, tht_scrambled := fca,
                                 tht_provider := some provider,
                                 tht_svcname := some (sdt_service_name D.char_signed name sid) },
          lg ++ [Effect.parse off dlen] ++ [Effect.config_save sid])
      else (services, lg ++ [Effect.parse off dlen])) ∧
    (∀ lg2, sdt_service D buf off dlen sid fca
        (sdt_service D buf off dlen sid fca services lg).1 lg2 =
      ((sdt_service D buf off dlen sid fca services lg).1, lg2 ++ [Effect.parse off dlen])) ∧
    (∀ (pl : List Nat) (len : Int), byte pl 2 &&& 1 ≠ 0 →
      ((((byte pl 11 &&& 0x0f) <<< 8) ||| byte pl 12 : Nat) : Int) = len - 13 →
      byte pl 13 = D.DVB_DESC_SERVICE → (byte pl 14 : Int) = len - 15 → 1 ≤ byte pl 14 →
      ∃ services1 lg1 lg2,
        dvb_sdt_callback D services pl len = some (0, services1, lg1) ∧
        dvb_sdt_callback D services1 pl len = some (0, services1, lg2) ∧
        outward lg2 = []) := by
  refine ⟨sdt_service_found D buf off dlen sid fca services lg stype provider name i t hdesc
    hfind hget, fun lg2 => sdt_service_again D buf off dlen sid fca services lg lg2, ?_⟩
  intro pl len hbit hdl htag hlen hpos
  refine ⟨(sdt_service D pl 15 (byte pl 14) (be16 pl 8) ((byte pl 11 >>> 4) &&& 0x1) services
      [Effect.read 0 8, Effect.read 8 5, Effect.read 13 2]).1,
    (sdt_service D pl 15 (byte pl 14) (be16 pl 8) ((byte pl 11 >>> 4) &&& 0x1) services
      [Effect.read 0 8, Effect.read 8 5, Effect.read 13 2]).2,
    [Effect.read 0 8, Effect.read 8 5, Effect.read 13 2] ++ [Effect.parse 15 (byte pl 14)],
    dvb_sdt_callback_single D services pl len hbit hdl htag hlen hpos, ?_, rfl⟩
  rw [dvb_sdt_callback_single D _ pl len hbit hdl htag hlen hpos, sdt_service_again]

set_option maxRecDepth 100000 in
/-- C21 at the payload `sdt_pl [0x41, 0x52, 0x44]` (service 0x1f, type 1, empty provider,
display name "ARD") under `denv0`: on the stream that knows nothing about service 0x1f the
four values are written and the save hook is called; decoded again, nothing is written and
no save hook is called. -/
theorem C21_update_on_change_witness :
    sdt_service denv0 (sdt_pl [0x41, 0x52, 0x44]) 15 6 0x1f 0 sdt_services0 [] =
      (sdt_services1 [0x41, 0x52, 0x44], [Effect.parse 15 6, Effect.config_save 0x1f]) ∧
    dvb_sdt_callback denv0 sdt_services0 (sdt_pl [0x41, 0x52, 0x44]) 21 =
      some (0, sdt_services1 [0x41, 0x52, 0x44],
        [Effect.read 0 8, Effect.read 8 5, Effect.read 13 2, Effect.parse 15 6,
         Effect.config_save 0x1f]) ∧
    dvb_sdt_callback denv0 (sdt_services1 [0x41, 0x52, 0x44]) (sdt_pl [0x41, 0x52, 0x44]) 21 =
      some (0, sdt_services1 [0x41, 0x52, 0x44],
        [Effect.read 0 8, Effect.read 8 5, Effect.read 13 2, Effect.parse 15 6]) :=
  ⟨(C21_update_on_change denv0 (sdt_pl [0x41, 0x52, 0x44]) 15 6 0x1f 0 sdt_services0 [] 1 []
      [0x41, 0x52, 0x44] 0 sdt_service0 (by decide) (by decide) (by decide)).1.trans (by decide),
   by decide, by decide⟩

set_option maxRecDepth 100000 in
/-- C22 (evaluation at the failing inputs): `dvb_nit_callback` has no test of a descriptor
length against what is left. In `nit_pl_name` (len 10) the network name descriptor at
offset 7 declares 200 bytes with one byte left: the 200 bytes from offset 9 are handed to
`dvb_get_string` and the network name is set from them. In `nit_pl_sat` (len 20) the
satellite delivery descriptor at offset 15 declares 11 bytes with three left: offsets
17..27 are read and a mux is asked for. -/
theorem C22_nit_descriptor_overrun :
    nit_pl_name.length = 14 ∧
    dvb_nit_callback denv0 none nit_pl_name 10 0x40 =
      some (-1, some [0x41, 0x42, 0x43, 0x44, 0x45],
        [Effect.read 2 1, Effect.read 5 2, Effect.read 7 2, Effect.parse 9 200,
         Effect.mux_set_networkname [0x41, 0x42, 0x43, 0x44, 0x45]]) ∧
    ¬ in_bounds 10 (Effect.parse 9 200) ∧
    dvb_nit_callback denv0 none nit_pl_sat 20 0x40 =
      some (0, none,
        [Effect.read 2 1, Effect.read 5 2, Effect.read 7 2, Effect.read 9 6, Effect.read 15 2,
         Effect.read 17 11, Effect.mux_create (sat_delivery_conf denv0 sat_body 0) 7]) ∧
    ¬ in_bounds 20 (Effect.read 17 11) ∧
    (sat_delivery_conf denv0 sat_body 0).frequency = 11743500 := by
  decide

set_option maxRecDepth 100000 in
/-- C23 (counterexample): the cable descriptor body `cable_body_9999` holds the BCD digits
99999999 and 0069000 and has length 11; with autodiscovery on, the frequency of the mux
asked for is 1,410,065,308 (9,999,999,900 modulo 2^32), not 100 times 99,999,999. For the
digits 21474837 the `int` product `freq * 100` already leaves the range of `int`: with
wrap-around it is -2,147,483,596. -/
theorem C23_counterexample :
    freq_digits cable_body_9999 0 = [9, 9, 9, 9, 9, 9, 9, 9] ∧
    symrate_digits cable_body_9999 0 = [0, 0, 6, 9, 0, 0, 0] ∧
    denv0.tda_autodiscovery = true ∧
    dvb_table_cable_delivery denv0 cable_body_9999 0 11 7 =
      (0, [Effect.read 0 11, Effect.mux_create
        { frequency := 1410065308, inversion := fe_spectral_inversion.INVERSION_AUTO,
          symbol_rate := 6900000, fec_inner := fe_code_rate.FEC_AUTO,
          modulation := fe_modulation.QAM_64, dmc_polarisation := 0, dmc_satconf := 0,
          dmc_fe_modulation := fe_modulation.QPSK,
          dmc_fe_delsys := fe_delivery_system.SYS_UNDEFINED,
          dmc_fe_rolloff := fe_rolloff.ROLLOFF_35 } 7]) ∧
    1410065308 ≠ 100 * decimal_value (freq_digits cable_body_9999 0) ∧
    freq_digits cable_body_2147 0 = [2, 1, 4, 7, 4, 8, 3, 7] ∧
    delivery_freq cable_body_2147 0 * 100 = 2147483700 ∧
    mul32 (delivery_freq cable_body_2147 0) 100 = -2147483596 := by
  decide

theorem mul32_100_exact (x : Int) (V : Nat) (hx : x = (V : Int)) (hV : V ≤ 21474836) :
    mul32 x 100 = ((100 * V : Nat) : Int) ∧ uint32 (mul32 x 100) = 100 * V := by
  have h1 : mul32 x 100 = ((100 * V : Nat) : Int) := by
    rw [hx]; unfold mul32
    rw [int32_id _ (by omega) (by omega)]
    push_cast; ring
  refine ⟨h1, ?_⟩
  rw [h1, uint32_id _ (by omega) (by omega)]
  omega

/-- The cable delivery descriptor with eight frequency digits of value at most 21,474,836:
one mux is asked for, with frequency and symbol rate 100 times the values of their digits,
both `int` products being exact and below 2^31, and with the modulation and inner FEC of
the tables. -/
theorem cable_delivery_exact (D : DecEnv) (buf : List Nat) (off : Nat) (len : Int) (tsid : Nat)
    (h0 : byte buf off / 16 ≤ 9 ∧ byte buf off % 16 ≤ 9)
    (h1 : byte buf (off + 1) / 16 ≤ 9 ∧ byte buf (off + 1) % 16 ≤ 9)
    (h2 : byte buf (off + 2) / 16 ≤ 9 ∧ byte buf (off + 2) % 16 ≤ 9)
    (h3 : byte buf (off + 3) / 16 ≤ 9 ∧ byte buf (off + 3) % 16 ≤ 9)
    (h7 : byte buf (off + 7) / 16 ≤ 9 ∧ byte buf (off + 7) % 16 ≤ 9)
    (h8 : byte buf (off + 8) / 16 ≤ 9 ∧ byte buf (off + 8) % 16 ≤ 9)
    (h9 : byte buf (off + 9) / 16 ≤ 9 ∧ byte buf (off + 9) % 16 ≤ 9)
    (h10 : byte buf (off + 10) / 16 ≤ 9)
    (ha : D.tda_autodiscovery = true) (hl : 11 ≤ len)
    (hrange : decimal_value (freq_digits buf off) ≤ 21474836) :
    ∃ dmc, dvb_table_cable_delivery D buf off len tsid =
        (0, [Effect.read off 11, Effect.mux_create dmc tsid]) ∧
      dmc.frequency = 100 * decimal_value (freq_digits buf off) ∧
      mul32 (delivery_freq buf off) 100 = ((100 * decimal_value (freq_digits buf off) : Nat) : Int) ∧
      100 * decimal_value (freq_digits buf off) < 2 ^ 31 ∧
      dmc.symbol_rate = 100 * decimal_value (symrate_digits buf off) ∧
      mul32 (delivery_symrate buf off) 100 =
        ((100 * decimal_value (symrate_digits buf off) : Nat) : Int) ∧
      100 * decimal_value (symrate_digits buf off) < 2 ^ 31 ∧
      dmc.modulation = (if byte buf (off + 6) &&& 0x0f ≤ 5 then qam_tab (byte buf (off + 6) &&& 0x0f)
        else fe_modulation.QAM_AUTO) ∧
      dmc.fec_inner = fec_tab D.api5 (byte buf (off + 10) &&& 0x07) ∧
      byte buf (off + 10) &&& 0x07 < 16 := by
  obtain ⟨hf, _⟩ := delivery_freq_bcd buf off h0 h1 h2 h3
  obtain ⟨hs, hsb⟩ := delivery_symrate_bcd buf off h7 h8 h9 h10
  obtain ⟨hfm, hfu⟩ := mul32_100_exact _ _ hf hrange
  obtain ⟨hsm, hsu⟩ := mul32_100_exact _ _ hs (le_trans hsb (by decide))
  have hf31 : 100 * decimal_value (freq_digits buf off) < 2 ^ 31 := by
    clear h0 h1 h2 h3 h7 h8 h9 h10 hfm hfu hsm hsu hf hs hsb
    omega
  have hs31 : 100 * decimal_value (symrate_digits buf off) < 2 ^ 31 := by
    clear h0 h1 h2 h3 h7 h8 h9 h10 hfm hfu hsm hsu hf hs hrange
    omega
  have h7' : byte buf (off + 10) &&& 0x07 ≤ 7 := Nat.and_le_right
  refine ⟨{ dmc_zero with
      inversion := fe_spectral_inversion.INVERSION_AUTO
      frequency := uint32 (mul32 (delivery_freq buf off) 100)
      symbol_rate := uint32 (mul32 (delivery_symrate buf off) 100)
      modulation :=
        if (byte buf (off + 6) &&& 0x0f) > 5 then fe_modulation.QAM_AUTO
        else qam_tab (byte buf (off + 6) &&& 0x0f)
      fec_inner := fec_tab D.api5 (byte buf (off + 10) &&& 0x07) }, ?_, ?_⟩
  · unfold dvb_table_cable_delivery
    rw [if_neg (by simp [ha]), if_neg (by clear h0 h1 h2 h3 h7 h8 h9 h10; omega)]
  · simp only [hfu, hsu]
    refine ⟨trivial, hfm, hf31, trivial, hsm, hs31, ?_, trivial, lt_of_le_of_lt h7' (by decide)⟩
    by_cases hq : byte buf (off + 6) &&& 0x0f ≤ 5
    · rw [if_pos hq, if_neg (by omega)]
    · rw [if_neg hq, if_pos (by omega)]

/-- C23 (amended): for a cable delivery descriptor body of declared length at least 11
(autodiscovery on) whose bytes 0..3 hold eight BCD digits and whose symbol-rate field holds
seven BCD digits: if the eight-digit value is at most 21,474,836, `dvb_table_cable_delivery`
asks for one mux whose frequency is 100 times the eight-digit value and whose symbol rate
is 100 times the seven-digit value, both `int` products being exact and below 2^31, the
modulation is `qam_tab[byte6 & 0x0f]` when that index is at most 5 and `QAM_AUTO` otherwise,
the inner FEC is `fec_tab[byte10 & 0x07]`, and the indices used are below 6 and 16; if the
eight-digit value is larger, the product `freq * 100` of line 850 is above the largest
`int`, 2,147,483,647. -/
theorem C23_cable_delivery (D : DecEnv) (buf : List Nat) (off : Nat) (len : Int) (tsid : Nat)
    (h0 : byte buf off / 16 ≤ 9 ∧ byte buf off % 16 ≤ 9)
    (h1 : byte buf (off + 1) / 16 ≤ 9 ∧ byte buf (off + 1) % 16 ≤ 9)
    (h2 : byte buf (off + 2) / 16 ≤ 9 ∧ byte buf (off + 2) % 16 ≤ 9)
    (h3 : byte buf (off + 3) / 16 ≤ 9 ∧ byte buf (off + 3) % 16 ≤ 9)
    (h7 : byte buf (off + 7) / 16 ≤ 9 ∧ byte buf (off + 7) % 16 ≤ 9)
    (h8 : byte buf (off + 8) / 16 ≤ 9 ∧ byte buf (off + 8) % 16 ≤ 9)
    (h9 : byte buf (off + 9) / 16 ≤ 9 ∧ byte buf (off + 9) % 16 ≤ 9)
    (h10 : byte buf (off + 10) / 16 ≤ 9)
    (ha : D.tda_autodiscovery = true) (hl : 11 ≤ len) :
    (decimal_value (freq_digits buf off) ≤ 21474836 →
      ∃ dmc, dvb_table_cable_delivery D buf off len tsid =
          (0, [Effect.read off 11, Effect.mux_create dmc tsid]) ∧
        dmc.frequency = 100 * decimal_value (freq_digits buf off) ∧
        mul32 (delivery_freq buf off) 100 =
          ((100 * decimal_value (freq_digits buf off) : Nat) : Int) ∧
        100 * decimal_value (freq_digits buf off) < 2 ^ 31 ∧
        dmc.symbol_rate = 100 * decimal_value (symrate_digits buf off) ∧
        mul32 (delivery_symrate buf off) 100 =
          ((100 * decimal_value (symrate_digits buf off) : Nat) : Int) ∧
        100 * decimal_value (symrate_digits buf off) < 2 ^ 31 ∧
        dmc.modulation =
          (if byte buf (off + 6) &&& 0x0f ≤ 5 then qam_tab (byte buf (off + 6) &&& 0x0f)
           else fe_modulation.QAM_AUTO) ∧
        dmc.fec_inner = fec_tab D.api5 (byte buf (off + 10) &&& 0x07) ∧
        byte buf (off + 10) &&& 0x07 < 16) ∧
    (21474836 < decimal_value (freq_digits buf off) →
      2147483647 < delivery_freq buf off * 100) := by
  refine ⟨fun hrange => cable_delivery_exact D buf off len tsid h0 h1 h2 h3 h7 h8 h9 h10 ha hl
    hrange, fun hlarge => ?_⟩
  obtain ⟨hf, _⟩ := delivery_freq_bcd buf off h0 h1 h2 h3
  rw [hf]
  clear h0 h1 h2 h3 h7 h8 h9 h10 hf
  omega

set_option maxRecDepth 100000 in
/-- C23 (amended) at the descriptor bodies `cable_body` (digits 03460000 and 0069000) and
`cable_body_2147` (digits 21474837) under `denv0`: for the first the mux asked for has
frequency 346,000,000 and symbol rate 6,900,000, QAM 64 and FEC 7/8; for the second the
product `freq * 100` is above 2,147,483,647. -/
theorem C23_cable_delivery_witness :
    decimal_value (freq_digits cable_body 0) = 3460000 ∧
    decimal_value (symrate_digits cable_body 0) = 69000 ∧
    (∃ dmc, dvb_table_cable_delivery denv0 cable_body 0 11 7 =
        (0, [Effect.read 0 11, Effect.mux_create dmc 7]) ∧
      dmc.frequency = 346000000 ∧ dmc.symbol_rate = 6900000 ∧
      dmc.modulation = fe_modulation.QAM_64 ∧ dmc.fec_inner = fe_code_rate.FEC_7_8) ∧
    decimal_value (freq_digits cable_body_2147 0) = 21474837 ∧
    2147483647 < delivery_freq cable_body_2147 0 * 100 := by
  refine ⟨by decide, by decide, ?_, by decide, ?_⟩
  · obtain ⟨dmc, k1, k2, _, _, k5, _, _, k8, k9, _⟩ :=
      (C23_cable_delivery denv0 cable_body 0 11 7 (by decide) (by decide) (by decide)
        (by decide) (by decide) (by decide) (by decide) (by decide) rfl (by decide)).1
        (by decide)
    exact ⟨dmc, k1, k2.trans (by decide), k5.trans (by decide), k8.trans (by decide),
      k9.trans (by decide)⟩
  · exact (C23_cable_delivery denv0 cable_body_2147 0 11 7 (by decide) (by decide) (by decide)
      (by decide) (by decide) (by decide) (by decide) (by decide) rfl (by decide)).2 (by decide)

theorem keeps_bound_refl (s : State) : keeps_bound s s :=
  fun _ t h _ => ⟨t, h, rfl⟩

theorem keeps_bound_trans {s s1 s2 : State} (h1 : keeps_bound s s1) (h2 : keeps_bound s1 s2) :
    keeps_bound s s2 := by
  intro b t hb hfd
  obtain ⟨t1, k1, k2⟩ := h1 b t hb hfd
  obtain ⟨t2, k3, k4⟩ := h2 b t1 k1 (by rw [k2]; exact hfd)
  exact ⟨t2, k3, k4.trans k2⟩

theorem keeps_bound_same {s s1 : State} (ht : s1.tdmi_tables = s.tdmi_tables) :
    keeps_bound s s1 := by
  intro b t hb _
  refine ⟨t, ?_, rfl⟩
  unfold find_tdt at hb ⊢
  rw [ht]
  exact hb

theorem keeps_bound_cons {s s1 : State} (t : th_dvb_table)
    (ht : s1.tdmi_tables = t :: s.tdmi_tables)
    (hfresh : ∀ u ∈ s.tdmi_tables, u.addr ≠ t.addr) : keeps_bound s s1 := by
  intro b u hb _
  obtain ⟨hum, hua⟩ := find_tdt_some hb
  refine ⟨u, ?_, rfl⟩
  have hne : ¬ t.addr = b := fun h => hfresh u hum (hua.trans h.symm)
  unfold find_tdt at hb ⊢
  rw [ht, List.find?_cons_of_neg _ (by simpa using hne)]
  exact hb

theorem keeps_bound_map {s s1 : State} (F : th_dvb_table → th_dvb_table)
    (hF : ∀ u, (F u).addr = u.addr) (hfd : ∀ u, u.tdt_fd ≠ -1 → (F u).tdt_fd = u.tdt_fd)
    (ht : s1.tdmi_tables = s.tdmi_tables.map F) : keeps_bound s s1 := by
  intro b t hb hb1
  refine ⟨F t, ?_, hfd t hb1⟩
  rw [find_tdt_map F hF ht b, hb]
  rfl

theorem tdt_open_fd_keeps {s s1 : State} {a : Nat} (h : tdt_open_fd s a = some s1) :
    keeps_bound s s1 := by
  cases hf : find_tdt s a with
  | none => simp [tdt_open_fd, hf] at h
  | some t0 =>
    by_cases hfd : t0.tdt_fd = -1
    · obtain ⟨s2, g, k1, k2, k3, _⟩ := tdt_open_fd_spec hf hfd
      rw [h, Option.some.injEq] at k1
      subst k1
      intro b t hb hb1
      obtain ⟨_, hta⟩ := find_tdt_some hb
      have hne : ¬ t.addr = a := by
        intro hba
        rw [← hta, hba, hf, Option.some.injEq] at hb
        rw [← hb] at hb1
        exact hb1 hfd
      refine ⟨t, ?_, rfl⟩
      rw [find_tdt_map (fun u => if u.addr = a then g u else u) (upd_addr a g k3) k2 b, hb]
      simp [hne]
    · simp [tdt_open_fd, hf, hfd] at h

theorem tdt_add_keeps {env : Env} {s s1 : State} {fp : Option dmx_sct_filter_params}
    {cb : Callback} {opq : Opaque} {name : String} {flags : Nat} {pid : Int} {tdt : Option Nat}
    (hI : Inv s) (hb : fresh_block s tdt)
    (h : tdt_add env s fp cb opq name flags pid tdt = some s1) : keeps_bound s s1 := by
  unfold tdt_add at h
  simp only at h
  split at h
  · simp only [Option.some.injEq] at h
    subst h
    exact keeps_bound_same rfl
  · cases tdt with
    | none =>
      simp only [calloc, log] at h
      refine keeps_bound_trans ?_ (tdt_open_fd_keeps h)
      exact keeps_bound_cons _ rfl (fun u hu => ne_of_lt (hI.addr_lt u hu))
    | some a =>
      simp only [log] at h
      refine keeps_bound_trans ?_ (tdt_open_fd_keeps h)
      exact keeps_bound_cons _ rfl (fun u hu => ne_of_lt (hb.2 u hu))

theorem dvb_table_add_transport_keeps {env : Env} {s s1 : State} {t : Option Nat}
    {pmt_pid : Int}
    (hI : Inv s) (h : dvb_table_add_transport env s t pmt_pid = some s1) : keeps_bound s s1 := by
  unfold dvb_table_add_transport at h
  cases t with
  | some t =>
    have h1 : keeps_bound s (log s (Event.add_transport (some t) pmt_pid)) :=
      keeps_bound_same rfl
    exact keeps_bound_trans h1
      (tdt_add_keeps (s := log s _) hI (show fresh_block _ none from trivial) h)
  | none =>
    have h1 : keeps_bound s (log (log s (Event.add_transport none pmt_pid)) Event.null_deref) :=
      keeps_bound_same rfl
    exact keeps_bound_trans h1
      (tdt_add_keeps (s := log (log s _) _) hI (show fresh_block _ none from trivial) h)

theorem pat_loop_keeps (env : Env) : ∀ (fuel : Nat) (s s1 : State) (ptr : List Nat) (len : Int),
    Inv s → pat_loop env fuel s ptr len = some s1 → keeps_bound s s1 := by
  intro fuel
  induction fuel with
  | zero => intro s s1 ptr len _ h; simp [pat_loop] at h
  | succ n ih =>
    intro s s1 ptr len hI h
    simp only [pat_loop] at h
    split at h
    · split at h
      · simp at h
      · rename_i s2 hr
        split at hr
        · exact keeps_bound_trans (dvb_table_add_transport_keeps hI hr)
            (ih s2 s1 _ _ (dvb_table_add_transport_inv hI hr) h)
        · simp only [Option.some.injEq] at hr
          subst hr
          exact ih s s1 _ _ hI h
    · simp only [Option.some.injEq] at h
      subst h
      exact keeps_bound_refl s

theorem cat_loop_keeps (env : Env) : ∀ (fuel : Nat) (s s1 : State) (ptr : List Nat) (len : Int),
    Inv s → cat_loop env fuel s ptr len = some s1 → keeps_bound s s1 := by
  intro fuel
  induction fuel with
  | zero => intro s s1 ptr len _ h; simp [cat_loop] at h
  | succ n ih =>
    intro s s1 ptr len hI h
    simp only [cat_loop] at h
    split at h
    · split at h
      · simp at h
      · rename_i s2 hr
        split at hr
        · split at hr
          · simp only [Option.some.injEq] at hr
            subst hr
            exact ih s s1 _ _ hI h
          · simp only [calloc] at hr
            have hI1 : Inv { s with heap_next := s.heap_next + 1 } :=
              ⟨hI.addr_nodup, fun t ht => Nat.lt_succ_of_lt (hI.addr_lt t ht),
                hI.queue_nodup, hI.queue_sub, hI.pending_iff, hI.pid_nodup⟩
            have hb : fresh_block { s with heap_next := s.heap_next + 1 } (some s.heap_next) :=
              ⟨Nat.lt_succ_self _, fun u hu => hI.addr_lt u hu⟩
            have hF0 : keeps_bound s { s with heap_next := s.heap_next + 1 } :=
              keeps_bound_same rfl
            exact keeps_bound_trans (keeps_bound_trans hF0 (tdt_add_keeps hI1 hb hr))
              (ih s2 s1 _ _ (tdt_add_inv hI1 hb hr) h)
        · simp only [Option.some.injEq] at hr
          subst hr
          exact ih s s1 _ _ hI h
    · simp only [Option.some.injEq] at h
      subst h
      exact keeps_bound_refl s

theorem run_callback_keeps {env : Env} {s s1 : State} {cb : Callback} {ptr : List Nat}
    {len : Int} {tableid : Nat} {ret : Int} (hI : Inv s)
    (h : run_callback env s cb ptr len tableid = some (s1, ret)) : keeps_bound s s1 := by
  cases cb <;> simp only [run_callback, Option.some.injEq, Prod.mk.injEq] at h
  case dvb_pat_callback =>
    unfold dvb_pat_callback at h
    split at h
    · simp only [Option.some.injEq, Prod.mk.injEq] at h; rw [← h.1]; exact keeps_bound_refl s
    · split at h
      · simp only [Option.some.injEq, Prod.mk.injEq] at h; rw [← h.1]; exact keeps_bound_refl s
      · simp only at h
        split at h
        · simp at h
        · rename_i s2 hl
          simp only [Option.some.injEq, Prod.mk.injEq] at h
          rw [← h.1]
          split at hl
          · refine keeps_bound_trans ?_
              (pat_loop_keeps env _ _ _ _ _ (show Inv (dvb_mux_set_tsid s _) from hI) hl)
            exact keeps_bound_same rfl
          · exact pat_loop_keeps env _ _ _ _ _ hI hl
  case dvb_cat_callback =>
    unfold dvb_cat_callback at h
    split at h
    · simp only [Option.some.injEq, Prod.mk.injEq] at h; rw [← h.1]; exact keeps_bound_refl s
    · split at h
      · simp at h
      · rename_i s2 hl
        simp only [Option.some.injEq, Prod.mk.injEq] at h
        rw [← h.1]
        exact cat_loop_keeps env _ _ _ _ _ hI hl
  all_goals (rw [← h.1]; exact keeps_bound_refl s)

/-- Processing a section closes no filter: a bound subscription is still bound, with the
same descriptor, when `dvb_proc_table` returns, whatever the decoder registered. -/
theorem dvb_proc_table_keeps {env : Env} {s s1 : State} {a : Nat} {sec : List Nat} {r : Int}
    (hI : Inv s) (h : dvb_proc_table env s a sec r = some s1) : keeps_bound s s1 := by
  unfold dvb_proc_table at h
  cases hf : find_tdt s a with
  | none => simp [hf] at h
  | some t =>
    simp only [hf] at h
    split at h
    · simp only [Option.some.injEq] at h; subst h; exact keeps_bound_refl s
    · split at h
      · simp only [Option.some.injEq] at h; subst h; exact keeps_bound_refl s
      · split at h
        · simp at h
        · rename_i s2 ret hr
          have hk2 : keeps_bound s s2 :=
            keeps_bound_trans (keeps_bound_same rfl) (run_callback_keeps (s := log s _) hI hr)
          have hk3 : keeps_bound s2 (if ret = 0 then
              upd_tdt s2 a (fun u => { u with tdt_count := u.tdt_count + 1 }) else s2) := by
            split
            · exact keeps_bound_map
                (fun u => if u.addr = a then { u with tdt_count := u.tdt_count + 1 } else u)
                (fun u => by dsimp only; split <;> rfl) (fun u _ => by dsimp only; split <;> rfl) rfl
            · exact keeps_bound_refl s2
          simp only [Option.some.injEq] at h
          subst h
          split
          · exact keeps_bound_trans (keeps_bound_trans hk2 hk3)
              (keeps_bound_same (dvb_table_fastswitch_tables _).1)
          · exact keeps_bound_trans hk2 hk3

theorem dvb_proc_table_total (env : Env) {s : State} {a : Nat} {t : th_dvb_table}
    (sec : List Nat) (r : Int) (hf : find_tdt s a = some t) :
    ∃ s1, dvb_proc_table env s a sec r = some s1 := by
  by_cases hcrc : t.tdt_flags &&& TDT_CRC ≠ 0 ∧ env.psi_crc32 sec r ≠ 0
  · exact ⟨s, by unfold dvb_proc_table; simp only [hf]; rw [if_pos hcrc]⟩
  · by_cases hlen : section_length sec < r - 3
    · exact ⟨s, by unfold dvb_proc_table; simp only [hf]; rw [if_neg hcrc, if_pos hlen]⟩
    · obtain ⟨s1, _, h1, _⟩ := dvb_proc_table_accept env sec r hf hcrc hlen
      exact ⟨s1, h1⟩

theorem IdCore.upd_keep {l : List th_dvb_table} {n : Int} (hI : IdCore l n) (a : Nat)
    (g : th_dvb_table → th_dvb_table) (hga : ∀ u, (g u).addr = u.addr)
    (hgi : ∀ u, (g u).tdt_id = u.tdt_id) (hgf : ∀ u, (g u).tdt_fd ≠ -1 → u.tdt_fd ≠ -1) :
    IdCore (l.map (fun u => if u.addr = a then g u else u)) n := by
  have hmem : ∀ t ∈ l.map (fun u => if u.addr = a then g u else u),
      ∃ u ∈ l, t.addr = u.addr ∧ t.tdt_id = u.tdt_id ∧ (t.tdt_fd ≠ -1 → u.tdt_fd ≠ -1) := by
    intro t ht
    obtain ⟨u, hu, rfl⟩ := List.mem_map.1 ht
    refine ⟨u, hu, ?_⟩
    split
    · exact ⟨hga u, hgi u, hgf u⟩
    · exact ⟨rfl, rfl, fun h => h⟩
  refine ⟨hI.tally_nonneg, ?_, ?_, ?_⟩
  · intro t ht
    obtain ⟨u, hu, _, hi, _⟩ := hmem t ht
    rw [hi]; exact hI.id_range u hu
  · intro t ht hfd
    obtain ⟨u, hu, _, hi, hf⟩ := hmem t ht
    rw [hi]; exact hI.bound_pos u hu (hf hfd)
  · intro t ht u hu hpos heq
    obtain ⟨t0, ht0, hta, hti, _⟩ := hmem t ht
    obtain ⟨u0, hu0, hua, hui, _⟩ := hmem u hu
    rw [hta, hua]
    exact hI.pos_unique t0 ht0 u0 hu0 (by rw [← hti]; exact hpos) (by rw [← hti, ← hui]; exact heq)

theorem IdCore.upd_new {l : List th_dvb_table} {n : Int} (hI : IdCore l n) (a : Nat)
    (g : th_dvb_table → th_dvb_table) (hga : ∀ u, (g u).addr = u.addr)
    (hgi : ∀ u, (g u).tdt_id = n + 1) :
    IdCore (l.map (fun u => if u.addr = a then g u else u)) (n + 1) := by
  have hn := hI.tally_nonneg
  have hmem : ∀ t ∈ l.map (fun u => if u.addr = a then g u else u),
      (t.addr = a ∧ t.tdt_id = n + 1) ∨ (t ∈ l ∧ t.addr ≠ a) := by
    intro t ht
    obtain ⟨u, hu, rfl⟩ := List.mem_map.1 ht
    by_cases hua : u.addr = a
    · left; simp only [hua, if_true]; exact ⟨(hga u).trans hua, hgi u⟩
    · right; simp only [hua, if_false]; exact ⟨hu, hua⟩
  refine ⟨by omega, ?_, ?_, ?_⟩
  · intro t ht
    rcases hmem t ht with ⟨_, hi⟩ | ⟨hm, _⟩
    · rw [hi]; omega
    · have := hI.id_range t hm; omega
  · intro t ht hfd
    rcases hmem t ht with ⟨_, hi⟩ | ⟨hm, _⟩
    · rw [hi]; omega
    · exact hI.bound_pos t hm hfd
  · intro t ht u hu hpos heq
    rcases hmem t ht with ⟨hta, hti⟩ | ⟨htm, _⟩
    · rcases hmem u hu with ⟨hua, _⟩ | ⟨hum, _⟩
      · rw [hta, hua]
      · have := hI.id_range u hum; omega
    · rcases hmem u hu with ⟨_, hui⟩ | ⟨hum, _⟩
      · have := hI.id_range t htm; omega
      · exact hI.pos_unique t htm u hum hpos heq

theorem IdCore.link {l : List th_dvb_table} {n : Int} (hI : IdCore l n) (t : th_dvb_table)
    (hid : t.tdt_id = 0) (hfd : t.tdt_fd = -1) : IdCore (t :: l) n := by
  have hn := hI.tally_nonneg
  refine ⟨hn, ?_, ?_, ?_⟩
  · intro u hu
    rcases List.mem_cons.1 hu with rfl | hu
    · rw [hid]; omega
    · exact hI.id_range u hu
  · intro u hu hb
    rcases List.mem_cons.1 hu with rfl | hu
    · exact absurd hfd hb
    · exact hI.bound_pos u hu hb
  · intro u hu v hv hpos heq
    rcases List.mem_cons.1 hu with rfl | hu
    · omega
    · rcases List.mem_cons.1 hv with rfl | hv
      · omega
      · exact hI.pos_unique u hu v hv hpos heq

theorem IdCore.filter {l : List th_dvb_table} {n : Int} (hI : IdCore l n)
    (p : th_dvb_table → Bool) : IdCore (l.filter p) n :=
  ⟨hI.tally_nonneg, fun t ht => hI.id_range t (List.mem_of_mem_filter ht),
    fun t ht => hI.bound_pos t (List.mem_of_mem_filter ht),
    fun t ht u hu => hI.pos_unique t (List.mem_of_mem_filter ht) u (List.mem_of_mem_filter hu)⟩

theorem tdt_open_fd_id {s s1 : State} {a : Nat} (hI : IdInv s) (h : tdt_open_fd s a = some s1) :
    IdInv s1 := by
  unfold tdt_open_fd at h
  cases hf : find_tdt s a with
  | none => simp [hf] at h
  | some t =>
    simp only [hf] at h
    split at h
    · simp at h
    · split at h
      · split at h
        · simp only [Option.some.injEq] at h
          subst h
          exact IdCore.upd_new hI a _ (fun _ => rfl) (fun _ => rfl)
        · split at h
          · simp only [Option.some.injEq] at h
            subst h
            exact IdCore.upd_new hI a _ (fun _ => rfl) (fun _ => rfl)
          · simp only [Option.some.injEq] at h
            subst h
            exact IdCore.upd_new hI a _ (fun _ => rfl) (fun _ => rfl)
      · simp only [Option.some.injEq] at h
        subst h
        exact IdCore.upd_keep hI a _ (fun _ => rfl) (fun _ => rfl) (fun _ hb => absurd rfl hb)

theorem tdt_close_fd_id {s s1 : State} {a : Nat} (hI : IdInv s) (h : tdt_close_fd s a = some s1) :
    IdInv s1 := by
  unfold tdt_close_fd at h
  cases hf : find_tdt s a with
  | none => simp [hf] at h
  | some t =>
    simp only [hf] at h
    split at h
    · simp at h
    · simp only [Option.some.injEq] at h
      subst h
      exact IdCore.upd_keep hI a _ (fun _ => rfl) (fun _ => rfl) (fun _ hb => absurd rfl hb)

theorem dvb_tdt_destroy_id {s s1 : State} {a : Nat} (hI : IdInv s)
    (h : dvb_tdt_destroy s a = some s1) : IdInv s1 := by
  unfold dvb_tdt_destroy at h
  cases hf : find_tdt s a with
  | none => simp [hf] at h
  | some t =>
    simp only [hf] at h
    split at h
    · simp only [Option.some.injEq] at h
      subst h
      exact IdCore.filter hI _
    · simp only [Option.some.injEq] at h
      subst h
      exact IdCore.filter hI _

theorem tdt_add_id {env : Env} {s s1 : State} {fp : Option dmx_sct_filter_params}
    {cb : Callback} {opq : Opaque} {name : String} {flags : Nat} {pid : Int} {tdt : Option Nat}
    (hI : IdInv s) (h : tdt_add env s fp cb opq name flags pid tdt = some s1) : IdInv s1 := by
  unfold tdt_add at h
  simp only at h
  split at h
  · simp only [Option.some.injEq] at h
    subst h
    exact hI
  · cases tdt with
    | none =>
      simp only [calloc, log] at h
      refine tdt_open_fd_id ?_ h
      exact IdCore.link (l := s.tdmi_tables) hI _ rfl rfl
    | some a =>
      simp only [log] at h
      refine tdt_open_fd_id ?_ h
      exact IdCore.link (l := s.tdmi_tables) hI _ rfl rfl

theorem dvb_table_add_transport_id {env : Env} {s s1 : State} {t : Option Nat}
    {pmt_pid : Int}
    (hI : IdInv s) (h : dvb_table_add_transport env s t pmt_pid = some s1) : IdInv s1 := by
  unfold dvb_table_add_transport at h
  cases t with
  | some t => exact tdt_add_id (s := log s _) hI h
  | none => exact tdt_add_id (s := log (log s _) _) hI h

theorem pat_loop_id (env : Env) : ∀ (fuel : Nat) (s s1 : State) (ptr : List Nat) (len : Int),
    IdInv s → pat_loop env fuel s ptr len = some s1 → IdInv s1 := by
  intro fuel
  induction fuel with
  | zero => intro s s1 ptr len _ h; simp [pat_loop] at h
  | succ n ih =>
    intro s s1 ptr len hI h
    simp only [pat_loop] at h
    split at h
    · split at h
      · simp at h
      · rename_i s2 hr
        split at hr
        · exact ih s2 s1 _ _ (dvb_table_add_transport_id hI hr) h
        · simp only [Option.some.injEq] at hr
          subst hr
          exact ih s s1 _ _ hI h
    · simp only [Option.some.injEq] at h
      subst h
      exact hI

theorem cat_loop_id (env : Env) : ∀ (fuel : Nat) (s s1 : State) (ptr : List Nat) (len : Int),
    IdInv s → cat_loop env fuel s ptr len = some s1 → IdInv s1 := by
  intro fuel
  induction fuel with
  | zero => intro s s1 ptr len _ h; simp [cat_loop] at h
  | succ n ih =>
    intro s s1 ptr len hI h
    simp only [cat_loop] at h
    split at h
    · split at h
      · simp at h
      · rename_i s2 hr
        split at hr
        · split at hr
          · simp only [Option.some.injEq] at hr
            subst hr
            exact ih s s1 _ _ hI h
          · simp only [calloc] at hr
            exact ih s2 s1 _ _ (tdt_add_id (s := { s with heap_next := s.heap_next + 1 }) hI hr) h
        · simp only [Option.some.injEq] at hr
          subst hr
          exact ih s s1 _ _ hI h
    · simp only [Option.some.injEq] at h
      subst h
      exact hI

theorem run_callback_id {env : Env} {s s1 : State} {cb : Callback} {ptr : List Nat}
    {len : Int} {tableid : Nat} {ret : Int} (hI : IdInv s)
    (h : run_callback env s cb ptr len tableid = some (s1, ret)) : IdInv s1 := by
  cases cb <;> simp only [run_callback, Option.some.injEq, Prod.mk.injEq] at h
  case dvb_pat_callback =>
    unfold dvb_pat_callback at h
    split at h
    · simp only [Option.some.injEq, Prod.mk.injEq] at h; rw [← h.1]; exact hI
    · split at h
      · simp only [Option.some.injEq, Prod.mk.injEq] at h; rw [← h.1]; exact hI
      · simp only at h
        split at h
        · simp at h
        · rename_i s2 hl
          simp only [Option.some.injEq, Prod.mk.injEq] at h
          rw [← h.1]
          split at hl
          · exact pat_loop_id env _ _ _ _ _ (show IdInv (dvb_mux_set_tsid s _) from hI) hl
          · exact pat_loop_id env _ _ _ _ _ hI hl
  case dvb_cat_callback =>
    unfold dvb_cat_callback at h
    split at h
    · simp only [Option.some.injEq, Prod.mk.injEq] at h; rw [← h.1]; exact hI
    · split at h
      · simp at h
      · rename_i s2 hl
        simp only [Option.some.injEq, Prod.mk.injEq] at h
        rw [← h.1]
        exact cat_loop_id env _ _ _ _ _ hI hl
  all_goals (rw [← h.1]; exact hI)

theorem dvb_table_fastswitch_id {s : State} (hI : IdInv s) : IdInv (dvb_table_fastswitch s) := by
  unfold dvb_table_fastswitch
  simp only
  split
  · exact hI
  · split
    · exact hI
    · exact hI

theorem dvb_proc_table_id {env : Env} {s s1 : State} {a : Nat} {sec : List Nat} {r : Int}
    (hI : IdInv s) (h : dvb_proc_table env s a sec r = some s1) : IdInv s1 := by
  unfold dvb_proc_table at h
  cases hf : find_tdt s a with
  | none => simp [hf] at h
  | some t =>
    simp only [hf] at h
    split at h
    · simp only [Option.some.injEq] at h; subst h; exact hI
    · split at h
      · simp only [Option.some.injEq] at h; subst h; exact hI
      · split at h
        · simp at h
        · rename_i s2 ret hr
          have hI2 : IdInv s2 := run_callback_id (s := log s _) hI hr
          have hI3 : IdInv (if ret = 0 then
              upd_tdt s2 a (fun u => { u with tdt_count := u.tdt_count + 1 }) else s2) := by
            split
            · exact IdCore.upd_keep hI2 a _ (fun _ => rfl) (fun _ => rfl) (fun _ hb => hb)
            · exact hI2
          simp only [Option.some.injEq] at h
          subst h
          split
          · exact dvb_table_fastswitch_id hI3
          · exact hI3

theorem rotate_pending_id {s s1 : State} {a : Nat} (hI : IdInv s)
    (h : rotate_pending s a = some s1) : IdInv s1 := by
  unfold rotate_pending at h
  split at h
  · split at h
    · simp at h
    · rename_i s2 hc
      have hI2 := tdt_close_fd_id hI hc
      split at h
      · simp at h
      · exact tdt_open_fd_id hI2 h
  · simp only [Option.some.injEq] at h; subst h; exact hI

theorem dvb_table_input_id {env : Env} {s s1 : State} {events u64 : Nat} {r : Int}
    {sec : List Nat} {t : Int} (hI : IdInv s)
    (h : dvb_table_input env s events u64 r sec t = some s1) : IdInv s1 := by
  unfold dvb_table_input at h
  simp only at h
  split at h
  · simp only [Option.some.injEq] at h; subst h; exact hI
  · split at h
    · simp only [Option.some.injEq] at h; subst h; exact hI
    · split at h
      · simp only [Option.some.injEq] at h; subst h; exact hI
      · split at h
        · split at h
          · simp only [Option.some.injEq] at h; subst h; exact hI
          · split at h
            · simp at h
            · rename_i s2 hp
              exact rotate_pending_id (dvb_proc_table_id hI hp) h
        · simp only [Option.some.injEq] at h; subst h; exact hI

theorem step_id {env : Env} {s s1 : State} {op : Op} (hI : IdInv s)
    (h : step env s op = some s1) : IdInv s1 := by
  cases op <;> simp only [step] at h
  case tdt_add => exact tdt_add_id hI h
  case tdt_add_block =>
    simp only [calloc] at h
    exact tdt_add_id (s := { s with heap_next := s.heap_next + 1 }) hI h
  case tdt_open_fd => exact tdt_open_fd_id hI h
  case tdt_close_fd => exact tdt_close_fd_id hI h
  case rotate => exact rotate_pending_id hI h
  case dvb_tdt_destroy => exact dvb_tdt_destroy_id hI h
  case input => exact dvb_table_input_id hI h

theorem run_id (env : Env) : ∀ (ops : List Op) (s s1 : State),
    IdInv s → run env s ops = some s1 → IdInv s1 := by
  intro ops
  induction ops with
  | nil => intro s s1 hI h; simp only [run, Option.some.injEq] at h; subst h; exact hI
  | cons op ops ih =>
    intro s s1 hI h
    simp only [run] at h
    split at h
    · simp at h
    · rename_i s2 hs
      exact ih s2 s1 (step_id hI hs) h

/-- In a state reached from an empty stream whose identifier counter is not negative, no
other subscription carries the `tdt_id` of a bound subscription. -/
theorem reachable_bound_id_unique (env : Env) (s0 s : State) (ops : List Op)
    (h0 : empty_stream s0) (hn : 0 ≤ s0.tdt_id_tally) (hr : run env s0 ops = some s) :
    ∀ t ∈ s.tdmi_tables, t.tdt_fd ≠ -1 →
      ∀ u ∈ s.tdmi_tables, u.tdt_id = t.tdt_id → u = t := by
  have hI0 : IdInv s0 := by
    unfold IdInv
    rw [h0.1]
    exact ⟨hn, by simp, by simp, by simp⟩
  have hId := run_id env ops s0 s hI0 hr
  have hI := run_inv env ops s0 s (empty_stream_inv h0) hr
  intro t ht hb u hu hid
  have ha := hId.pos_unique t ht u hu (hId.bound_pos t ht hb) hid.symm
  exact (List.inj_on_of_nodup_map hI.addr_nodup ht hu ha).symm

theorem find_by_id_unique {s : State} {t : th_dvb_table} {tid : Int} (hm : t ∈ s.tdmi_tables)
    (hid : tid = t.tdt_id) (huniq : ∀ u ∈ s.tdmi_tables, u.tdt_id = t.tdt_id → u = t) :
    s.tdmi_tables.find? (fun x => decide (x.tdt_id = tid)) = some t := by
  cases hf : s.tdmi_tables.find? (fun x => decide (x.tdt_id = tid)) with
  | none =>
    rw [List.find?_eq_none] at hf
    have := hf t hm
    simp [hid] at this
  | some u =>
    have hu := List.mem_of_find?_eq_some hf
    have hp := List.find?_some hf
    simp only [decide_eq_true_eq] at hp
    rw [huniq u hu (hp.trans hid)]

/-- The rotation block after a section was processed for the bound subscription at `a`: the
three assertions hold and the block completes. -/
theorem rotate_pending_asserts {s2 : State} {a : Nat} {t2 : th_dvb_table} (hI2 : Inv s2)
    (hf2 : find_tdt s2 a = some t2) (hb2 : t2.tdt_fd ≠ -1) (H : Nat) (Q : List Nat)
    (hq : s2.tdmi_table_queue = H :: Q) :
    ∃ s3 tH s1, tdt_close_fd s2 a = some s3 ∧ s3.tdmi_table_queue.head? = some H ∧
      find_tdt s3 H = some tH ∧ tH.tdt_fd = -1 ∧ tdt_open_fd s3 H = some s1 ∧
      rotate_pending s2 a = some s1 := by
  obtain ⟨s3, hc, ht3, hq3, _⟩ := tdt_close_fd_spec hf2 hb2
  have hHq : H ∈ s2.tdmi_table_queue := by rw [hq]; exact List.mem_cons_self _ _
  obtain ⟨tH, hHm, hHa⟩ := hI2.queue_sub H hHq
  have hHfd : tH.tdt_fd = -1 := (hI2.pending_iff tH hHm).1 (by rw [hHa]; exact hHq)
  obtain ⟨h2m, h2a⟩ := find_tdt_some hf2
  have hne : ¬ tH.addr = a := by
    intro hHa2
    have hq2 : t2.addr ∈ s2.tdmi_table_queue := by rw [h2a, ← hHa2, hHa]; exact hHq
    exact hb2 ((hI2.pending_iff t2 h2m).1 hq2)
  have hf3 : find_tdt s3 H = some tH := by
    rw [find_tdt_map (fun u => if u.addr = a then { u with tdt_fd := -1 } else u)
      (fun u => by dsimp only; split <;> rfl) ht3 H, ← hHa, find_tdt_of_mem_inv hI2 hHm]
    simp [hne]
  have hh3 : s3.tdmi_table_queue.head? = some H := by rw [hq3, hq]; rfl
  obtain ⟨s1, ho⟩ := tdt_open_fd_total hf3 hHfd
  refine ⟨s3, tH, s1, hc, hh3, hf3, hHfd, ho, ?_⟩
  unfold rotate_pending
  rw [if_pos (by rw [hq]; simp)]
  simp only [hc, hh3, ho]

/-- The dispatch step in a state satisfying the registry invariant, for a readiness event
whose identifier is the `tdt_id` of a bound subscription `t` that no other subscription of
the stream carries: the lookup resolves to `t`, `t` is still bound after the section was
processed, the head of the pending queue taken after the release is the head `H` it had
before, `H` has `tdt_fd == -1`, and the step completes. -/
theorem dispatch_assertions_of_unique (env : Env) (s : State) (events u64 : Nat) (r : Int)
    (sec : List Nat) (clock : Int) (t : th_dvb_table) (hI : Inv s)
    (hm : t ∈ s.tdmi_tables) (hb : t.tdt_fd ≠ -1)
    (hid : to_int32 (u64 &&& 0xffffffff) = t.tdt_id)
    (huniq : ∀ u ∈ s.tdmi_tables, u.tdt_id = t.tdt_id → u = t) :
    s.tdmi_tables.find? (fun x => decide (x.tdt_id = to_int32 (u64 &&& 0xffffffff))) = some t ∧
    (∃ s2 t2, dvb_proc_table env s t.addr sec r = some s2 ∧
      find_tdt s2 t.addr = some t2 ∧ t2.tdt_fd ≠ -1 ∧
      (s2.tdmi_table_queue = [] → rotate_pending s2 t.addr = some s2) ∧
      (∀ H Q, s2.tdmi_table_queue = H :: Q →
        ∃ s3 tH s1, tdt_close_fd s2 t.addr = some s3 ∧ s3.tdmi_table_queue.head? = some H ∧
          find_tdt s3 H = some tH ∧ tH.tdt_fd = -1 ∧ tdt_open_fd s3 H = some s1 ∧
          rotate_pending s2 t.addr = some s1)) ∧
    ∃ s1, dvb_table_input env s events u64 r sec clock = some s1 := by
  have hres := find_by_id_unique hm hid huniq
  have hf := find_tdt_of_mem_inv hI hm
  obtain ⟨s2, hp⟩ := dvb_proc_table_total env sec r hf
  obtain ⟨t2, hf2, hfd2⟩ := dvb_proc_table_keeps hI hp t.addr t hf hb
  have hb2 : t2.tdt_fd ≠ -1 := by rw [hfd2]; exact hb
  have hI2 := dvb_proc_table_inv hI hp
  have hempty : s2.tdmi_table_queue = [] → rotate_pending s2 t.addr = some s2 := by
    intro hq
    unfold rotate_pending
    rw [if_neg (by simp [hq])]
  have hrot : ∃ s1, rotate_pending s2 t.addr = some s1 := by
    cases hq : s2.tdmi_table_queue with
    | nil => exact ⟨s2, hempty hq⟩
    | cons H Q =>
      obtain ⟨_, _, s1, _, _, _, _, _, k⟩ := rotate_pending_asserts hI2 hf2 hb2 H Q hq
      exact ⟨s1, k⟩
  refine ⟨hres, ⟨s2, t2, hp, hf2, hb2, hempty,
    fun H Q hq => rotate_pending_asserts hI2 hf2 hb2 H Q hq⟩, ?_⟩
  unfold dvb_table_input
  simp only [hres, hp]
  split
  · exact ⟨s, rfl⟩
  · split
    · exact ⟨s, rfl⟩
    · split
      · exact ⟨s, rfl⟩
      · split
        · exact hrot
        · exact ⟨s, rfl⟩

/-- C24: in a state `s` reached from an empty stream (identifier counter not negative;
such a state satisfies the bound/pending invariant), for a readiness event whose
identifier is the `tdt_id` of a bound subscription `t` of the stream, the lookup of lines
269-271 resolves to `t`, and whatever the decoder registers while the section is
processed, `t` is still bound afterwards (assertion of `tdt_close_fd`), the head of the
pending queue taken after the release is the head `H` it had before (non-null), `H` has
`tdt_fd == -1` (assertion of `tdt_open_fd`), and the dispatch step completes. -/
theorem C24_dispatch_assertions (env : Env) (s0 s : State) (ops : List Op) (events u64 : Nat)
    (r : Int) (sec : List Nat) (clock : Int) (t : th_dvb_table)
    (h0 : empty_stream s0) (hn : 0 ≤ s0.tdt_id_tally) (hr : run env s0 ops = some s)
    (hm : t ∈ s.tdmi_tables) (hb : t.tdt_fd ≠ -1)
    (hid : to_int32 (u64 &&& 0xffffffff) = t.tdt_id) :
    Inv s ∧
    s.tdmi_tables.find? (fun x => decide (x.tdt_id = to_int32 (u64 &&& 0xffffffff))) = some t ∧
    (∃ s2 t2, dvb_proc_table env s t.addr sec r = some s2 ∧
      find_tdt s2 t.addr = some t2 ∧ t2.tdt_fd ≠ -1 ∧
      (s2.tdmi_table_queue = [] → rotate_pending s2 t.addr = some s2) ∧
      (∀ H Q, s2.tdmi_table_queue = H :: Q →
        ∃ s3 tH s1, tdt_close_fd s2 t.addr = some s3 ∧ s3.tdmi_table_queue.head? = some H ∧
          find_tdt s3 H = some tH ∧ tH.tdt_fd = -1 ∧ tdt_open_fd s3 H = some s1 ∧
          rotate_pending s2 t.addr = some s1)) ∧
    ∃ s1, dvb_table_input env s events u64 r sec clock = some s1 := by
  have hI : Inv s := run_inv env ops s0 s (empty_stream_inv h0) hr
  exact ⟨hI, dispatch_assertions_of_unique env s events u64 r sec clock t hI hm hb hid
    (reachable_bound_id_unique env s0 s ops h0 hn hr t hm hb)⟩

set_option maxRecDepth 100000 in
/-- C24 at `s_pat_cat [dev_fail, dev_fail, dev_ok 6]`, reached from an empty stream by the
PAT and CAT registrations, and the event of the bound PAT subscription with the section
`pat_section`: the decoder registers two program map subscriptions, which stay pending;
PAT is released and CAT, the head of the queue, is bound to descriptor 6. -/
theorem C24_dispatch_assertions_witness :
    run env0 (s_empty ([dev_ok 5, dev_fail] ++ [dev_fail, dev_fail, dev_ok 6])) add_pat_cat =
      some (s_pat_cat [dev_fail, dev_fail, dev_ok 6]) ∧
    (s_pat_cat [dev_fail, dev_fail, dev_ok 6]).tdmi_tables.find?
      (fun x => decide (x.tdt_id = to_int32 (ev_pat &&& 0xffffffff))) = some pat_table ∧
    (∃ s1, dvb_table_input env0 (s_pat_cat [dev_fail, dev_fail, dev_ok 6]) EPOLLIN ev_pat 20
      pat_section 250000 = some s1) ∧
    (dvb_table_input env0 (s_pat_cat [dev_fail, dev_fail, dev_ok 6]) EPOLLIN ev_pat 20
      pat_section 250000).map
        (fun s1 => (s1.tdmi_tables.map (fun u => (u.addr, u.tdt_pid, u.tdt_fd)),
          s1.tdmi_table_queue)) =
      some ([(103, 0x31, -1), (102, 0x30, -1), (101, 1, 6), (100, 0, -1)], [102, 103, 100]) := by
  have h := C24_dispatch_assertions env0
    (s_empty ([dev_ok 5, dev_fail] ++ [dev_fail, dev_fail, dev_ok 6]))
    (s_pat_cat [dev_fail, dev_fail, dev_ok 6]) add_pat_cat EPOLLIN
    ev_pat 20 pat_section 250000 pat_table ⟨rfl, rfl⟩ (by decide) rfl (by decide) (by decide)
    (by decide)
  exact ⟨rfl, h.2.1, h.2.2.2, by decide⟩

theorem vct_loop_total (buf : List Nat) : ∀ (fuel off : Nat) (len numch : Int),
    numch.toNat < fuel → ∃ r, vct_loop buf fuel off len numch = some r := by
  intro fuel
  induction fuel with
  | zero => intro off len numch h; omega
  | succ n ih =>
    intro off len numch h
    simp only [vct_loop]
    split
    · rename_i hc
      split
      · exact ⟨_, rfl⟩
      · exact ih _ _ _ (by omega)
    · exact ⟨_, rfl⟩

/-- The return value of `atsc_vct_callback` is defined for every section: the fuel of its
loop suffices. -/
theorem atsc_vct_callback_ret_total (buf : List Nat) (len : Int) (tableid : Nat) :
    ∃ r, atsc_vct_callback_ret buf len tableid = some r := by
  unfold atsc_vct_callback_ret
  split
  · exact ⟨_, rfl⟩
  · split
    · exact ⟨_, rfl⟩
    · exact vct_loop_total buf _ _ _ _ (by omega)

end DvbTables
